import Mathlib

/-!
# Allocation-step instrumentation (`src/heap/allocation-observer.cc`)

A shallow embedding of `AllocationObserver::AllocationStep`, of the
`AllocationCounter` operations, of `PauseAllocationObserversScope` and of the
assertions (`DCHECK`s) they evaluate.

* Observer objects live in a store indexed by their address (`ObserverRef`); the
  counter holds a list of such references, as the source holds a vector of pointers.
* The target is a 64-bit one. `intptr_t` values are mathematical integers (signed
  overflow is undefined behaviour in the source, so no wrap-around is modelled for
  them); `size_t` arithmetic wraps modulo `2^64`; `static_cast<int>` is reduction
  modulo `2^32` read as a signed value.
* An operation yields an `Outcome`: the state reached together with the assertion
  that failed, if any. When an assertion fails the state is the one at the failing
  check and nothing after the check is executed.
* Invocations of `AllocationStep`, `Step` and `CreateFillerObjectAt` are appended
  to a trace, so that statements about what is invoked, and with which arguments,
  can be made.
* The scope acts on the spaces of the heap only; they are kept apart from the
  counter's state, each space counting the pause and resume calls it receives.
-/

namespace v8.internal

/-! ## Machine integers -/

/-- An `Address`; `0` is the null address. -/
abbrev Address := Nat

/-- The identity (address) of an `AllocationObserver` object. -/
abbrev ObserverRef := Nat

/-- The conversion `static_cast<int>(x)`: `x` modulo `2^32`, read as a signed 32-bit value. -/
def static_cast_int (x : Int) : Int := (x + 2147483648) % 4294967296 - 2147483648

/-- The value of an integer expression stored in a `size_t`: reduction modulo `2^64`. -/
def to_size_t (x : Int) : Nat := (x % 18446744073709551616).toNat

/-! ## Data model -/

/-- The assertions of the source file, named by what they detect. -/
inductive Fatal
  /-- Line 20, `DCHECK(allocation_observers_.end() != it)`. -/
  | observer_not_registered
  /-- Line 30, `DCHECK(!HasAllocationObservers() || next_step > 0)`. -/
  | next_step_not_positive
  /-- Line 39, `DCHECK_LE(allocated, next_counter_ - current_counter_)`. -/
  | bytes_cross_threshold
  /-- Line 48, `DCHECK_GT(object_size, next_counter_ - current_counter_)`. -/
  | object_below_threshold
  /-- Line 50, `DCHECK(!heap_->allocation_step_in_progress())`. -/
  | allocation_step_in_progress
  /-- Line 52, `DCHECK(soon_object)`. -/
  | null_soon_object
  /-- Line 70, `DCHECK_GE(bytes_allocated, 0)`. -/
  | bytes_allocated_negative
  /-- Line 77, `DCHECK_GE(bytes_to_next_step_, 0)`. -/
  | bytes_to_next_step_negative
  /-- Line 82, `DCHECK_EQ(heap->gc_state(), Heap::NOT_IN_GC)`. -/
  | heap_in_gc
deriving DecidableEq, Repr

/-- The invocations recorded in the trace, with their arguments. -/
inductive Event
  | AllocationStep (observer : ObserverRef) (bytes_allocated : Int) (soon_object : Address)
      (size : Nat)
  | Step (observer : ObserverRef) (bytes_allocated : Int) (soon_object : Address) (size : Nat)
  | CreateFillerObjectAt (addr : Address) (size : Int)
deriving DecidableEq, Repr

/-- The fields of an `AllocationObserver` (both `intptr_t`). -/
structure AllocationObserver where
  step_size_ : Int
  bytes_to_next_step_ : Int
deriving DecidableEq, Repr

/-- The fields of an `AllocationCounter`: the vector of observer pointers and the three
`size_t` counters. -/
structure AllocationCounter where
  allocation_observers_ : List ObserverRef
  prev_counter_ : Nat
  current_counter_ : Nat
  next_counter_ : Nat
deriving DecidableEq, Repr

/-- Modelled from the spec: the part of `Heap` this file uses, the process-wide
"allocation step in progress" flag read by `allocation_step_in_progress()` and written by
`set_allocation_step_in_progress(bool)`. The `Heap` class itself is not part of the source
file. -/
structure Heap where
  allocation_step_in_progress_ : Bool
deriving DecidableEq, Repr

/-- Everything the operations read or write: the observer objects, the counter, the heap flag
and the trace of invocations. -/
structure World where
  observers : ObserverRef → AllocationObserver
  counter : AllocationCounter
  heap : Heap
  trace : List Event

/-- The result of running an operation: the state or value reached and the assertion that
failed, if one did. -/
structure Outcome (α : Type) where
  val : α
  fatal : Option Fatal

/-- Sequencing: the continuation runs only when no assertion has failed. -/
def Outcome.andThen {α β : Type} (r : Outcome α) (f : α → Outcome β) (stuck : α → β) :
    Outcome β :=
  match r.fatal with
  | none => f r.val
  | some e => ⟨stuck r.val, some e⟩

/-- The virtual members of `AllocationObserver`, supplied by its subclasses: the callback
`Step`, which may act on the whole state (it may call back into the counter), and
`GetNextStepSize`, which reads it. -/
structure Callbacks where
  Step : ObserverRef → Int → Address → Nat → World → Outcome World
  GetNextStepSize : ObserverRef → World → Int

/-- Observers whose `Step` touches nothing of the modelled state (its invocation is still
recorded in the trace by the caller), with the period policy `GetNextStepSize`. -/
def Callbacks.passive (GetNextStepSize : ObserverRef → World → Int) : Callbacks where
  Step := fun _ _ _ _ w => ⟨w, none⟩
  GetNextStepSize := GetNextStepSize

namespace World

/-- Append an invocation to the trace. -/
def record (w : World) (e : Event) : World :=
  { w with trace := w.trace ++ [e] }

/-- Assignment to `bytes_to_next_step_` of the observer `o`. -/
def set_bytes_to_next_step (w : World) (o : ObserverRef) (v : Int) : World :=
  { w with
    observers :=
      Function.update w.observers o { (w.observers o) with bytes_to_next_step_ := v } }

/-- Assignment to `step_size_` of the observer `o`. -/
def set_step_size (w : World) (o : ObserverRef) (v : Int) : World :=
  { w with
    observers := Function.update w.observers o { (w.observers o) with step_size_ := v } }

/-- Modelled from the spec: the constructors, which are in the header and not in the source
file. A counter starts with its three counters at zero and no observer; an observer created
with period `step_size o` starts with `bytes_to_next_step_ = step_size_ = step_size o`; the
heap flag is clear. -/
def init (step_size : ObserverRef → Int) : World where
  observers := fun o => ⟨step_size o, step_size o⟩
  counter := ⟨[], 0, 0, 0⟩
  heap := ⟨false⟩
  trace := []

end World

/-! ## `AllocationObserver::AllocationStep` (lines 68-78) -/

/-- The member `AllocationObserver::AllocationStep`, on the observer `self`. -/
def AllocationStep (cb : Callbacks) (self : ObserverRef) (bytes_allocated : Int)
    (soon_object : Address) (size : Nat) (w : World) : Outcome World :=
  let w0 := w.record (Event.AllocationStep self bytes_allocated soon_object size)
  -- DCHECK_GE(bytes_allocated, 0);
  if bytes_allocated < 0 then ⟨w0, some Fatal.bytes_allocated_negative⟩
  else
    -- bytes_to_next_step_ -= bytes_allocated;
    let w1 := w0.set_bytes_to_next_step self
      ((w0.observers self).bytes_to_next_step_ - bytes_allocated)
    let r : Outcome World :=
      if (w1.observers self).bytes_to_next_step_ ≤ 0 then
        -- Step(static_cast<int>(step_size_ - bytes_to_next_step_), soon_object, size);
        let arg := static_cast_int
          ((w1.observers self).step_size_ - (w1.observers self).bytes_to_next_step_)
        (cb.Step self arg soon_object size
          (w1.record (Event.Step self arg soon_object size))).andThen
          (fun w2 =>
            -- step_size_ = GetNextStepSize();
            let w3 := w2.set_step_size self (cb.GetNextStepSize self w2)
            -- bytes_to_next_step_ = step_size_;
            ⟨w3.set_bytes_to_next_step self (w3.observers self).step_size_, none⟩)
          id
      else ⟨w1, none⟩
    -- DCHECK_GE(bytes_to_next_step_, 0);
    r.andThen
      (fun w4 =>
        if (w4.observers self).bytes_to_next_step_ < 0 then
          ⟨w4, some Fatal.bytes_to_next_step_negative⟩
        else ⟨w4, none⟩)
      id

/-! ## `AllocationCounter` (lines 13-66) -/

/-- Modelled from the spec: `HasAllocationObservers()`, declared in the header, holds when
the observer collection is non-empty. -/
def HasAllocationObservers (w : World) : Bool :=
  !w.counter.allocation_observers_.isEmpty

/-- Modelled from the spec: `IsActive()`, declared in the header; the spec gives
`IsActive() == (allocation_observers is non-empty)`. -/
def IsActive (w : World) : Bool :=
  !w.counter.allocation_observers_.isEmpty

/-- The member `AllocationCounter::AddAllocationObserver`: `push_back`. -/
def AddAllocationObserver (observer : ObserverRef) (w : World) : Outcome World :=
  ⟨{ w with counter :=
      { w.counter with
        allocation_observers_ := w.counter.allocation_observers_ ++ [observer] } }, none⟩

/-- The member `AllocationCounter::RemoveAllocationObserver`: `std::find`, the assertion that
the observer was found, and `erase` of the found (first) position. -/
def RemoveAllocationObserver (observer : ObserverRef) (w : World) : Outcome World :=
  if observer ∈ w.counter.allocation_observers_ then
    ⟨{ w with counter :=
        { w.counter with
          allocation_observers_ := w.counter.allocation_observers_.erase observer } }, none⟩
  else ⟨w, some Fatal.observer_not_registered⟩

/-- One round of the running-minimum update
`next_step = next_step ? Min(next_step, bytes) : bytes`. -/
def next_step_update (next_step bytes : Int) : Int :=
  if next_step ≠ 0 then min next_step bytes else bytes

/-- The member `AllocationCounter::GetNextInlineAllocationStepSize`: the returned value and the
outcome of its assertion. -/
def GetNextInlineAllocationStepSize (w : World) : Outcome Int :=
  let next_step := w.counter.allocation_observers_.foldl
    (fun next_step observer =>
      next_step_update next_step (w.observers observer).bytes_to_next_step_) 0
  -- DCHECK(!HasAllocationObservers() || next_step > 0);
  if !(!HasAllocationObservers w || decide (next_step > 0)) then
    ⟨next_step, some Fatal.next_step_not_positive⟩
  else ⟨next_step, none⟩

/-- The member `AllocationCounter::NotifyBytes`. -/
def NotifyBytes (allocated : Nat) (w : World) : Outcome World :=
  if !IsActive w then ⟨w, none⟩
  -- DCHECK_LE(allocated, next_counter_ - current_counter_);
  else if ¬ allocated ≤ to_size_t (w.counter.next_counter_ - w.counter.current_counter_) then
    ⟨w, some Fatal.bytes_cross_threshold⟩
  else
    -- current_counter_ += allocated;
    ⟨{ w with counter :=
        { w.counter with
          current_counter_ := to_size_t (w.counter.current_counter_ + allocated) } }, none⟩

/-- The loop of `NotifyObject` (lines 56-61) over the observers still to visit: each one
receives `AllocationStep` and its countdown is folded into `next_step`. -/
def NotifyObjectLoop (cb : Callbacks) (bytes_allocated : Int) (soon_object : Address)
    (object_size : Nat) : List ObserverRef → Int → World → Outcome (World × Int)
  | [], next_step, w => ⟨(w, next_step), none⟩
  | observer :: rest, next_step, w =>
    let r := AllocationStep cb observer bytes_allocated soon_object object_size w
    match r.fatal with
    | some e => ⟨(r.val, next_step), some e⟩
    | none =>
      NotifyObjectLoop cb bytes_allocated soon_object object_size rest
        (next_step_update next_step (r.val.observers observer).bytes_to_next_step_) r.val

/-- The member `AllocationCounter::NotifyObject`. -/
def NotifyObject (cb : Callbacks) (soon_object : Address) (object_size : Nat) (w : World) :
    Outcome World :=
  if !IsActive w then ⟨w, none⟩
  -- DCHECK_GT(object_size, next_counter_ - current_counter_);
  else if ¬ object_size > to_size_t (w.counter.next_counter_ - w.counter.current_counter_) then
    ⟨w, some Fatal.object_below_threshold⟩
  else
    let bytes_since_last_step : Nat :=
      to_size_t (w.counter.current_counter_ - w.counter.prev_counter_)
    -- DCHECK(!heap_->allocation_step_in_progress());
    if w.heap.allocation_step_in_progress_ then ⟨w, some Fatal.allocation_step_in_progress⟩
    else
      -- heap_->set_allocation_step_in_progress(true);
      let w1 := { w with heap := { w.heap with allocation_step_in_progress_ := true } }
      -- DCHECK(soon_object);
      if soon_object = 0 then ⟨w1, some Fatal.null_soon_object⟩
      else
        -- heap_->CreateFillerObjectAt(soon_object, static_cast<int>(object_size), ...);
        let w2 := w1.record (Event.CreateFillerObjectAt soon_object (static_cast_int object_size))
        (NotifyObjectLoop cb (static_cast_int bytes_since_last_step) soon_object object_size
          w2.counter.allocation_observers_ 0 w2).andThen
          (fun p =>
            -- heap_->set_allocation_step_in_progress(false);
            let w3 := { p.1 with heap := { p.1.heap with allocation_step_in_progress_ := false } }
            -- prev_counter_ = current_counter_;
            let w4 := { w3 with counter :=
              { w3.counter with prev_counter_ := w3.counter.current_counter_ } }
            -- next_counter_ = current_counter_ + object_size + next_step;
            ⟨{ w4 with counter :=
                { w4.counter with
                  next_counter_ :=
                    to_size_t (w4.counter.current_counter_ + object_size + p.2) } }, none⟩)
          (fun p => p.1)

/-! ## Sequences of calls -/

/-- A call of one of the four state-changing operations of the counter. -/
inductive Op
  | AddAllocationObserver (observer : ObserverRef)
  | RemoveAllocationObserver (observer : ObserverRef)
  | NotifyBytes (allocated : Nat)
  | NotifyObject (soon_object : Address) (object_size : Nat)
deriving DecidableEq, Repr

/-- Perform one call. -/
def applyOp (cb : Callbacks) : Op → World → Outcome World
  | Op.AddAllocationObserver observer, w => AddAllocationObserver observer w
  | Op.RemoveAllocationObserver observer, w => RemoveAllocationObserver observer w
  | Op.NotifyBytes allocated, w => NotifyBytes allocated w
  | Op.NotifyObject soon_object object_size, w => NotifyObject cb soon_object object_size w

/-- Perform a sequence of calls, stopping at the first failed assertion. -/
def run (cb : Callbacks) : List Op → World → Outcome World
  | [], w => ⟨w, none⟩
  | op :: rest, w =>
    match (applyOp cb op w).fatal with
    | none => run cb rest (applyOp cb op w).val
    | some e => ⟨(applyOp cb op w).val, some e⟩

/-- A sequence of `AllocationStep` calls on the observer `self`, each given as
`(bytes_allocated, soon_object, size)`, stopping at the first failed assertion. -/
def AllocationSteps (cb : Callbacks) (self : ObserverRef) :
    List (Int × Address × Nat) → World → Outcome World
  | [], w => ⟨w, none⟩
  | c :: rest, w =>
    match (AllocationStep cb self c.1 c.2.1 c.2.2 w).fatal with
    | none => AllocationSteps cb self rest (AllocationStep cb self c.1 c.2.1 c.2.2 w).val
    | some e => ⟨(AllocationStep cb self c.1 c.2.1 c.2.2 w).val, some e⟩

/-! ## Definitions used to state the properties -/

/-- Whether an event of the trace is an invocation of `Step`. -/
def Event.isStep : Event → Bool
  | Event.Step _ _ _ _ => true
  | _ => false

/-- Whether an event of the trace is an invocation of `AllocationStep`. -/
def Event.isAllocationStep : Event → Bool
  | Event.AllocationStep _ _ _ _ => true
  | _ => false

/-- The state in which a passive observer's `GetNextStepSize` is evaluated when
`AllocationStep` fires: both invocations are recorded and the countdown is decremented. -/
def firedWorld (self : ObserverRef) (bytes_allocated : Int) (soon_object : Address) (size : Nat)
    (w : World) : World :=
  ((w.record (Event.AllocationStep self bytes_allocated soon_object size)).set_bytes_to_next_step
    self ((w.observers self).bytes_to_next_step_ - bytes_allocated)).record
    (Event.Step self
      (static_cast_int ((w.observers self).step_size_ -
        ((w.observers self).bytes_to_next_step_ - bytes_allocated)))
      soon_object size)

/-- One event of the count of bytes handed to the observer `self` since its last firing: an
`AllocationStep` on `self` adds its `bytes_allocated`, a `Step` of `self` restarts the count. -/
def accumulate (self : ObserverRef) (acc : Int) : Event → Int
  | Event.AllocationStep o b _ _ => if o = self then acc + b else acc
  | Event.Step o _ _ _ => if o = self then 0 else acc
  | Event.CreateFillerObjectAt _ _ => acc

/-- The bytes handed to the observer `self` since its last firing, read off the trace. -/
def bytesSinceFiring (self : ObserverRef) (trace : List Event) : Int :=
  trace.foldl (accumulate self) 0

/-- An observer of period `2^32` that has been notified of `2^31 - 1` bytes twice: two bytes
of its period remain. -/
def wideObserverWorld : World :=
  (AllocationSteps (Callbacks.passive fun _ _ => 4294967296) 0
    [(2147483647, 8, 16), (2147483647, 8, 16)] (World.init fun _ => 4294967296)).val

/-- The accounting invariant of one observer: the part of its period already consumed,
`step_size_ - bytes_to_next_step_`, is the number of bytes handed to it since its last firing,
and that number is not negative. -/
def PeriodInv (self : ObserverRef) (w : World) : Prop :=
  (w.observers self).step_size_ - (w.observers self).bytes_to_next_step_ =
      bytesSinceFiring self w.trace ∧
    0 ≤ bytesSinceFiring self w.trace

/-- The state in which the loop of `NotifyObject` starts: the step-in-progress flag is set and
the filler object has been created (lines 51-54). -/
def fillerWorld (soon_object : Address) (object_size : Nat) (w : World) : World :=
  World.record { w with heap := { w.heap with allocation_step_in_progress_ := true } }
    (Event.CreateFillerObjectAt soon_object (static_cast_int object_size))

/-- The observer fan-out of `NotifyObject` (lines 55-61) as run from the state `w` in which
`NotifyObject` was called: the state after the loop and the value of `next_step`. -/
def fanOut (cb : Callbacks) (soon_object : Address) (object_size : Nat) (w : World) :
    Outcome (World × Int) :=
  NotifyObjectLoop cb
    (static_cast_int (to_size_t (w.counter.current_counter_ - w.counter.prev_counter_)))
    soon_object object_size w.counter.allocation_observers_ 0
    (fillerWorld soon_object object_size w)

/-- No arithmetic overflow in a call: the sum `current_counter_ + object_size + next_step`
that an active `NotifyObject` stores into `next_counter_` fits a `size_t`. The other
operations compute no sum that can exceed the range when their assertions hold. -/
def NoOverflow (cb : Callbacks) : Op → World → Prop
  | Op.NotifyObject soon_object object_size, w =>
    IsActive w = true →
      (w.counter.current_counter_ : Int) + object_size +
          (fanOut cb soon_object object_size w).val.2 < 18446744073709551616
  | _, _ => True

/-- The states reachable from a fresh counter, with observers created with the periods
`step_size`, by calls that each pass all the assertions they evaluate. -/
inductive Reachable (cb : Callbacks) (step_size : ObserverRef → Int) : World → Prop
  | init : Reachable cb step_size (World.init step_size)
  | step {w : World} (op : Op) (hw : Reachable cb step_size w)
      (hok : (applyOp cb op w).fatal = none) : Reachable cb step_size (applyOp cb op w).val

/-- The states reachable as in `Reachable` by calls that, in addition, do not overflow. -/
inductive ReachableWithoutOverflow (cb : Callbacks) (step_size : ObserverRef → Int) :
    World → Prop
  | init : ReachableWithoutOverflow cb step_size (World.init step_size)
  | step {w : World} (op : Op) (hw : ReachableWithoutOverflow cb step_size w)
      (hok : (applyOp cb op w).fatal = none) (hno : NoOverflow cb op w) :
      ReachableWithoutOverflow cb step_size (applyOp cb op w).val

/-- The ordering of the three counters, with the range of the largest. -/
def CounterOrder (w : World) : Prop :=
  w.counter.prev_counter_ ≤ w.counter.current_counter_ ∧
    w.counter.current_counter_ ≤ w.counter.next_counter_ ∧
    w.counter.next_counter_ < 18446744073709551616

/-- A counter with one observer of period 100 after the calls `AddAllocationObserver`,
`NotifyObject(8, 16)` and `NotifyBytes(16)`. -/
def steppedOnceWorld : World :=
  (run (Callbacks.passive fun _ _ => 100)
    [Op.AddAllocationObserver 1, Op.NotifyObject 8 16, Op.NotifyBytes 16]
    (World.init fun _ => 100)).val

/-- The value `v` is the minimum of `bytes_to_next_step_` over the registered observers: some
registered observer has it and none has less. -/
def IsMinimumStep (w : World) (v : Int) : Prop :=
  (∃ o ∈ w.counter.allocation_observers_, (w.observers o).bytes_to_next_step_ = v) ∧
    ∀ o ∈ w.counter.allocation_observers_, v ≤ (w.observers o).bytes_to_next_step_

/-- Two observers, the first with period 5 and a `GetNextStepSize` that returns 0, the second
with period 7, after `NotifyObject(8, 16)`, `NotifyBytes(16)`, `NotifyBytes(5)` and
`NotifyObject(64, 8)`: both have fired, and the countdown of the first one is 0. -/
def zeroCountdownWorld : World :=
  (run (Callbacks.passive fun o _ => if o = 1 then 0 else 7)
    [Op.AddAllocationObserver 1, Op.AddAllocationObserver 2, Op.NotifyObject 8 16,
      Op.NotifyBytes 16, Op.NotifyBytes 5, Op.NotifyObject 64 8]
    (World.init fun o => if o = 1 then 5 else 7)).val

/-- Every observer object has a positive countdown. -/
def AllPositive (w : World) : Prop :=
  ∀ o, 0 < (w.observers o).bytes_to_next_step_

/-- The periods of two observers: 5 for the observer 1, and 7. -/
def twoPeriods (o : ObserverRef) : Int := if o = 1 then 5 else 7

/-- Two observers of periods 5 and 7 after `NotifyObject(8, 16)`, `NotifyBytes(16)`,
`NotifyBytes(5)` and `NotifyObject(64, 8)`: both have fired. -/
def twoObserversWorld : World :=
  (run (Callbacks.passive fun o _ => twoPeriods o)
    [Op.AddAllocationObserver 1, Op.AddAllocationObserver 2, Op.NotifyObject 8 16,
      Op.NotifyBytes 16, Op.NotifyBytes 5, Op.NotifyObject 64 8]
    (World.init twoPeriods)).val

/-- A counter with one observer of period `2^32 + 5` after `NotifyObject(8, 16)`,
`NotifyBytes(16)` and `NotifyBytes(2^32 + 5)`: `2^32 + 21` bytes have been notified since the
last step and the threshold is reached. -/
def wideCounterWorld : World :=
  (run (Callbacks.passive fun _ _ => 4294967301)
    [Op.AddAllocationObserver 1, Op.NotifyObject 8 16, Op.NotifyBytes 16,
      Op.NotifyBytes 4294967301]
    (World.init fun _ => 4294967301)).val

/-- Two observers of periods 5 and 7 after `NotifyObject(8, 16)`, `NotifyBytes(16)` and
`NotifyBytes(5)`: 21 bytes have been notified since the last step and the threshold is
reached. -/
def twoObserversDueWorld : World :=
  (run (Callbacks.passive fun o _ => twoPeriods o)
    [Op.AddAllocationObserver 1, Op.AddAllocationObserver 2, Op.NotifyObject 8 16,
      Op.NotifyBytes 16, Op.NotifyBytes 5]
    (World.init twoPeriods)).val

/-- One call, in the bookkeeping of the bytes notified since the observer `o` had its
countdown last updated: the registered observers and that number of bytes. Registering `o`
and stepping `o` (a `NotifyObject` while `o` is registered) restart the count, and every
`NotifyBytes` adds to it. -/
def sinceUpdateStep (o : ObserverRef) (g : List ObserverRef × Nat) :
    Op → List ObserverRef × Nat
  | Op.AddAllocationObserver a => (g.1 ++ [a], if a = o then 0 else g.2)
  | Op.RemoveAllocationObserver a => (g.1.erase a, g.2)
  | Op.NotifyBytes n => (g.1, g.2 + n)
  | Op.NotifyObject _ _ => (g.1, if o ∈ g.1 then 0 else g.2)

/-- The bytes notified to the counter, over the calls `ops`, since the countdown of the
observer `o` was last updated: since its last `AllocationStep` or, if there was none, since
it was registered. -/
def bytesSinceUpdate (o : ObserverRef) (ops : List Op) : Nat :=
  (ops.foldl (sinceUpdateStep o) ([], 0)).2

/-- One call, in the bookkeeping of the bytes notified while at least one observer was
registered, since the last step of the counter: the registered observers and that number of
bytes. A `NotifyBytes` made while an observer is registered adds its bytes and a `NotifyObject`
made while an observer is registered (a step) restarts the count; a `NotifyBytes` or a
`NotifyObject` made while no observer is registered leaves the count as it is. -/
def countedStep (g : List ObserverRef × Nat) : Op → List ObserverRef × Nat
  | Op.AddAllocationObserver a => (g.1 ++ [a], g.2)
  | Op.RemoveAllocationObserver a => (g.1.erase a, g.2)
  | Op.NotifyBytes n => (g.1, if g.1.isEmpty then g.2 else g.2 + n)
  | Op.NotifyObject _ _ => (g.1, if g.1.isEmpty then g.2 else 0)

/-- The bytes notified to the counter over the calls `ops`, while at least one observer was
registered, since the counter's last step (its last `NotifyObject` made while at least one
observer was registered), or since its creation if it has not stepped. Bytes notified while no
observer is registered are not counted. -/
def bytesCountedSinceStep (ops : List Op) : Nat :=
  (ops.foldl countedStep ([], 0)).2

/-- The bookkeeping `g` describes the state `w`: same registered observers, and the distance
`current_counter_ - prev_counter_`, as a `size_t`, is the number of bytes of `g`. -/
def Tracks (w : World) (g : List ObserverRef × Nat) : Prop :=
  w.counter.allocation_observers_ = g.1 ∧
    ((w.counter.current_counter_ : Int) - w.counter.prev_counter_) % 18446744073709551616 =
      (g.2 : Int) % 18446744073709551616

/-- The calls after which a second observer is registered although 16 bytes have already been
notified since the last step: one observer, a step, 16 bytes, then the second observer. -/
def lateRegistration : List Op :=
  [Op.AddAllocationObserver 1, Op.NotifyObject 8 16, Op.NotifyBytes 16,
    Op.AddAllocationObserver 2]

/-- The calls in which 1000 bytes are notified while no observer is registered: one observer,
a step, 16 bytes, the observer removed, 1000 bytes, then a second observer. -/
def unobservedBytes : List Op :=
  [Op.AddAllocationObserver 1, Op.NotifyObject 8 16, Op.NotifyBytes 16,
    Op.RemoveAllocationObserver 1, Op.NotifyBytes 1000, Op.AddAllocationObserver 2]

/-- Observers whose `Step` makes a nested call `NotifyObject(soon_object, object_size)` on the
counter; the observers of the nested call run with the callbacks `inner`. -/
def Callbacks.reentrant (inner : Callbacks) (soon_object : Address) (object_size : Nat)
    (GetNextStepSize : ObserverRef → World → Int) : Callbacks where
  Step := fun _ _ _ _ w => NotifyObject inner soon_object object_size w
  GetNextStepSize := GetNextStepSize

/-- The assertion that `NotifyObject(_, object_size)` fails on an active counter while a step
is in progress: the size assertion if the size does not cross the threshold (it is evaluated
first), the re-entrancy assertion otherwise. -/
def nestedFatal (object_size : Nat) (w : World) : Fatal :=
  if object_size ≤ to_size_t (w.counter.next_counter_ - w.counter.current_counter_) then
    Fatal.object_below_threshold
  else Fatal.allocation_step_in_progress

/-- One observer of period 100 after `NotifyObject(8, 16)`, `NotifyBytes(16)` and
`NotifyBytes(100)`: the threshold is reached and the observer's period has elapsed. -/
def observerDueWorld : World :=
  (run (Callbacks.passive fun _ _ => 100)
    [Op.AddAllocationObserver 1, Op.NotifyObject 8 16, Op.NotifyBytes 16, Op.NotifyBytes 100]
    (World.init fun _ => 100)).val

/-- The first arguments (`bytes_allocated`) of the `Step` invocations of a trace, in order. -/
def stepArguments : List Event → List Int
  | [] => []
  | Event.Step _ b _ _ :: rest => b :: stepArguments rest
  | Event.AllocationStep _ _ _ _ :: rest => stepArguments rest
  | Event.CreateFillerObjectAt _ _ :: rest => stepArguments rest

/-- The bookkeeping of an observer `self` of constant period `p` after `k` firings, with `s`
the sum of the arguments handed to `Step` and `t` the bytes notified so far: the period is `p`,
the countdown is within `(0, p]`, each firing has consumed at least a period, nothing has been
consumed before the first firing but what is accumulated, and the bytes handed to `Step` plus
the accumulated ones are the bytes notified, modulo `2^32` and, when `exact` holds, exactly. -/
def FiringInv (exact : Prop) (p : Int) (self : ObserverRef) (w : World) (k : Nat)
    (s t : Int) : Prop :=
  (w.observers self).step_size_ = p ∧
    0 < (w.observers self).bytes_to_next_step_ ∧
    (w.observers self).bytes_to_next_step_ ≤ p ∧
    (k : Int) * p + (p - (w.observers self).bytes_to_next_step_) ≤ t ∧
    (k = 0 → p - (w.observers self).bytes_to_next_step_ = t) ∧
    (s + (p - (w.observers self).bytes_to_next_step_) - t) % 4294967296 = 0 ∧
    (exact → s + (p - (w.observers self).bytes_to_next_step_) = t)

/-! ## `PauseAllocationObserversScope` (lines 80-93) -/

/-- Modelled from the spec: the values of `Heap::gc_state()` as far as the scope tells them
apart, `NOT_IN_GC` and any state in which a garbage collection is running. The enumeration is
declared with `Heap`, which is not part of the source file. -/
inductive HeapState
  | NOT_IN_GC
  | IN_GC
deriving DecidableEq, Repr

/-- Modelled from the spec: a space of the heap, identified by `id`, with its paused state kept
as counters: the number of `PauseAllocationObservers()` calls and the number of
`ResumeAllocationObservers()` calls it has received. -/
structure Space where
  id : Nat
  pause_calls : Nat
  resume_calls : Nat
deriving DecidableEq, Repr

/-- Modelled from the spec: the member `Space::PauseAllocationObservers`, counted. -/
def Space.PauseAllocationObservers (s : Space) : Space :=
  { s with pause_calls := s.pause_calls + 1 }

/-- Modelled from the spec: the member `Space::ResumeAllocationObservers`, counted. -/
def Space.ResumeAllocationObservers (s : Space) : Space :=
  { s with resume_calls := s.resume_calls + 1 }

/-- The calls made on spaces, recorded with the space they are made on. -/
inductive SpaceCall
  | PauseAllocationObservers (space : Nat)
  | ResumeAllocationObservers (space : Nat)
deriving DecidableEq, Repr

/-- Modelled from the spec: what `PauseAllocationObserversScope` uses of the heap: its GC
state, its spaces in the order in which `SpaceIterator` yields them, and the record of the
calls made on the spaces. -/
structure HeapSpaces where
  gc_state_ : HeapState
  spaces : List Space
  calls : List SpaceCall
deriving DecidableEq, Repr

/-- The loop `for (SpaceIterator it(heap_); it.HasNext();) it.Next()->member()` over the
spaces still to visit: each space yielded receives the call `member`, recorded as `call`. -/
def SpaceIteratorLoop (member : Space → Space) (call : Nat → SpaceCall) :
    List Space → List SpaceCall → List Space × List SpaceCall
  | [], calls => ([], calls)
  | s :: rest, calls =>
    (member s :: (SpaceIteratorLoop member call rest (calls ++ [call s.id])).1,
      (SpaceIteratorLoop member call rest (calls ++ [call s.id])).2)

/-- The constructor `PauseAllocationObserversScope::PauseAllocationObserversScope(Heap*)`. -/
def PauseAllocationObserversScope (heap : HeapSpaces) : Outcome HeapSpaces :=
  -- DCHECK_EQ(heap->gc_state(), Heap::NOT_IN_GC);
  if heap.gc_state_ ≠ HeapState.NOT_IN_GC then ⟨heap, some Fatal.heap_in_gc⟩
  else
    ⟨{ heap with
        spaces := (SpaceIteratorLoop Space.PauseAllocationObservers
          SpaceCall.PauseAllocationObservers heap.spaces heap.calls).1
        calls := (SpaceIteratorLoop Space.PauseAllocationObservers
          SpaceCall.PauseAllocationObservers heap.spaces heap.calls).2 }, none⟩

/-- The destructor `PauseAllocationObserversScope::~PauseAllocationObserversScope()`. -/
def PauseAllocationObserversScope.destructor (heap : HeapSpaces) : Outcome HeapSpaces :=
  ⟨{ heap with
      spaces := (SpaceIteratorLoop Space.ResumeAllocationObservers
        SpaceCall.ResumeAllocationObservers heap.spaces heap.calls).1
      calls := (SpaceIteratorLoop Space.ResumeAllocationObservers
        SpaceCall.ResumeAllocationObservers heap.spaces heap.calls).2 }, none⟩

/-- The construction or the destruction of a scope. -/
inductive ScopeEvent
  | construct
  | destroy
deriving DecidableEq, Repr

/-- Perform a sequence of scope constructions and destructions on the heap, stopping at the
first failed assertion. -/
def runScopes : List ScopeEvent → HeapSpaces → Outcome HeapSpaces
  | [], heap => ⟨heap, none⟩
  | ScopeEvent.construct :: rest, heap =>
    match (PauseAllocationObserversScope heap).fatal with
    | none => runScopes rest (PauseAllocationObserversScope heap).val
    | some e => ⟨(PauseAllocationObserversScope heap).val, some e⟩
  | ScopeEvent.destroy :: rest, heap =>
    runScopes rest (PauseAllocationObserversScope.destructor heap).val

/-- A sequence of constructions and destructions is properly nested, starting with `depth`
scopes open: every destruction closes an open scope and no scope is left open. -/
def properlyNested : List ScopeEvent → Nat → Bool
  | [], depth => depth == 0
  | ScopeEvent.construct :: rest, depth => properlyNested rest (depth + 1)
  | ScopeEvent.destroy :: rest, depth => decide (0 < depth) && properlyNested rest (depth - 1)

/-- A heap that is not in GC with three spaces on which nothing has been called. -/
def threeSpaces : HeapSpaces :=
  ⟨HeapState.NOT_IN_GC, [⟨0, 0, 0⟩, ⟨1, 0, 0⟩, ⟨2, 0, 0⟩], []⟩

/-- A counter with one observer of period `2^31` after `NotifyObject(8, 16)`,
`NotifyBytes(16)` and `NotifyBytes(2^31)`: `2^31 + 16` bytes have been notified since the last
step and the threshold is reached. -/
def halfRangeWorld : World :=
  (run (Callbacks.passive fun _ _ => 2147483648)
    [Op.AddAllocationObserver 1, Op.NotifyObject 8 16, Op.NotifyBytes 16,
      Op.NotifyBytes 2147483648]
    (World.init fun _ => 2147483648)).val

/-- A fresh counter with one observer of period 100 registered. -/
def oneObserverWorld : World :=
  (AddAllocationObserver 1 (World.init fun _ => 100)).val

/-- Two observers registered in the order 2, 1, of periods 7 and 5, after
`NotifyObject(8, 16)` and `NotifyBytes(16)`: the countdowns are 7 and 5, in that order. -/
def largerFirstWorld : World :=
  (run (Callbacks.passive fun o _ => twoPeriods o)
    [Op.AddAllocationObserver 2, Op.AddAllocationObserver 1, Op.NotifyObject 8 16,
      Op.NotifyBytes 16]
    (World.init twoPeriods)).val

/-- The member `AllocationCounter::NotifyObject` with the heap's `CreateFillerObjectAt`
(lines 53-54) as a parameter that may act on the whole state, as `Step` is in `Callbacks`: the
body of `NotifyObject`, in which `filler` runs in the state in which its invocation has been
recorded, and the loop runs in the state that `filler` leaves. -/
def NotifyObjectWith (filler : Address → Int → World → Outcome World) (cb : Callbacks)
    (soon_object : Address) (object_size : Nat) (w : World) : Outcome World :=
  if !IsActive w then ⟨w, none⟩
  -- DCHECK_GT(object_size, next_counter_ - current_counter_);
  else if ¬ object_size > to_size_t (w.counter.next_counter_ - w.counter.current_counter_) then
    ⟨w, some Fatal.object_below_threshold⟩
  else
    let bytes_since_last_step : Nat :=
      to_size_t (w.counter.current_counter_ - w.counter.prev_counter_)
    -- DCHECK(!heap_->allocation_step_in_progress());
    if w.heap.allocation_step_in_progress_ then ⟨w, some Fatal.allocation_step_in_progress⟩
    else
      -- heap_->set_allocation_step_in_progress(true);
      let w1 := { w with heap := { w.heap with allocation_step_in_progress_ := true } }
      -- DCHECK(soon_object);
      if soon_object = 0 then ⟨w1, some Fatal.null_soon_object⟩
      else
        -- heap_->CreateFillerObjectAt(soon_object, static_cast<int>(object_size), ...);
        (filler soon_object (static_cast_int object_size)
          (w1.record
            (Event.CreateFillerObjectAt soon_object (static_cast_int object_size)))).andThen
          (fun w2 =>
            (NotifyObjectLoop cb (static_cast_int bytes_since_last_step) soon_object object_size
              w2.counter.allocation_observers_ 0 w2).andThen
              (fun p =>
                -- heap_->set_allocation_step_in_progress(false);
                let w3 :=
                  { p.1 with heap := { p.1.heap with allocation_step_in_progress_ := false } }
                -- prev_counter_ = current_counter_;
                let w4 := { w3 with counter :=
                  { w3.counter with prev_counter_ := w3.counter.current_counter_ } }
                -- next_counter_ = current_counter_ + object_size + next_step;
                ⟨{ w4 with counter :=
                    { w4.counter with
                      next_counter_ :=
                        to_size_t (w4.counter.current_counter_ + object_size + p.2) } }, none⟩)
              (fun p => p.1))
          id

/-- The state that a `Step` of the observer of `observerDueWorld`, invoked by
`NotifyObject(64, 8)`, leaves once it has unregistered that observer: the step-in-progress
flag is set and no observer is registered. -/
def unregisteredInStepWorld : World :=
  (RemoveAllocationObserver 1 (firedWorld 1 116 64 8 (fillerWorld 64 8 observerDueWorld))).val

end v8.internal

/-! # Properties -/

namespace v8.internal

/-! ## Basic facts about the state updates and the integer conversions -/

theorem static_cast_int_of_fits (x : Int) (h1 : -2147483648 ≤ x) (h2 : x < 2147483648) :
    static_cast_int x = x := by
  unfold static_cast_int
  omega

theorem to_size_t_lt (x : Int) : to_size_t x < 18446744073709551616 := by
  unfold to_size_t
  omega

@[simp] theorem record_observers (w : World) (e : Event) :
    (w.record e).observers = w.observers := rfl

@[simp] theorem record_counter (w : World) (e : Event) : (w.record e).counter = w.counter := rfl

@[simp] theorem record_heap (w : World) (e : Event) : (w.record e).heap = w.heap := rfl

@[simp] theorem record_trace (w : World) (e : Event) : (w.record e).trace = w.trace ++ [e] := rfl

@[simp] theorem set_bytes_counter (w : World) (o : ObserverRef) (v : Int) :
    (w.set_bytes_to_next_step o v).counter = w.counter := rfl

@[simp] theorem set_bytes_heap (w : World) (o : ObserverRef) (v : Int) :
    (w.set_bytes_to_next_step o v).heap = w.heap := rfl

@[simp] theorem set_bytes_trace (w : World) (o : ObserverRef) (v : Int) :
    (w.set_bytes_to_next_step o v).trace = w.trace := rfl

@[simp] theorem set_bytes_self (w : World) (o : ObserverRef) (v : Int) :
    (w.set_bytes_to_next_step o v).observers o = ⟨(w.observers o).step_size_, v⟩ := by
  simp [World.set_bytes_to_next_step]

theorem set_bytes_other (w : World) (o o2 : ObserverRef) (v : Int) (h : o2 ≠ o) :
    (w.set_bytes_to_next_step o v).observers o2 = w.observers o2 := by
  simp [World.set_bytes_to_next_step, Function.update, h]

@[simp] theorem set_step_counter (w : World) (o : ObserverRef) (v : Int) :
    (w.set_step_size o v).counter = w.counter := rfl

@[simp] theorem set_step_heap (w : World) (o : ObserverRef) (v : Int) :
    (w.set_step_size o v).heap = w.heap := rfl

@[simp] theorem set_step_trace (w : World) (o : ObserverRef) (v : Int) :
    (w.set_step_size o v).trace = w.trace := rfl

@[simp] theorem set_step_self (w : World) (o : ObserverRef) (v : Int) :
    (w.set_step_size o v).observers o = ⟨v, (w.observers o).bytes_to_next_step_⟩ := by
  simp [World.set_step_size]

theorem set_step_other (w : World) (o o2 : ObserverRef) (v : Int) (h : o2 ≠ o) :
    (w.set_step_size o v).observers o2 = w.observers o2 := by
  simp [World.set_step_size, Function.update, h]

/-! ## `AllocationStep` of a passive observer, case by case -/

theorem AllocationStep_negative (cb : Callbacks) (self : ObserverRef) (b : Int)
    (addr : Address) (size : Nat) (w : World) (hb : b < 0) :
    AllocationStep cb self b addr size w =
      ⟨w.record (Event.AllocationStep self b addr size),
        some Fatal.bytes_allocated_negative⟩ := by
  unfold AllocationStep
  simp [hb]

theorem AllocationStep_no_fire (cb : Callbacks) (self : ObserverRef) (b : Int)
    (addr : Address) (size : Nat) (w : World) (hb : 0 ≤ b)
    (hr : 0 < (w.observers self).bytes_to_next_step_ - b) :
    AllocationStep cb self b addr size w =
      ⟨(w.record (Event.AllocationStep self b addr size)).set_bytes_to_next_step self
        ((w.observers self).bytes_to_next_step_ - b), none⟩ := by
  unfold AllocationStep
  have h1 : ¬ b < 0 := by omega
  have h2 : ¬ (w.observers self).bytes_to_next_step_ - b ≤ 0 := by omega
  have h3 : ¬ (w.observers self).bytes_to_next_step_ - b < 0 := by omega
  simp [h1, h2, h3, Outcome.andThen]

theorem AllocationStep_fire (gns : ObserverRef → World → Int) (self : ObserverRef) (b : Int)
    (addr : Address) (size : Nat) (w : World) (hb : 0 ≤ b)
    (hr : (w.observers self).bytes_to_next_step_ - b ≤ 0) :
    AllocationStep (Callbacks.passive gns) self b addr size w =
      ⟨((firedWorld self b addr size w).set_step_size self
          (gns self (firedWorld self b addr size w))).set_bytes_to_next_step self
          (gns self (firedWorld self b addr size w)),
        if gns self (firedWorld self b addr size w) < 0 then
          some Fatal.bytes_to_next_step_negative else none⟩ := by
  unfold AllocationStep
  have h1 : ¬ b < 0 := by omega
  simp only [h1, if_false, record_observers, set_bytes_self, hr, if_true, Callbacks.passive,
    Outcome.andThen, set_step_self, id]
  simp only [firedWorld]
  split_ifs <;> rfl

@[simp] theorem firedWorld_trace (self : ObserverRef) (b : Int) (addr : Address) (size : Nat)
    (w : World) :
    (firedWorld self b addr size w).trace =
      w.trace ++ [Event.AllocationStep self b addr size,
        Event.Step self
          (static_cast_int ((w.observers self).step_size_ -
            ((w.observers self).bytes_to_next_step_ - b))) addr size] := by
  simp [firedWorld]

@[simp] theorem firedWorld_counter (self : ObserverRef) (b : Int) (addr : Address) (size : Nat)
    (w : World) : (firedWorld self b addr size w).counter = w.counter := rfl

@[simp] theorem firedWorld_heap (self : ObserverRef) (b : Int) (addr : Address) (size : Nat)
    (w : World) : (firedWorld self b addr size w).heap = w.heap := rfl

/-! ## C1 -/

/-- C1 (as amended): for a passive observer, every state and every `bytes_allocated >= 0`, with
`r = bytes_to_next_step - bytes_allocated`: if `r > 0` no `Step` is invoked, `step_size` is
unchanged and `bytes_to_next_step` becomes `r`; if `r <= 0` exactly one `Step` is invoked, with
arguments `(static_cast<int>(step_size - r), addr, size)` for the `step_size` from before the
call, the first argument being `step_size - r` itself whenever that value fits a 32-bit `int`,
and afterwards `step_size = bytes_to_next_step =` the value returned by `GetNextStepSize()`.
A single call never invokes `Step` more than once. -/
theorem C1_AllocationStep_contract (gns : ObserverRef → World → Int) (self : ObserverRef)
    (bytes_allocated : Int) (addr : Address) (size : Nat) (w : World)
    (hb : 0 ≤ bytes_allocated) :
    (0 < (w.observers self).bytes_to_next_step_ - bytes_allocated →
      (AllocationStep (Callbacks.passive gns) self bytes_allocated addr size w).val.trace =
        w.trace ++ [Event.AllocationStep self bytes_allocated addr size] ∧
      ((AllocationStep (Callbacks.passive gns) self bytes_allocated addr size w).val.observers
        self).step_size_ = (w.observers self).step_size_ ∧
      ((AllocationStep (Callbacks.passive gns) self bytes_allocated addr size w).val.observers
        self).bytes_to_next_step_ = (w.observers self).bytes_to_next_step_ - bytes_allocated) ∧
    ((w.observers self).bytes_to_next_step_ - bytes_allocated ≤ 0 →
      (AllocationStep (Callbacks.passive gns) self bytes_allocated addr size w).val.trace =
        w.trace ++ [Event.AllocationStep self bytes_allocated addr size,
          Event.Step self
            (static_cast_int ((w.observers self).step_size_ -
              ((w.observers self).bytes_to_next_step_ - bytes_allocated))) addr size] ∧
      (-2147483648 ≤ (w.observers self).step_size_ -
            ((w.observers self).bytes_to_next_step_ - bytes_allocated) →
        (w.observers self).step_size_ -
            ((w.observers self).bytes_to_next_step_ - bytes_allocated) < 2147483648 →
        static_cast_int ((w.observers self).step_size_ -
            ((w.observers self).bytes_to_next_step_ - bytes_allocated)) =
          (w.observers self).step_size_ -
            ((w.observers self).bytes_to_next_step_ - bytes_allocated)) ∧
      ((AllocationStep (Callbacks.passive gns) self bytes_allocated addr size w).val.observers
        self).step_size_ = gns self (firedWorld self bytes_allocated addr size w) ∧
      ((AllocationStep (Callbacks.passive gns) self bytes_allocated addr size w).val.observers
        self).bytes_to_next_step_ = gns self (firedWorld self bytes_allocated addr size w)) ∧
    ((AllocationStep (Callbacks.passive gns) self bytes_allocated addr size w).val.trace.countP
        Event.isStep ≤ w.trace.countP Event.isStep + 1) := by
  refine ⟨fun hr => ?_, fun hr => ?_, ?_⟩
  · rw [AllocationStep_no_fire _ self bytes_allocated addr size w hb hr]
    simp
  · rw [AllocationStep_fire gns self bytes_allocated addr size w hb hr]
    refine ⟨by simp, fun h1 h2 => static_cast_int_of_fits _ h1 h2, by simp, by simp⟩
  · by_cases hr : 0 < (w.observers self).bytes_to_next_step_ - bytes_allocated
    · rw [AllocationStep_no_fire _ self bytes_allocated addr size w hb hr]
      simp [List.countP_append, List.countP_cons, Event.isStep]
    · rw [AllocationStep_fire gns self bytes_allocated addr size w hb (by omega)]
      simp [List.countP_append, List.countP_cons, Event.isStep]

/-- C1, the overshoot example of the spec: an observer with `step_size = 100` and one
allocation of 250 bytes fires `Step` exactly once, with 250. -/
theorem C1_AllocationStep_contract_witness :
    (0 : Int) ≤ 250 ∧
    (AllocationStep (Callbacks.passive fun _ _ => 100) 0 250 8 16
        (World.init fun _ => 100)).val.trace =
      [Event.AllocationStep 0 250 8 16, Event.Step 0 250 8 16] :=
  ⟨by decide,
    ((C1_AllocationStep_contract (fun _ _ => 100) 0 250 8 16 (World.init fun _ => 100)
      (by decide)).2.1 (by decide)).1⟩

/-- C1 as stated fails: an observer of period `2^32` with two bytes of its period left
receives two more bytes, so `r = 0` and `step_size - r = 2^32`; `Step` is invoked with
`static_cast<int>(2^32) = 0`, not with `2^32`. -/
theorem C1_counterexample :
    (wideObserverWorld.observers 0).step_size_ = 4294967296 ∧
    (wideObserverWorld.observers 0).bytes_to_next_step_ - 2 = 0 ∧
    (AllocationStep (Callbacks.passive fun _ _ => 4294967296) 0 2 8 16
        wideObserverWorld).val.trace.filter Event.isStep = [Event.Step 0 0 8 16] ∧
    Event.Step 0 (4294967296 - 0) 8 16 ∉
      (AllocationStep (Callbacks.passive fun _ _ => 4294967296) 0 2 8 16
        wideObserverWorld).val.trace := by
  decide

/-! ## C2 -/

theorem bytesSinceFiring_append (self : ObserverRef) (t1 t2 : List Event) :
    bytesSinceFiring self (t1 ++ t2) = t2.foldl (accumulate self) (bytesSinceFiring self t1) := by
  simp [bytesSinceFiring, List.foldl_append]

theorem AllocationSteps_append (cb : Callbacks) (self : ObserverRef)
    (pre post : List (Int × Address × Nat)) (w : World)
    (h : (AllocationSteps cb self pre w).fatal = none) :
    AllocationSteps cb self (pre ++ post) w =
      AllocationSteps cb self post (AllocationSteps cb self pre w).val := by
  induction pre generalizing w with
  | nil => rfl
  | cons c rest ih =>
    simp only [List.cons_append, AllocationSteps] at h ⊢
    cases hf : (AllocationStep cb self c.1 c.2.1 c.2.2 w).fatal with
    | none =>
      simp only [hf] at h ⊢
      exact ih _ h
    | some e => simp [hf] at h

theorem AllocationSteps_singleton (cb : Callbacks) (self : ObserverRef)
    (c : Int × Address × Nat) (w : World) :
    AllocationSteps cb self [c] w = AllocationStep cb self c.1 c.2.1 c.2.2 w := by
  simp only [AllocationSteps]
  cases h : AllocationStep cb self c.1 c.2.1 c.2.2 w with
  | mk v f => cases f <;> rfl

theorem AllocationStep_period (gns : ObserverRef → World → Int) (self : ObserverRef) (b : Int)
    (addr : Address) (size : Nat) (w : World) (hb : 0 ≤ b) (h : PeriodInv self w) :
    PeriodInv self (AllocationStep (Callbacks.passive gns) self b addr size w).val := by
  obtain ⟨h1, h2⟩ := h
  by_cases hr : 0 < (w.observers self).bytes_to_next_step_ - b
  · rw [AllocationStep_no_fire _ self b addr size w hb hr]
    simp only [PeriodInv, set_bytes_self, record_observers, set_bytes_trace, record_trace,
      bytesSinceFiring_append, List.foldl_cons, List.foldl_nil, accumulate, if_true]
    omega
  · rw [AllocationStep_fire gns self b addr size w hb (by omega)]
    simp [PeriodInv, bytesSinceFiring_append, accumulate]

theorem AllocationSteps_period (gns : ObserverRef → World → Int) (self : ObserverRef)
    (calls : List (Int × Address × Nat)) (w : World) (hcalls : ∀ c ∈ calls, 0 ≤ c.1)
    (h : PeriodInv self w) :
    PeriodInv self (AllocationSteps (Callbacks.passive gns) self calls w).val := by
  induction calls generalizing w with
  | nil => exact h
  | cons c rest ih =>
    have hc : 0 ≤ c.1 := hcalls c (List.mem_cons_self _ _)
    have hstep := AllocationStep_period gns self c.1 c.2.1 c.2.2 w hc h
    simp only [AllocationSteps]
    cases hf : (AllocationStep (Callbacks.passive gns) self c.1 c.2.1 c.2.2 w).fatal with
    | none => exact ih _ (fun c' hc' => hcalls c' (List.mem_cons_of_mem _ hc')) hstep
    | some e => exact hstep

/-- C2 (as amended): an observer starts a period with `bytes_to_next_step = step_size`; after
any sequence `earlier` of `AllocationStep` calls with non-negative sizes, `step_size -
bytes_to_next_step` equals the bytes accumulated since the last firing, and the next call
invokes `Step` exactly when the accumulated bytes, this call included, reach or exceed the
current `step_size`; `Step` then receives `static_cast<int>` of the accumulated amount, which
is the amount itself whenever it is below `2^31`. -/
theorem C2_overshoot_accounting (gns : ObserverRef → World → Int) (self : ObserverRef)
    (w : World) (earlier : List (Int × Address × Nat)) (call : Int × Address × Nat)
    (hstart : (w.observers self).bytes_to_next_step_ = (w.observers self).step_size_)
    (htrace : bytesSinceFiring self w.trace = 0)
    (hearlier : ∀ c ∈ earlier, 0 ≤ c.1) (hcall : 0 ≤ call.1)
    (hbefore : (AllocationSteps (Callbacks.passive gns) self earlier w).fatal = none) :
    let before := (AllocationSteps (Callbacks.passive gns) self earlier w).val
    let accumulated := bytesSinceFiring self before.trace + call.1
    (before.observers self).step_size_ - (before.observers self).bytes_to_next_step_ =
        bytesSinceFiring self before.trace ∧
    AllocationSteps (Callbacks.passive gns) self (earlier ++ [call]) w =
        AllocationStep (Callbacks.passive gns) self call.1 call.2.1 call.2.2 before ∧
    (AllocationStep (Callbacks.passive gns) self call.1 call.2.1 call.2.2 before).val.trace =
        before.trace ++ Event.AllocationStep self call.1 call.2.1 call.2.2 ::
          (if (before.observers self).step_size_ ≤ accumulated then
            [Event.Step self (static_cast_int accumulated) call.2.1 call.2.2]
          else []) ∧
    (accumulated < 2147483648 → static_cast_int accumulated = accumulated) := by
  intro before accumulated
  have hinv : PeriodInv self before :=
    AllocationSteps_period gns self _ w hearlier ⟨by rw [hstart, htrace]; omega, by rw [htrace]⟩
  obtain ⟨h1, h2⟩ := hinv
  refine ⟨h1, ?_, ?_, fun h => static_cast_int_of_fits _ (by omega) h⟩
  · rw [AllocationSteps_append _ _ _ _ _ hbefore, AllocationSteps_singleton]
  · by_cases hr : 0 < (before.observers self).bytes_to_next_step_ - call.1
    · rw [AllocationStep_no_fire _ self call.1 call.2.1 call.2.2 before hcall hr]
      have : ¬ (before.observers self).step_size_ ≤ accumulated := by omega
      simp [this]
    · rw [AllocationStep_fire gns self call.1 call.2.1 call.2.2 before hcall (by omega)]
      have : (before.observers self).step_size_ ≤ accumulated := by omega
      have e : (before.observers self).step_size_ -
          ((before.observers self).bytes_to_next_step_ - call.1) = accumulated := by omega
      simp [this, e]

/-- C2, the trace of the spec: period 100 with allocations 60, 60, 60 does not fire on the
first call, fires on the second with 120, does not fire on the third and leaves
`bytes_to_next_step = 40`; the next firing comes when the total reaches 220, not before. -/
theorem C2_overshoot_accounting_witness :
    (∀ c ∈ [((60 : Int), (8 : Address), (16 : Nat))], 0 ≤ c.1) ∧
    (AllocationSteps (Callbacks.passive fun _ _ => 100) 0 [(60, 8, 16)]
      (World.init fun _ => 100)).fatal = none ∧
    (AllocationSteps (Callbacks.passive fun _ _ => 100) 0 [(60, 8, 16), (60, 8, 16)]
      (World.init fun _ => 100)).val.trace =
      [Event.AllocationStep 0 60 8 16, Event.AllocationStep 0 60 8 16, Event.Step 0 120 8 16] ∧
    (AllocationSteps (Callbacks.passive fun _ _ => 100) 0
      [(60, 8, 16), (60, 8, 16), (60, 8, 16)] (World.init fun _ => 100)).val.trace =
      [Event.AllocationStep 0 60 8 16, Event.AllocationStep 0 60 8 16, Event.Step 0 120 8 16,
        Event.AllocationStep 0 60 8 16] ∧
    ((AllocationSteps (Callbacks.passive fun _ _ => 100) 0
      [(60, 8, 16), (60, 8, 16), (60, 8, 16)] (World.init fun _ => 100)).val.observers
        0).bytes_to_next_step_ = 40 ∧
    (AllocationSteps (Callbacks.passive fun _ _ => 100) 0
      [(60, 8, 16), (60, 8, 16), (60, 8, 16), (39, 8, 16)]
        (World.init fun _ => 100)).val.trace.countP Event.isStep = 1 ∧
    (AllocationSteps (Callbacks.passive fun _ _ => 100) 0
      [(60, 8, 16), (60, 8, 16), (60, 8, 16), (40, 8, 16)]
        (World.init fun _ => 100)).val.trace.filter Event.isStep =
      [Event.Step 0 120 8 16, Event.Step 0 100 8 16] := by
  have h := C2_overshoot_accounting (fun _ _ => 100) 0 (World.init fun _ => 100) [(60, 8, 16)]
    (60, 8, 16) rfl rfl (by decide) (by decide) (by decide)
  refine ⟨by decide, by decide, ?_, by decide, by decide, by decide, by decide⟩
  have h2 := h.2.1
  have h3 := h.2.2.1
  rw [← h2] at h3
  exact h3

/-- C2 as stated fails: with period `2^31 - 1`, allocations of `2^31 - 2` and `2^31 - 1` bytes
accumulate `2^32 - 3` bytes when the observer fires, and `Step` receives `-3`. -/
theorem C2_counterexample :
    (AllocationSteps (Callbacks.passive fun _ _ => 2147483647) 0
      [(2147483646, 8, 16), (2147483647, 8, 16)] (World.init fun _ => 2147483647)).val.trace =
      [Event.AllocationStep 0 2147483646 8 16, Event.AllocationStep 0 2147483647 8 16,
        Event.Step 0 (-3) 8 16] ∧
    bytesSinceFiring 0
      [Event.AllocationStep 0 2147483646 8 16, Event.AllocationStep 0 2147483647 8 16] =
      4294967293 ∧
    Event.Step 0 4294967293 8 16 ∉
      (AllocationSteps (Callbacks.passive fun _ _ => 2147483647) 0
        [(2147483646, 8, 16), (2147483647, 8, 16)]
        (World.init fun _ => 2147483647)).val.trace := by
  decide

/-! ## The loop of `NotifyObject` with passive observers -/

theorem AllocationStep_passive_counter (gns : ObserverRef → World → Int) (self : ObserverRef)
    (b : Int) (addr : Address) (size : Nat) (w : World) :
    (AllocationStep (Callbacks.passive gns) self b addr size w).val.counter = w.counter ∧
    (AllocationStep (Callbacks.passive gns) self b addr size w).val.heap = w.heap := by
  by_cases hb : b < 0
  · rw [AllocationStep_negative _ self b addr size w hb]
    simp
  · by_cases hr : 0 < (w.observers self).bytes_to_next_step_ - b
    · rw [AllocationStep_no_fire _ self b addr size w (by omega) hr]
      simp
    · rw [AllocationStep_fire gns self b addr size w (by omega) (by omega)]
      simp

theorem AllocationStep_passive_other (gns : ObserverRef → World → Int) (self o : ObserverRef)
    (b : Int) (addr : Address) (size : Nat) (w : World) (ho : o ≠ self) :
    (AllocationStep (Callbacks.passive gns) self b addr size w).val.observers o =
      w.observers o := by
  by_cases hb : b < 0
  · rw [AllocationStep_negative _ self b addr size w hb]
    simp
  · by_cases hr : 0 < (w.observers self).bytes_to_next_step_ - b
    · rw [AllocationStep_no_fire _ self b addr size w (by omega) hr]
      simp [set_bytes_other _ _ _ _ ho]
    · rw [AllocationStep_fire gns self b addr size w (by omega) (by omega)]
      simp [set_bytes_other _ _ _ _ ho, set_step_other _ _ _ _ ho, firedWorld]

theorem AllocationStep_passive_self (gns : ObserverRef → World → Int) (self : ObserverRef)
    (b : Int) (addr : Address) (size : Nat) (w : World)
    (hok : (AllocationStep (Callbacks.passive gns) self b addr size w).fatal = none) :
    0 ≤ b ∧
    0 ≤ ((AllocationStep (Callbacks.passive gns) self b addr size w).val.observers
      self).bytes_to_next_step_ := by
  by_cases hb : b < 0
  · rw [AllocationStep_negative _ self b addr size w hb] at hok
    simp at hok
  · by_cases hr : 0 < (w.observers self).bytes_to_next_step_ - b
    · rw [AllocationStep_no_fire _ self b addr size w (by omega) hr]
      simp
      omega
    · rw [AllocationStep_fire gns self b addr size w (by omega) (by omega)] at hok ⊢
      simp at hok ⊢
      omega

theorem next_step_update_nonneg (next_step bytes : Int) (h1 : 0 ≤ next_step)
    (h2 : 0 ≤ bytes) : 0 ≤ next_step_update next_step bytes := by
  unfold next_step_update
  split_ifs
  · exact le_min h1 h2
  · exact h2

theorem NotifyObjectLoop_passive_counter (gns : ObserverRef → World → Int) (b : Int)
    (addr : Address) (size : Nat) (l : List ObserverRef) (next_step : Int) (w : World) :
    (NotifyObjectLoop (Callbacks.passive gns) b addr size l next_step w).val.1.counter =
        w.counter ∧
    (NotifyObjectLoop (Callbacks.passive gns) b addr size l next_step w).val.1.heap =
        w.heap := by
  induction l generalizing next_step w with
  | nil => exact ⟨rfl, rfl⟩
  | cons o rest ih =>
    have hc := AllocationStep_passive_counter gns o b addr size w
    simp only [NotifyObjectLoop]
    cases hf : (AllocationStep (Callbacks.passive gns) o b addr size w).fatal with
    | none =>
      simp only
      rw [(ih _ _).1, (ih _ _).2]
      exact hc
    | some e => exact hc

theorem NotifyObjectLoop_passive_nonneg (gns : ObserverRef → World → Int) (b : Int)
    (addr : Address) (size : Nat) (l : List ObserverRef) (next_step : Int) (w : World)
    (hok : (NotifyObjectLoop (Callbacks.passive gns) b addr size l next_step w).fatal = none)
    (hn : 0 ≤ next_step) :
    0 ≤ (NotifyObjectLoop (Callbacks.passive gns) b addr size l next_step w).val.2 := by
  induction l generalizing next_step w with
  | nil => exact hn
  | cons o rest ih =>
    simp only [NotifyObjectLoop] at hok ⊢
    cases hf : (AllocationStep (Callbacks.passive gns) o b addr size w).fatal with
    | none =>
      simp only [hf] at hok ⊢
      exact ih _ _ hok
        (next_step_update_nonneg _ _ hn (AllocationStep_passive_self gns o b addr size w hf).2)
    | some e => simp [hf] at hok

/-! ## `NotifyObject` and `NotifyBytes`, case by case -/

theorem NotifyObject_inactive (cb : Callbacks) (addr : Address) (n : Nat) (w : World)
    (h : IsActive w = false) : NotifyObject cb addr n w = ⟨w, none⟩ := by
  simp [NotifyObject, h]

theorem NotifyObject_below (cb : Callbacks) (addr : Address) (n : Nat) (w : World)
    (h : IsActive w = true)
    (hn : n ≤ to_size_t (w.counter.next_counter_ - w.counter.current_counter_)) :
    NotifyObject cb addr n w = ⟨w, some Fatal.object_below_threshold⟩ := by
  simp [NotifyObject, h, hn]

theorem NotifyObject_in_progress (cb : Callbacks) (addr : Address) (n : Nat) (w : World)
    (h : IsActive w = true)
    (hn : to_size_t (w.counter.next_counter_ - w.counter.current_counter_) < n)
    (hflag : w.heap.allocation_step_in_progress_ = true) :
    NotifyObject cb addr n w = ⟨w, some Fatal.allocation_step_in_progress⟩ := by
  have : ¬ n ≤ to_size_t (w.counter.next_counter_ - w.counter.current_counter_) := by omega
  simp [NotifyObject, h, this, hflag]

theorem NotifyObject_null (cb : Callbacks) (n : Nat) (w : World)
    (h : IsActive w = true)
    (hn : to_size_t (w.counter.next_counter_ - w.counter.current_counter_) < n)
    (hflag : w.heap.allocation_step_in_progress_ = false) :
    NotifyObject cb 0 n w =
      ⟨{ w with heap := { w.heap with allocation_step_in_progress_ := true } },
        some Fatal.null_soon_object⟩ := by
  have : ¬ n ≤ to_size_t (w.counter.next_counter_ - w.counter.current_counter_) := by omega
  simp [NotifyObject, h, this, hflag]

theorem NotifyObject_fan_out (cb : Callbacks) (addr : Address) (n : Nat) (w : World)
    (h : IsActive w = true)
    (hn : to_size_t (w.counter.next_counter_ - w.counter.current_counter_) < n)
    (hflag : w.heap.allocation_step_in_progress_ = false) (haddr : addr ≠ 0) :
    NotifyObject cb addr n w =
      (fanOut cb addr n w).andThen
        (fun p =>
          ⟨{ p.1 with
              heap := { p.1.heap with allocation_step_in_progress_ := false }
              counter :=
                { p.1.counter with
                  prev_counter_ := p.1.counter.current_counter_
                  next_counter_ := to_size_t (p.1.counter.current_counter_ + n + p.2) } },
            none⟩)
        (fun p => p.1) := by
  have : ¬ n ≤ to_size_t (w.counter.next_counter_ - w.counter.current_counter_) := by omega
  simp [NotifyObject, h, this, hflag, haddr, fanOut, fillerWorld]

/-! ## C3 -/

theorem to_size_t_sub (a b : Nat) (h : b ≤ a) (ha : a < 18446744073709551616) :
    to_size_t ((a : Int) - b) = a - b := by
  unfold to_size_t
  omega

theorem to_size_t_add (a b : Nat) (h : a + b < 18446744073709551616) :
    to_size_t ((a : Int) + b) = a + b := by
  unfold to_size_t
  omega

theorem NotifyBytes_order (n : Nat) (w : World) (h : CounterOrder w)
    (hok : (NotifyBytes n w).fatal = none) : CounterOrder (NotifyBytes n w).val := by
  obtain ⟨h1, h2, h3⟩ := h
  unfold NotifyBytes at hok ⊢
  by_cases ha : IsActive w = true
  · rw [to_size_t_sub _ _ h2 h3] at hok ⊢
    by_cases hn : n ≤ w.counter.next_counter_ - w.counter.current_counter_
    · simp only [ha, hn, Bool.not_true, Bool.false_eq_true, if_false, not_true]
      rw [CounterOrder]
      simp only
      rw [to_size_t_add _ _ (by omega)]
      omega
    · simp [ha, hn] at hok
  · simp [ha]
    exact ⟨h1, h2, h3⟩

theorem NotifyObject_order (gns : ObserverRef → World → Int) (addr : Address) (n : Nat)
    (w : World) (h : CounterOrder w)
    (hok : (NotifyObject (Callbacks.passive gns) addr n w).fatal = none)
    (hno : NoOverflow (Callbacks.passive gns) (Op.NotifyObject addr n) w) :
    CounterOrder (NotifyObject (Callbacks.passive gns) addr n w).val := by
  by_cases ha : IsActive w = true
  · by_cases hn : n ≤ to_size_t (w.counter.next_counter_ - w.counter.current_counter_)
    · rw [NotifyObject_below _ addr n w ha hn] at hok
      simp at hok
    · by_cases hflag : w.heap.allocation_step_in_progress_ = true
      · rw [NotifyObject_in_progress _ addr n w ha (by omega) hflag] at hok
        simp at hok
      · by_cases haddr : addr = 0
        · subst haddr
          rw [NotifyObject_null _ n w ha (by omega) (by simpa using hflag)] at hok
          simp at hok
        · rw [NotifyObject_fan_out _ addr n w ha (by omega) (by simpa using hflag) haddr]
            at hok ⊢
          have hsum := hno ha
          have hc := (NotifyObjectLoop_passive_counter gns
            (static_cast_int (to_size_t (w.counter.current_counter_ - w.counter.prev_counter_)))
            addr n w.counter.allocation_observers_ 0 (fillerWorld addr n w)).1
          cases hf : (fanOut (Callbacks.passive gns) addr n w).fatal with
          | none =>
            have hpos := NotifyObjectLoop_passive_nonneg gns _ addr n
              w.counter.allocation_observers_ 0 (fillerWorld addr n w) hf (le_refl 0)
            simp only [Outcome.andThen, hf, CounterOrder]
            change (fanOut (Callbacks.passive gns) addr n w).val.1.counter = _ at hc
            change 0 ≤ (fanOut (Callbacks.passive gns) addr n w).val.2 at hpos
            rw [hc]
            simp only [fillerWorld, record_counter]
            obtain ⟨h1, h2, h3⟩ := h
            refine ⟨le_refl _, ?_, to_size_t_lt _⟩
            unfold to_size_t
            omega
          | some e => simp [Outcome.andThen, hf] at hok
  · rw [NotifyObject_inactive _ addr n w (by simpa using ha)]
    exact h

/-- C3: starting from a counter with `prev_counter = current_counter = next_counter = 0`,
after every call in any sequence of `AddAllocationObserver`, `RemoveAllocationObserver`,
`NotifyBytes` and `NotifyObject` calls that each pass their assertions and do not overflow,
`prev_counter <= current_counter <= next_counter` holds. -/
theorem C3_counter_ordering (gns : ObserverRef → World → Int) (step_size : ObserverRef → Int)
    (w : World) (h : ReachableWithoutOverflow (Callbacks.passive gns) step_size w) :
    w.counter.prev_counter_ ≤ w.counter.current_counter_ ∧
      w.counter.current_counter_ ≤ w.counter.next_counter_ := by
  have key : CounterOrder w := by
    induction h with
    | init => exact ⟨le_refl _, le_refl _, by simp [World.init]⟩
    | step op hw hok hno ih =>
      cases op with
      | AddAllocationObserver o => exact ih
      | RemoveAllocationObserver o =>
        simp only [applyOp, RemoveAllocationObserver]
        split_ifs
        · exact ih
        · exact ih
      | NotifyBytes n => exact NotifyBytes_order n _ ih hok
      | NotifyObject addr n => exact NotifyObject_order gns addr n _ ih hok hno
  exact ⟨key.1, key.2.1⟩

theorem steppedOnceWorld_reachable :
    ReachableWithoutOverflow (Callbacks.passive fun _ _ => 100) (fun _ => 100)
      steppedOnceWorld :=
  ReachableWithoutOverflow.step (Op.NotifyBytes 16)
    (ReachableWithoutOverflow.step (Op.NotifyObject 8 16)
      (ReachableWithoutOverflow.step (Op.AddAllocationObserver 1)
        ReachableWithoutOverflow.init rfl trivial)
      (by decide) (by intro _; decide))
    (by decide) trivial

/-- C3 at the state reached by `AddAllocationObserver`, `NotifyObject(8, 16)`,
`NotifyBytes(16)` with one observer of period 100: the counters are 0, 16 and 116. -/
theorem C3_counter_ordering_witness :
    ReachableWithoutOverflow (Callbacks.passive fun _ _ => 100) (fun _ => 100)
      steppedOnceWorld ∧
    steppedOnceWorld.counter = ⟨[1], 0, 16, 116⟩ ∧
    steppedOnceWorld.counter.prev_counter_ ≤ steppedOnceWorld.counter.current_counter_ ∧
    steppedOnceWorld.counter.current_counter_ ≤ steppedOnceWorld.counter.next_counter_ :=
  ⟨steppedOnceWorld_reachable, by decide,
    C3_counter_ordering (fun _ _ => 100) (fun _ => 100) steppedOnceWorld
      steppedOnceWorld_reachable⟩

/-! ## C4 -/

theorem next_step_fold_nonzero (bytes : ObserverRef → Int) (l : List ObserverRef)
    (acc : Int) (hacc : acc ≠ 0) (hl : ∀ o ∈ l, bytes o ≠ 0) :
    (l.foldl (fun next_step o => next_step_update next_step (bytes o)) acc = acc ∨
      ∃ o ∈ l, bytes o = l.foldl (fun next_step o => next_step_update next_step (bytes o)) acc) ∧
    l.foldl (fun next_step o => next_step_update next_step (bytes o)) acc ≤ acc ∧
    (∀ o ∈ l, l.foldl (fun next_step o => next_step_update next_step (bytes o)) acc ≤ bytes o) ∧
    l.foldl (fun next_step o => next_step_update next_step (bytes o)) acc ≠ 0 := by
  induction l generalizing acc with
  | nil => simp [hacc]
  | cons a rest ih =>
    have ha : bytes a ≠ 0 := hl a (List.mem_cons_self _ _)
    have hstep : next_step_update acc (bytes a) = min acc (bytes a) := by
      simp [next_step_update, hacc]
    have hne : min acc (bytes a) ≠ 0 := by
      rcases min_choice acc (bytes a) with h | h <;> rw [h] <;> assumption
    obtain ⟨h1, h2, h3, h4⟩ := ih (min acc (bytes a)) hne
      (fun o ho => hl o (List.mem_cons_of_mem _ ho))
    simp only [List.foldl_cons, hstep]
    refine ⟨?_, le_trans h2 (min_le_left _ _), ?_, h4⟩
    · rcases h1 with h1 | ⟨o, ho, h1⟩
      · rcases min_choice acc (bytes a) with h | h
        · left
          rw [h1, h]
        · right
          exact ⟨a, List.mem_cons_self _ _, by rw [h1, h]⟩
      · right
        exact ⟨o, List.mem_cons_of_mem _ ho, h1⟩
    · intro o ho
      rcases List.mem_cons.1 ho with rfl | ho
      · exact le_trans h2 (min_le_right _ _)
      · exact h3 o ho

theorem GetNextInlineAllocationStepSize_val (w : World) :
    (GetNextInlineAllocationStepSize w).val =
      w.counter.allocation_observers_.foldl
        (fun next_step o => next_step_update next_step (w.observers o).bytes_to_next_step_)
        0 := by
  unfold GetNextInlineAllocationStepSize
  simp only
  split_ifs <;> rfl

theorem GetNextInlineAllocationStepSize_empty (w : World)
    (h : w.counter.allocation_observers_ = []) :
    GetNextInlineAllocationStepSize w = ⟨0, none⟩ := by
  simp [GetNextInlineAllocationStepSize, h, HasAllocationObservers]

theorem GetNextInlineAllocationStepSize_nonzero (w : World)
    (hne : w.counter.allocation_observers_ ≠ [])
    (hnz : ∀ o ∈ w.counter.allocation_observers_, (w.observers o).bytes_to_next_step_ ≠ 0) :
    IsMinimumStep w (GetNextInlineAllocationStepSize w).val := by
  rw [GetNextInlineAllocationStepSize_val]
  cases hl : w.counter.allocation_observers_ with
  | nil => exact absurd hl hne
  | cons a rest =>
    rw [hl] at hnz
    have ha := hnz a (List.mem_cons_self _ _)
    obtain ⟨h1, h2, h3, _⟩ := next_step_fold_nonzero
      (fun o => (w.observers o).bytes_to_next_step_) rest (w.observers a).bytes_to_next_step_
      ha (fun o ho => hnz o (List.mem_cons_of_mem _ ho))
    have hstart : next_step_update 0 (w.observers a).bytes_to_next_step_ =
        (w.observers a).bytes_to_next_step_ := by simp [next_step_update]
    simp only [IsMinimumStep, hl, List.foldl_cons, hstart]
    constructor
    · rcases h1 with h1 | ⟨o, ho, h1⟩
      · exact ⟨a, List.mem_cons_self _ _, h1.symm⟩
      · exact ⟨o, List.mem_cons_of_mem _ ho, h1⟩
    · intro o ho
      rcases List.mem_cons.1 ho with rfl | ho
      · exact h2
      · exact h3 o ho

theorem GetNextInlineAllocationStepSize_positive (w : World)
    (hne : w.counter.allocation_observers_ ≠ [])
    (hpos : ∀ o ∈ w.counter.allocation_observers_, 0 < (w.observers o).bytes_to_next_step_) :
    IsMinimumStep w (GetNextInlineAllocationStepSize w).val ∧
      0 < (GetNextInlineAllocationStepSize w).val ∧
      (GetNextInlineAllocationStepSize w).fatal = none := by
  have hm := GetNextInlineAllocationStepSize_nonzero w hne (fun o ho => ne_of_gt (hpos o ho))
  obtain ⟨o, ho, hv⟩ := hm.1
  have hp : 0 < (GetNextInlineAllocationStepSize w).val := by
    rw [← hv]
    exact hpos o ho
  refine ⟨hm, hp, ?_⟩
  rw [GetNextInlineAllocationStepSize_val] at hp
  unfold GetNextInlineAllocationStepSize
  simp [hp]

/-- C4 (as amended): `GetNextInlineAllocationStepSize` returns 0 when no observer is
registered; for every non-empty collection of registered observers whose `bytes_to_next_step`
are all non-zero it computes the minimum `bytes_to_next_step` over the registered observers;
and when they are all positive it returns that minimum, which is positive, with its assertion
passing. -/
theorem C4_minimum_step (w : World) :
    (w.counter.allocation_observers_ = [] →
      GetNextInlineAllocationStepSize w = ⟨0, none⟩) ∧
    (w.counter.allocation_observers_ ≠ [] →
      (∀ o ∈ w.counter.allocation_observers_, (w.observers o).bytes_to_next_step_ ≠ 0) →
      IsMinimumStep w (GetNextInlineAllocationStepSize w).val) ∧
    (w.counter.allocation_observers_ ≠ [] →
      (∀ o ∈ w.counter.allocation_observers_, 0 < (w.observers o).bytes_to_next_step_) →
      IsMinimumStep w (GetNextInlineAllocationStepSize w).val ∧
        0 < (GetNextInlineAllocationStepSize w).val ∧
        (GetNextInlineAllocationStepSize w).fatal = none) := by
  refine ⟨?_, ?_, ?_⟩
  · exact GetNextInlineAllocationStepSize_empty w
  · exact GetNextInlineAllocationStepSize_nonzero w
  · exact GetNextInlineAllocationStepSize_positive w

/-- C4 at two reachable states with two registered observers: with countdowns 5 and 7, in
that order, the result is 5, and with countdowns 7 and 5, in that order, the running minimum
is lowered by the second observer and the result is 5 again; on a fresh counter the result is
0. -/
theorem C4_minimum_step_witness :
    twoObserversWorld.counter.allocation_observers_ = [1, 2] ∧
    (twoObserversWorld.observers 1).bytes_to_next_step_ = 5 ∧
    (twoObserversWorld.observers 2).bytes_to_next_step_ = 7 ∧
    IsMinimumStep twoObserversWorld (GetNextInlineAllocationStepSize twoObserversWorld).val ∧
    (GetNextInlineAllocationStepSize twoObserversWorld).val = 5 ∧
    (GetNextInlineAllocationStepSize twoObserversWorld).fatal = none ∧
    largerFirstWorld.counter.allocation_observers_ = [2, 1] ∧
    (largerFirstWorld.observers 2).bytes_to_next_step_ = 7 ∧
    (largerFirstWorld.observers 1).bytes_to_next_step_ = 5 ∧
    IsMinimumStep largerFirstWorld (GetNextInlineAllocationStepSize largerFirstWorld).val ∧
    (GetNextInlineAllocationStepSize largerFirstWorld).val = 5 ∧
    (GetNextInlineAllocationStepSize largerFirstWorld).fatal = none ∧
    GetNextInlineAllocationStepSize (World.init twoPeriods) = ⟨0, none⟩ :=
  ⟨by decide, by decide, by decide,
    ((C4_minimum_step twoObserversWorld).2.2 (by decide) (by decide)).1, by decide,
    ((C4_minimum_step twoObserversWorld).2.2 (by decide) (by decide)).2.2,
    by decide, by decide, by decide,
    ((C4_minimum_step largerFirstWorld).2.2 (by decide) (by decide)).1, by decide,
    ((C4_minimum_step largerFirstWorld).2.2 (by decide) (by decide)).2.2,
    (C4_minimum_step (World.init twoPeriods)).1 rfl⟩

/-- C4 as stated fails: with registered countdowns 0 and 7 (a reachable state, the first
observer's `GetNextStepSize` having returned 0) the function computes 7, which is not the
minimum: the running value 0 is taken for "no value yet" and overwritten. -/
theorem C4_counterexample :
    zeroCountdownWorld.counter.allocation_observers_ = [1, 2] ∧
    (zeroCountdownWorld.observers 1).bytes_to_next_step_ = 0 ∧
    (zeroCountdownWorld.observers 2).bytes_to_next_step_ = 7 ∧
    (GetNextInlineAllocationStepSize zeroCountdownWorld).val = 7 ∧
    ¬ IsMinimumStep zeroCountdownWorld (GetNextInlineAllocationStepSize zeroCountdownWorld).val := by
  refine ⟨by decide, by decide, by decide, by decide, fun h => ?_⟩
  have h1 := h.2 1 (by decide)
  revert h1
  decide

/-! ## C5 -/

theorem NotifyObject_cases (cb : Callbacks) (addr : Address) (n : Nat) (w : World) :
    ((NotifyObject cb addr n w).val = w ∧
      (IsActive w = true → (NotifyObject cb addr n w).fatal ≠ none)) ∨
    (NotifyObject cb addr n w =
      ⟨{ w with heap := { w.heap with allocation_step_in_progress_ := true } },
        some Fatal.null_soon_object⟩) ∨
    (IsActive w = true ∧
      to_size_t (w.counter.next_counter_ - w.counter.current_counter_) < n ∧
      w.heap.allocation_step_in_progress_ = false ∧ addr ≠ 0 ∧
      NotifyObject cb addr n w =
        (fanOut cb addr n w).andThen
          (fun p =>
            ⟨{ p.1 with
                heap := { p.1.heap with allocation_step_in_progress_ := false }
                counter :=
                  { p.1.counter with
                    prev_counter_ := p.1.counter.current_counter_
                    next_counter_ := to_size_t (p.1.counter.current_counter_ + n + p.2) } },
              none⟩)
          (fun p => p.1)) := by
  by_cases ha : IsActive w = true
  · by_cases hn : n ≤ to_size_t (w.counter.next_counter_ - w.counter.current_counter_)
    · left
      rw [NotifyObject_below _ addr n w ha hn]
      simp
    · by_cases hflag : w.heap.allocation_step_in_progress_ = true
      · left
        rw [NotifyObject_in_progress _ addr n w ha (by omega) hflag]
        simp
      · by_cases haddr : addr = 0
        · subst haddr
          right; left
          exact NotifyObject_null _ n w ha (by omega) (by simpa using hflag)
        · right; right
          exact ⟨ha, by omega, by simpa using hflag, haddr,
            NotifyObject_fan_out _ addr n w ha (by omega) (by simpa using hflag) haddr⟩
  · left
    rw [NotifyObject_inactive _ addr n w (by simpa using ha)]
    simp [ha]

theorem AllocationStep_positive (gns : ObserverRef → World → Int) (hgns : ∀ o w, 0 < gns o w)
    (self : ObserverRef) (b : Int) (addr : Address) (size : Nat) (w : World)
    (h : AllPositive w) :
    AllPositive (AllocationStep (Callbacks.passive gns) self b addr size w).val := by
  intro o
  by_cases ho : o = self
  · subst ho
    by_cases hb : b < 0
    · rw [AllocationStep_negative _ o b addr size w hb]
      exact h o
    · by_cases hr : 0 < (w.observers o).bytes_to_next_step_ - b
      · rw [AllocationStep_no_fire _ o b addr size w (by omega) hr]
        simpa using hr
      · rw [AllocationStep_fire gns o b addr size w (by omega) (by omega)]
        simpa using hgns _ _
  · rw [AllocationStep_passive_other gns self o b addr size w ho]
    exact h o

theorem NotifyObjectLoop_positive (gns : ObserverRef → World → Int)
    (hgns : ∀ o w, 0 < gns o w) (b : Int) (addr : Address) (size : Nat)
    (l : List ObserverRef) (next_step : Int) (w : World) (h : AllPositive w) :
    AllPositive (NotifyObjectLoop (Callbacks.passive gns) b addr size l next_step w).val.1 := by
  induction l generalizing next_step w with
  | nil => exact h
  | cons o rest ih =>
    have hstep := AllocationStep_positive gns hgns o b addr size w h
    simp only [NotifyObjectLoop]
    cases hf : (AllocationStep (Callbacks.passive gns) o b addr size w).fatal with
    | none => exact ih _ _ hstep
    | some e => exact hstep

theorem NotifyObject_positive (gns : ObserverRef → World → Int) (hgns : ∀ o w, 0 < gns o w)
    (addr : Address) (n : Nat) (w : World) (h : AllPositive w) :
    AllPositive (NotifyObject (Callbacks.passive gns) addr n w).val := by
  rcases NotifyObject_cases (Callbacks.passive gns) addr n w with h1 | h1 | ⟨_, _, _, _, h1⟩
  · rw [h1.1]
    exact h
  · rw [h1]
    exact h
  · rw [h1]
    have hl := NotifyObjectLoop_positive gns hgns
      (static_cast_int (to_size_t (w.counter.current_counter_ - w.counter.prev_counter_)))
      addr n w.counter.allocation_observers_ 0 (fillerWorld addr n w) h
    change AllPositive (fanOut (Callbacks.passive gns) addr n w).val.1 at hl
    unfold Outcome.andThen
    split
    · exact hl
    · exact hl

theorem Reachable_positive (gns : ObserverRef → World → Int) (step_size : ObserverRef → Int)
    (hstep : ∀ o, 0 < step_size o) (hgns : ∀ o w, 0 < gns o w) (w : World)
    (h : Reachable (Callbacks.passive gns) step_size w) : AllPositive w := by
  induction h with
  | init => exact fun o => hstep o
  | step op hw hok ih =>
    cases op with
    | AddAllocationObserver o => exact ih
    | RemoveAllocationObserver o =>
      simp only [applyOp, RemoveAllocationObserver]
      split_ifs <;> exact ih
    | NotifyBytes n =>
      simp only [applyOp, NotifyBytes]
      split_ifs <;> exact ih
    | NotifyObject addr n => exact NotifyObject_positive gns hgns addr n _ ih

/-- C5: in every state reachable from an empty counter by `AddAllocationObserver` (of
observers created with `bytes_to_next_step = step_size > 0` whose `GetNextStepSize` always
returns a positive value), `RemoveAllocationObserver`, `NotifyBytes` and `NotifyObject`, each
passing its assertions, every registered observer has `bytes_to_next_step > 0`; hence the
assertion of `GetNextInlineAllocationStepSize` does not fail and its result is 0 if and only if
no observer is registered. -/
theorem C5_positive_step (gns : ObserverRef → World → Int) (step_size : ObserverRef → Int)
    (w : World) (hstep : ∀ o, 0 < step_size o) (hgns : ∀ o w, 0 < gns o w)
    (h : Reachable (Callbacks.passive gns) step_size w) :
    (∀ o ∈ w.counter.allocation_observers_, 0 < (w.observers o).bytes_to_next_step_) ∧
    (GetNextInlineAllocationStepSize w).fatal = none ∧
    ((GetNextInlineAllocationStepSize w).val = 0 ↔ w.counter.allocation_observers_ = []) := by
  have hpos := Reachable_positive gns step_size hstep hgns w h
  refine ⟨fun o _ => hpos o, ?_, ?_⟩
  · by_cases hl : w.counter.allocation_observers_ = []
    · rw [GetNextInlineAllocationStepSize_empty w hl]
    · exact (GetNextInlineAllocationStepSize_positive w hl (fun o _ => hpos o)).2.2
  · constructor
    · intro h0
      by_contra hl
      have := (GetNextInlineAllocationStepSize_positive w hl (fun o _ => hpos o)).2.1
      omega
    · intro hl
      rw [GetNextInlineAllocationStepSize_empty w hl]

theorem twoPeriods_pos (o : ObserverRef) : 0 < twoPeriods o := by
  unfold twoPeriods
  split_ifs <;> decide

theorem twoObserversWorld_reachable :
    Reachable (Callbacks.passive fun o _ => twoPeriods o)
      twoPeriods twoObserversWorld :=
  Reachable.step (Op.NotifyObject 64 8)
    (Reachable.step (Op.NotifyBytes 5)
      (Reachable.step (Op.NotifyBytes 16)
        (Reachable.step (Op.NotifyObject 8 16)
          (Reachable.step (Op.AddAllocationObserver 2)
            (Reachable.step (Op.AddAllocationObserver 1) Reachable.init rfl) rfl)
          (by decide))
        (by decide))
      (by decide))
    (by decide)

/-- C5 at a reachable state in which two observers, of periods 5 and 7, have both fired:
their countdowns are 5 and 7 again and the next step size is 5. -/
theorem C5_positive_step_witness :
    (∀ o, 0 < twoPeriods o) ∧
    Reachable (Callbacks.passive fun o _ => twoPeriods o)
      twoPeriods twoObserversWorld ∧
    twoObserversWorld.trace.filter Event.isStep =
      [Event.Step 1 21 64 8, Event.Step 2 21 64 8] ∧
    (∀ o ∈ twoObserversWorld.counter.allocation_observers_,
      0 < (twoObserversWorld.observers o).bytes_to_next_step_) ∧
    (GetNextInlineAllocationStepSize twoObserversWorld).fatal = none ∧
    (GetNextInlineAllocationStepSize twoObserversWorld).val = 5 :=
  ⟨twoPeriods_pos, twoObserversWorld_reachable, by decide,
    (C5_positive_step (fun o _ => twoPeriods o) twoPeriods
      twoObserversWorld twoPeriods_pos (fun o _ => twoPeriods_pos o)
      twoObserversWorld_reachable).1,
    (C5_positive_step (fun o _ => twoPeriods o) twoPeriods
      twoObserversWorld twoPeriods_pos (fun o _ => twoPeriods_pos o)
      twoObserversWorld_reachable).2.1,
    by decide⟩

/-! ## C6 -/

theorem AllocationStep_keeps_positive (gns : ObserverRef → World → Int)
    (hgns : ∀ o w, 0 < gns o w) (self o : ObserverRef) (b : Int) (addr : Address) (size : Nat)
    (w : World) (h : 0 < (w.observers o).bytes_to_next_step_) :
    0 < ((AllocationStep (Callbacks.passive gns) self b addr size w).val.observers
      o).bytes_to_next_step_ := by
  by_cases ho : o = self
  · subst ho
    by_cases hb : b < 0
    · rw [AllocationStep_negative _ o b addr size w hb]
      exact h
    · by_cases hr : 0 < (w.observers o).bytes_to_next_step_ - b
      · rw [AllocationStep_no_fire _ o b addr size w (by omega) hr]
        simpa using hr
      · rw [AllocationStep_fire gns o b addr size w (by omega) (by omega)]
        simpa using hgns _ _
  · rw [AllocationStep_passive_other gns self o b addr size w ho]
    exact h

theorem AllocationStep_completes (gns : ObserverRef → World → Int)
    (hgns : ∀ o w, 0 < gns o w) (self : ObserverRef) (b : Int) (addr : Address) (size : Nat)
    (w : World) (hb : 0 ≤ b) :
    (AllocationStep (Callbacks.passive gns) self b addr size w).fatal = none ∧
    0 < ((AllocationStep (Callbacks.passive gns) self b addr size w).val.observers
      self).bytes_to_next_step_ ∧
    ∃ events, (AllocationStep (Callbacks.passive gns) self b addr size w).val.trace =
        w.trace ++ Event.AllocationStep self b addr size :: events ∧
      events.filter Event.isAllocationStep = [] := by
  by_cases hr : 0 < (w.observers self).bytes_to_next_step_ - b
  · rw [AllocationStep_no_fire _ self b addr size w hb hr]
    exact ⟨rfl, by simpa using hr, [], by simp, rfl⟩
  · rw [AllocationStep_fire gns self b addr size w hb (by omega)]
    have hp := hgns self (firedWorld self b addr size w)
    refine ⟨by simp; omega, by simpa using hp,
      [Event.Step self
        (static_cast_int ((w.observers self).step_size_ -
          ((w.observers self).bytes_to_next_step_ - b))) addr size], by simp, rfl⟩

theorem NotifyObjectLoop_untouched (gns : ObserverRef → World → Int) (b : Int)
    (addr : Address) (size : Nat) (l : List ObserverRef) (next_step : Int) (w : World)
    (o : ObserverRef) (ho : o ∉ l) :
    (NotifyObjectLoop (Callbacks.passive gns) b addr size l next_step w).val.1.observers o =
      w.observers o := by
  induction l generalizing next_step w with
  | nil => rfl
  | cons a rest ih =>
    have ha : o ≠ a := fun h => ho (h ▸ List.mem_cons_self _ _)
    have hrest : o ∉ rest := fun h => ho (List.mem_cons_of_mem _ h)
    have hstep := AllocationStep_passive_other gns a o b addr size w ha
    simp only [NotifyObjectLoop]
    cases hf : (AllocationStep (Callbacks.passive gns) a b addr size w).fatal with
    | none =>
      simp only
      rw [ih _ _ hrest, hstep]
    | some e => exact hstep

theorem NotifyObjectLoop_keeps_positive (gns : ObserverRef → World → Int)
    (hgns : ∀ o w, 0 < gns o w) (b : Int) (addr : Address) (size : Nat)
    (l : List ObserverRef) (next_step : Int) (w : World) (o : ObserverRef)
    (h : 0 < (w.observers o).bytes_to_next_step_) :
    0 < ((NotifyObjectLoop (Callbacks.passive gns) b addr size l next_step w).val.1.observers
      o).bytes_to_next_step_ := by
  induction l generalizing next_step w with
  | nil => exact h
  | cons a rest ih =>
    have hstep := AllocationStep_keeps_positive gns hgns a o b addr size w h
    simp only [NotifyObjectLoop]
    cases hf : (AllocationStep (Callbacks.passive gns) a b addr size w).fatal with
    | none => exact ih _ _ hstep
    | some e => exact hstep

theorem NotifyObjectLoop_completes (gns : ObserverRef → World → Int)
    (hgns : ∀ o w, 0 < gns o w) (b : Int) (hb : 0 ≤ b) (addr : Address) (size : Nat)
    (l : List ObserverRef) (next_step : Int) (w : World) :
    (NotifyObjectLoop (Callbacks.passive gns) b addr size l next_step w).fatal = none ∧
    (∀ o ∈ l,
      0 < ((NotifyObjectLoop (Callbacks.passive gns) b addr size l next_step w).val.1.observers
        o).bytes_to_next_step_) ∧
    ∃ events,
      (NotifyObjectLoop (Callbacks.passive gns) b addr size l next_step w).val.1.trace =
        w.trace ++ events ∧
      events.filter Event.isAllocationStep =
        l.map (fun o => Event.AllocationStep o b addr size) := by
  induction l generalizing next_step w with
  | nil => exact ⟨rfl, by simp, [], by simp [NotifyObjectLoop], rfl⟩
  | cons a rest ih =>
    obtain ⟨hf, hpos, ev1, ht1, hev1⟩ := AllocationStep_completes gns hgns a b addr size w hb
    obtain ⟨hf2, hpos2, ev2, ht2, hev2⟩ := ih
      (next_step_update next_step
        ((AllocationStep (Callbacks.passive gns) a b addr size w).val.observers
          a).bytes_to_next_step_)
      (AllocationStep (Callbacks.passive gns) a b addr size w).val
    simp only [NotifyObjectLoop, hf]
    refine ⟨hf2, ?_, Event.AllocationStep a b addr size :: ev1 ++ ev2, ?_, ?_⟩
    · intro o ho
      rcases List.mem_cons.1 ho with rfl | ho
      · exact NotifyObjectLoop_keeps_positive gns hgns b addr size rest _ _ o hpos
      · exact hpos2 o ho
    · rw [ht2, ht1]
      simp
    · simp [List.filter_cons, Event.isAllocationStep, hev1, hev2]

theorem NotifyObjectLoop_next_step (gns : ObserverRef → World → Int) (b : Int)
    (addr : Address) (size : Nat) (l : List ObserverRef) (hl : l.Nodup) (next_step : Int)
    (w : World)
    (hok : (NotifyObjectLoop (Callbacks.passive gns) b addr size l next_step w).fatal = none) :
    (NotifyObjectLoop (Callbacks.passive gns) b addr size l next_step w).val.2 =
      l.foldl
        (fun ns o =>
          next_step_update ns
            ((NotifyObjectLoop (Callbacks.passive gns) b addr size l next_step
              w).val.1.observers o).bytes_to_next_step_)
        next_step := by
  induction l generalizing next_step w with
  | nil => rfl
  | cons a rest ih =>
    obtain ⟨ha, hrest⟩ := List.nodup_cons.1 hl
    simp only [NotifyObjectLoop] at hok ⊢
    cases hf : (AllocationStep (Callbacks.passive gns) a b addr size w).fatal with
    | none =>
      simp only [hf] at hok ⊢
      rw [ih hrest _ _ hok, List.foldl_cons,
        NotifyObjectLoop_untouched gns b addr size rest _ _ a ha]
    | some e => simp [hf] at hok

/-- C6 (as amended): `NotifyObject(addr, object_size)` on an active counter whose
preconditions hold (the size crosses the threshold, no step is in progress, `addr` is not
null, the bytes since the last step are not negative as an `int`, the observers are distinct
and their `GetNextStepSize` is positive) completes; every registered observer receives
`AllocationStep` exactly once, in registration order, each with `bytes_allocated =
static_cast<int>(current_counter - prev_counter)` (values from before the call; this is
`current_counter - prev_counter` itself when that is below `2^31`), `addr` and `object_size`;
afterwards `prev_counter` equals the pre-call `current_counter`, which is unchanged, and
`next_counter` equals `current_counter + object_size + next_step` (stored in a `size_t`), where
`next_step` is the minimum of the observers' `bytes_to_next_step` after the fan-out. -/
theorem C6_NotifyObject_fan_out (gns : ObserverRef → World → Int) (addr : Address) (n : Nat)
    (w : World) (hgns : ∀ o w, 0 < gns o w) (hactive : IsActive w = true)
    (hsize : to_size_t (w.counter.next_counter_ - w.counter.current_counter_) < n)
    (hflag : w.heap.allocation_step_in_progress_ = false) (haddr : addr ≠ 0)
    (hbytes :
      0 ≤ static_cast_int (to_size_t (w.counter.current_counter_ - w.counter.prev_counter_)))
    (hnodup : w.counter.allocation_observers_.Nodup) :
    let out := NotifyObject (Callbacks.passive gns) addr n w
    let bytes_allocated :=
      static_cast_int (to_size_t (w.counter.current_counter_ - w.counter.prev_counter_))
    let next_step := (GetNextInlineAllocationStepSize out.val).val
    out.fatal = none ∧
    (∃ events,
      out.val.trace =
        w.trace ++ Event.CreateFillerObjectAt addr (static_cast_int n) :: events ∧
      events.filter Event.isAllocationStep =
        w.counter.allocation_observers_.map
          (fun o => Event.AllocationStep o bytes_allocated addr n)) ∧
    (w.counter.prev_counter_ ≤ w.counter.current_counter_ →
      w.counter.current_counter_ - w.counter.prev_counter_ < 2147483648 →
      bytes_allocated = w.counter.current_counter_ - w.counter.prev_counter_) ∧
    out.val.counter.allocation_observers_ = w.counter.allocation_observers_ ∧
    out.val.counter.prev_counter_ = w.counter.current_counter_ ∧
    out.val.counter.current_counter_ = w.counter.current_counter_ ∧
    IsMinimumStep out.val next_step ∧
    out.val.counter.next_counter_ =
      to_size_t (w.counter.current_counter_ + n + next_step) ∧
    ((w.counter.current_counter_ : Int) + n + next_step < 18446744073709551616 →
      (out.val.counter.next_counter_ : Int) = w.counter.current_counter_ + n + next_step) := by
  intro out bytes_allocated next_step
  have hrun : out = _ :=
    NotifyObject_fan_out (Callbacks.passive gns) addr n w hactive hsize hflag haddr
  obtain ⟨hf, hpos, events, htrace, hevents⟩ := NotifyObjectLoop_completes gns hgns
    bytes_allocated hbytes addr n w.counter.allocation_observers_ 0 (fillerWorld addr n w)
  have hc := NotifyObjectLoop_passive_counter gns bytes_allocated addr n
    w.counter.allocation_observers_ 0 (fillerWorld addr n w)
  have hns := NotifyObjectLoop_next_step gns bytes_allocated addr n
    w.counter.allocation_observers_ hnodup 0 (fillerWorld addr n w) hf
  change (fanOut (Callbacks.passive gns) addr n w).fatal = none at hf
  change ∀ o ∈ _, 0 < ((fanOut (Callbacks.passive gns) addr n w).val.1.observers
    o).bytes_to_next_step_ at hpos
  change (fanOut (Callbacks.passive gns) addr n w).val.1.trace = _ at htrace
  change (fanOut (Callbacks.passive gns) addr n w).val.1.counter = _ ∧ _ at hc
  change (fanOut (Callbacks.passive gns) addr n w).val.2 = List.foldl
    (fun ns o => next_step_update ns
      ((fanOut (Callbacks.passive gns) addr n w).val.1.observers o).bytes_to_next_step_) 0 _
    at hns
  have hval : out.val =
      { (fanOut (Callbacks.passive gns) addr n w).val.1 with
        heap := { (fanOut (Callbacks.passive gns) addr n w).val.1.heap with
          allocation_step_in_progress_ := false }
        counter :=
          { (fanOut (Callbacks.passive gns) addr n w).val.1.counter with
            prev_counter_ :=
              (fanOut (Callbacks.passive gns) addr n w).val.1.counter.current_counter_
            next_counter_ := to_size_t
              ((fanOut (Callbacks.passive gns) addr n w).val.1.counter.current_counter_ + n +
                (fanOut (Callbacks.passive gns) addr n w).val.2) } } := by
    rw [hrun]
    simp [Outcome.andThen, hf]
  have hfatal : out.fatal = none := by
    rw [hrun]
    simp [Outcome.andThen, hf]
  have hcounter : (fanOut (Callbacks.passive gns) addr n w).val.1.counter = w.counter := by
    rw [hc.1]
    rfl
  have hlist : out.val.counter.allocation_observers_ = w.counter.allocation_observers_ := by
    rw [hval]
    simp only
    rw [hcounter]
  have hobs : out.val.observers = (fanOut (Callbacks.passive gns) addr n w).val.1.observers := by
    rw [hval]
  have hnext : next_step = (fanOut (Callbacks.passive gns) addr n w).val.2 := by
    show (GetNextInlineAllocationStepSize out.val).val = _
    rw [GetNextInlineAllocationStepSize_val, hns, hlist, hobs]
  have hmin : IsMinimumStep out.val next_step := by
    have hne : out.val.counter.allocation_observers_ ≠ [] := by
      rw [hlist]
      intro h
      simp [IsActive, h] at hactive
    exact (GetNextInlineAllocationStepSize_positive out.val hne
      (fun o ho => by rw [hobs]; exact hpos o (hlist ▸ ho))).1
  have hnextc : out.val.counter.next_counter_ =
      to_size_t (w.counter.current_counter_ + n + next_step) := by
    rw [hnext, hval]
    simp only
    rw [hcounter]
  refine ⟨hfatal, ⟨events, ?_, hevents⟩, ?_, hlist, ?_, ?_, hmin, hnextc, ?_⟩
  · rw [hval]
    simp only
    rw [htrace]
    simp [fillerWorld]
  · intro h1 h2
    show static_cast_int _ = _
    rw [static_cast_int_of_fits _ (by unfold to_size_t; omega) (by unfold to_size_t; omega)]
    unfold to_size_t
    omega
  · rw [hval]
    simp only
    rw [hcounter]
  · rw [hval]
    simp only
    rw [hcounter]
  · intro h
    rw [hnextc]
    have hp : 0 < next_step := by
      obtain ⟨o, ho, hv⟩ := hmin.1
      rw [← hv, hobs]
      exact hpos o (hlist ▸ ho)
    unfold to_size_t
    omega

/-- C6 with two observers of periods 5 and 7 and 21 bytes since the last step: both receive
`AllocationStep(21, 64, 8)` in order, both fire, and the counters become 21, 21 and
`21 + 8 + 5`. -/
theorem C6_NotifyObject_fan_out_witness :
    IsActive twoObserversDueWorld = true ∧
    to_size_t (twoObserversDueWorld.counter.next_counter_ -
      twoObserversDueWorld.counter.current_counter_) < 8 ∧
    twoObserversDueWorld.heap.allocation_step_in_progress_ = false ∧
    0 ≤ static_cast_int (to_size_t (twoObserversDueWorld.counter.current_counter_ -
      twoObserversDueWorld.counter.prev_counter_)) ∧
    twoObserversDueWorld.counter.allocation_observers_.Nodup ∧
    (NotifyObject (Callbacks.passive fun o _ => twoPeriods o) 64 8
      twoObserversDueWorld).fatal = none ∧
    (NotifyObject (Callbacks.passive fun o _ => twoPeriods o) 64 8
      twoObserversDueWorld).val.trace.drop twoObserversDueWorld.trace.length =
      [Event.CreateFillerObjectAt 64 8, Event.AllocationStep 1 21 64 8, Event.Step 1 21 64 8,
        Event.AllocationStep 2 21 64 8, Event.Step 2 21 64 8] ∧
    (NotifyObject (Callbacks.passive fun o _ => twoPeriods o) 64 8
      twoObserversDueWorld).val.counter = ⟨[1, 2], 21, 21, 34⟩ :=
  ⟨by decide, by decide, by decide, by decide, by decide,
    (C6_NotifyObject_fan_out (fun o _ => twoPeriods o) 64 8 twoObserversDueWorld
      (fun o _ => twoPeriods_pos o) (by decide) (by decide) (by decide) (by decide)
      (by decide) (by decide)).1,
    by decide, by decide⟩

/-- C6 as stated fails: in a reachable state with `current_counter - prev_counter =
2^32 + 21`, a `NotifyObject` whose preconditions hold hands `bytes_allocated = 21` to the
observer (whose period of `2^32 + 5` bytes has elapsed, and which therefore does not fire). -/
theorem C6_counterexample :
    IsActive wideCounterWorld = true ∧
    to_size_t (wideCounterWorld.counter.next_counter_ -
      wideCounterWorld.counter.current_counter_) < 8 ∧
    wideCounterWorld.heap.allocation_step_in_progress_ = false ∧
    wideCounterWorld.counter.current_counter_ - wideCounterWorld.counter.prev_counter_ =
      4294967317 ∧
    (NotifyObject (Callbacks.passive fun _ _ => 4294967301) 64 8 wideCounterWorld).fatal =
      none ∧
    (NotifyObject (Callbacks.passive fun _ _ => 4294967301) 64 8
      wideCounterWorld).val.trace.drop wideCounterWorld.trace.length =
      [Event.CreateFillerObjectAt 64 8, Event.AllocationStep 1 21 64 8] ∧
    Event.AllocationStep 1
        (wideCounterWorld.counter.current_counter_ - wideCounterWorld.counter.prev_counter_)
        64 8 ∉
      (NotifyObject (Callbacks.passive fun _ _ => 4294967301) 64 8
        wideCounterWorld).val.trace := by
  decide

/-! ## C7 -/

/-- C7: `NotifyBytes(allocated)` on an active counter with `allocated <= next_counter -
current_counter` passes its assertion, increases `current_counter` by exactly `allocated` and
changes nothing else: `prev_counter`, `next_counter`, the observer collection, every observer's
`step_size` and `bytes_to_next_step` and the heap's step-in-progress flag are unchanged, and
nothing is appended to the trace (no `AllocationStep` or `Step` is invoked). -/
theorem C7_NotifyBytes_frame (allocated : Nat) (w : World) (hactive : IsActive w = true)
    (hnext : w.counter.next_counter_ < 18446744073709551616)
    (hle : (allocated : Int) ≤ w.counter.next_counter_ - w.counter.current_counter_) :
    (NotifyBytes allocated w).fatal = none ∧
    (NotifyBytes allocated w).val.counter.current_counter_ =
      w.counter.current_counter_ + allocated ∧
    (NotifyBytes allocated w).val.counter.prev_counter_ = w.counter.prev_counter_ ∧
    (NotifyBytes allocated w).val.counter.next_counter_ = w.counter.next_counter_ ∧
    (NotifyBytes allocated w).val.counter.allocation_observers_ =
      w.counter.allocation_observers_ ∧
    (NotifyBytes allocated w).val.observers = w.observers ∧
    (NotifyBytes allocated w).val.heap = w.heap ∧
    (NotifyBytes allocated w).val.trace = w.trace := by
  have h1 : to_size_t (w.counter.next_counter_ - w.counter.current_counter_) =
      w.counter.next_counter_ - w.counter.current_counter_ :=
    to_size_t_sub _ _ (by omega) hnext
  have h2 : allocated ≤ w.counter.next_counter_ - w.counter.current_counter_ := by omega
  have h3 : to_size_t (w.counter.current_counter_ + allocated) =
      w.counter.current_counter_ + allocated := to_size_t_add _ _ (by omega)
  simp [NotifyBytes, hactive, h1, h2, h3]

/-- C7 at a reachable state with counters 21, 21, 34: `NotifyBytes(5)` moves
`current_counter` to 26 and leaves the trace as it was. -/
theorem C7_NotifyBytes_frame_witness :
    IsActive twoObserversWorld = true ∧
    (5 : Int) ≤ twoObserversWorld.counter.next_counter_ -
      twoObserversWorld.counter.current_counter_ ∧
    twoObserversWorld.counter = ⟨[1, 2], 21, 21, 34⟩ ∧
    (NotifyBytes 5 twoObserversWorld).val.counter = ⟨[1, 2], 21, 26, 34⟩ ∧
    (NotifyBytes 5 twoObserversWorld).val.trace = twoObserversWorld.trace :=
  ⟨by decide, by decide, by decide, by decide,
    (C7_NotifyBytes_frame 5 twoObserversWorld (by decide) (by decide) (by decide)).2.2.2.2.2.2.2⟩

/-! ## C8 -/

theorem NotifyBytes_fatal (n : Nat) (w : World) (hactive : IsActive w = true) :
    (NotifyBytes n w).fatal =
      if n ≤ to_size_t (w.counter.next_counter_ - w.counter.current_counter_) then none
      else some Fatal.bytes_cross_threshold := by
  unfold NotifyBytes
  simp only [hactive, Bool.not_true, Bool.false_eq_true, if_false]
  split_ifs <;> simp_all

theorem AllocationStep_passive_fatal (gns : ObserverRef → World → Int) (self : ObserverRef)
    (b : Int) (addr : Address) (size : Nat) (w : World) :
    (AllocationStep (Callbacks.passive gns) self b addr size w).fatal ≠
      some Fatal.object_below_threshold := by
  by_cases hb : b < 0
  · rw [AllocationStep_negative _ self b addr size w hb]
    simp
  · by_cases hr : 0 < (w.observers self).bytes_to_next_step_ - b
    · rw [AllocationStep_no_fire _ self b addr size w (by omega) hr]
      simp
    · rw [AllocationStep_fire gns self b addr size w (by omega) (by omega)]
      simp only
      split_ifs <;> simp

theorem NotifyObjectLoop_passive_fatal (gns : ObserverRef → World → Int) (b : Int)
    (addr : Address) (size : Nat) (l : List ObserverRef) (next_step : Int) (w : World) :
    (NotifyObjectLoop (Callbacks.passive gns) b addr size l next_step w).fatal ≠
      some Fatal.object_below_threshold := by
  induction l generalizing next_step w with
  | nil => simp [NotifyObjectLoop]
  | cons o rest ih =>
    have hstep := AllocationStep_passive_fatal gns o b addr size w
    simp only [NotifyObjectLoop]
    cases hf : (AllocationStep (Callbacks.passive gns) o b addr size w).fatal with
    | none => exact ih _ _
    | some e =>
      rw [hf] at hstep
      exact hstep

theorem NotifyObject_size_fatal (gns : ObserverRef → World → Int) (addr : Address) (n : Nat)
    (w : World) (hactive : IsActive w = true) :
    (NotifyObject (Callbacks.passive gns) addr n w).fatal = some Fatal.object_below_threshold ↔
      n ≤ to_size_t (w.counter.next_counter_ - w.counter.current_counter_) := by
  constructor
  · intro h
    by_contra hn
    by_cases hflag : w.heap.allocation_step_in_progress_ = true
    · rw [NotifyObject_in_progress _ addr n w hactive (by omega) hflag] at h
      simp at h
    · by_cases haddr : addr = 0
      · subst haddr
        rw [NotifyObject_null _ n w hactive (by omega) (by simpa using hflag)] at h
        simp at h
      · rw [NotifyObject_fan_out _ addr n w hactive (by omega) (by simpa using hflag) haddr]
          at h
        have hl := NotifyObjectLoop_passive_fatal gns
          (static_cast_int (to_size_t (w.counter.current_counter_ - w.counter.prev_counter_)))
          addr n w.counter.allocation_observers_ 0 (fillerWorld addr n w)
        change (fanOut (Callbacks.passive gns) addr n w).fatal ≠ _ at hl
        unfold Outcome.andThen at h
        split at h
        · simp at h
        · rename_i e he
          simp only at h
          rw [he] at hl
          exact hl h
  · intro h
    rw [NotifyObject_below _ addr n w hactive h]

/-- C8: on an active counter with `current_counter <= next_counter`, `NotifyBytes(n)` fails
its assertion if and only if `n > next_counter - current_counter` (and otherwise fails none),
and `NotifyObject(addr, n)` fails its size assertion if and only if `n <= next_counter -
current_counter`; so for every size `n` exactly one of the two calls passes its threshold
assertion. -/
theorem C8_threshold_routing (gns : ObserverRef → World → Int) (addr : Address) (n : Nat)
    (w : World) (hactive : IsActive w = true)
    (hle : w.counter.current_counter_ ≤ w.counter.next_counter_)
    (hnext : w.counter.next_counter_ < 18446744073709551616) :
    ((NotifyBytes n w).fatal = some Fatal.bytes_cross_threshold ↔
      w.counter.next_counter_ - w.counter.current_counter_ < n) ∧
    ((NotifyBytes n w).fatal = none ↔
      n ≤ w.counter.next_counter_ - w.counter.current_counter_) ∧
    ((NotifyObject (Callbacks.passive gns) addr n w).fatal =
        some Fatal.object_below_threshold ↔
      n ≤ w.counter.next_counter_ - w.counter.current_counter_) ∧
    ((NotifyBytes n w).fatal = some Fatal.bytes_cross_threshold ↔
      ¬ (NotifyObject (Callbacks.passive gns) addr n w).fatal =
        some Fatal.object_below_threshold) := by
  have h1 : to_size_t (w.counter.next_counter_ - w.counter.current_counter_) =
      w.counter.next_counter_ - w.counter.current_counter_ := to_size_t_sub _ _ hle hnext
  have hb := NotifyBytes_fatal n w hactive
  have ho := NotifyObject_size_fatal gns addr n w hactive
  rw [h1] at hb ho
  rw [ho, hb]
  by_cases hn : n ≤ w.counter.next_counter_ - w.counter.current_counter_
  · simp [hn]
  · simp [hn]
    omega

/-- C8 at a reachable state with 13 bytes left before the threshold: size 13 is accepted by
`NotifyBytes` and refused by `NotifyObject`, size 14 is refused by `NotifyBytes` and accepted
by `NotifyObject`. -/
theorem C8_threshold_routing_witness :
    IsActive twoObserversWorld = true ∧
    twoObserversWorld.counter.current_counter_ ≤ twoObserversWorld.counter.next_counter_ ∧
    twoObserversWorld.counter.next_counter_ - twoObserversWorld.counter.current_counter_ = 13 ∧
    (NotifyBytes 13 twoObserversWorld).fatal = none ∧
    (NotifyObject (Callbacks.passive fun o _ => twoPeriods o) 72 13 twoObserversWorld).fatal =
      some Fatal.object_below_threshold ∧
    (NotifyBytes 14 twoObserversWorld).fatal = some Fatal.bytes_cross_threshold ∧
    (NotifyObject (Callbacks.passive fun o _ => twoPeriods o) 72 14 twoObserversWorld).fatal =
      none :=
  ⟨by decide, by decide, by decide, by decide, by decide,
    (C8_threshold_routing (fun o _ => twoPeriods o) 72 14 twoObserversWorld (by decide)
      (by decide) (by decide)).1.2 (by decide),
    by decide⟩

/-! ## C9 -/

theorem static_cast_int_to_size_t (x : Int) :
    static_cast_int (to_size_t x) = static_cast_int x := by
  unfold static_cast_int to_size_t
  omega

theorem static_cast_int_congr (x y : Int)
    (h : x % 18446744073709551616 = y % 18446744073709551616) :
    static_cast_int x = static_cast_int y := by
  unfold static_cast_int
  omega

theorem applyOp_tracks (gns : ObserverRef → World → Int) (op : Op) (w : World)
    (g : List ObserverRef × Nat) (h : Tracks w g)
    (hok : (applyOp (Callbacks.passive gns) op w).fatal = none) :
    Tracks (applyOp (Callbacks.passive gns) op w).val (countedStep g op) := by
  obtain ⟨h1, h2⟩ := h
  cases op with
  | AddAllocationObserver o =>
    exact ⟨by simp [applyOp, AddAllocationObserver, countedStep, h1], h2⟩
  | RemoveAllocationObserver o =>
    simp only [applyOp, RemoveAllocationObserver] at hok ⊢
    split_ifs at hok ⊢ with hmem
    · exact ⟨by simp [countedStep, h1], h2⟩
  | NotifyBytes n =>
    simp only [applyOp, NotifyBytes] at hok ⊢
    by_cases ha : IsActive w = true
    · have hg : g.1.isEmpty = false := by
        rw [← h1]
        simpa [IsActive] using ha
      simp only [ha, Bool.not_true, Bool.false_eq_true, if_false] at hok ⊢
      split_ifs at hok ⊢ with hn
      refine ⟨h1, ?_⟩
      simp only [countedStep, hg, Bool.false_eq_true, if_false]
      unfold to_size_t
      push_cast
      omega
    · have hg : g.1.isEmpty = true := by
        rw [← h1]
        simpa [IsActive] using ha
      simp only [ha, Bool.not_false, if_true, countedStep, hg] 
      simp at ha
      simp [ha]
      exact ⟨h1, h2⟩
  | NotifyObject addr n =>
    simp only [applyOp] at hok ⊢
    rcases NotifyObject_cases (Callbacks.passive gns) addr n w with hc | hc | ⟨ha, _, _, _, hc⟩
    · have ha : IsActive w = false := by
        by_contra hcon
        exact hc.2 (by simpa using hcon) hok
      have hg : g.1.isEmpty = true := by
        rw [← h1]
        simpa [IsActive] using ha
      rw [hc.1]
      simp only [countedStep, hg, if_true]
      exact ⟨h1, h2⟩
    · rw [hc] at hok
      simp at hok
    · have hg : g.1.isEmpty = false := by
        rw [← h1]
        simpa [IsActive] using ha
      have hcount := (NotifyObjectLoop_passive_counter gns
        (static_cast_int (to_size_t (w.counter.current_counter_ - w.counter.prev_counter_)))
        addr n w.counter.allocation_observers_ 0 (fillerWorld addr n w)).1
      change (fanOut (Callbacks.passive gns) addr n w).val.1.counter = _ at hcount
      rw [hc] at hok ⊢
      unfold Outcome.andThen at hok ⊢
      split at hok
      · rename_i hf
        simp only [hf, countedStep, hg, Bool.false_eq_true, if_false]
        refine ⟨?_, by simp⟩
        simp only
        rw [hcount]
        exact h1
      · simp at hok

theorem run_tracks (gns : ObserverRef → World → Int) (ops : List Op) (w : World)
    (g : List ObserverRef × Nat) (h : Tracks w g)
    (hok : (run (Callbacks.passive gns) ops w).fatal = none) :
    Tracks (run (Callbacks.passive gns) ops w).val (ops.foldl countedStep g) := by
  induction ops generalizing w g with
  | nil => exact h
  | cons op rest ih =>
    simp only [run] at hok ⊢
    cases hf : (applyOp (Callbacks.passive gns) op w).fatal with
    | none =>
      simp only [hf] at hok ⊢
      exact ih _ _ (applyOp_tracks gns op w g h hf) hok
    | some e => simp [hf] at hok

theorem AllocationStep_passive_events (gns : ObserverRef → World → Int) (self : ObserverRef)
    (b : Int) (addr : Address) (size : Nat) (w : World) :
    ∃ events, (AllocationStep (Callbacks.passive gns) self b addr size w).val.trace =
        w.trace ++ events ∧
      ∀ e ∈ events, e.isAllocationStep = true → e = Event.AllocationStep self b addr size := by
  by_cases hb : b < 0
  · rw [AllocationStep_negative _ self b addr size w hb]
    exact ⟨[Event.AllocationStep self b addr size], by simp, by simp⟩
  · by_cases hr : 0 < (w.observers self).bytes_to_next_step_ - b
    · rw [AllocationStep_no_fire _ self b addr size w (by omega) hr]
      exact ⟨[Event.AllocationStep self b addr size], by simp, by simp⟩
    · rw [AllocationStep_fire gns self b addr size w (by omega) (by omega)]
      refine ⟨[Event.AllocationStep self b addr size,
        Event.Step self
          (static_cast_int ((w.observers self).step_size_ -
            ((w.observers self).bytes_to_next_step_ - b))) addr size], by simp, ?_⟩
      intro e he hs
      simp only [List.mem_cons, List.mem_singleton, List.not_mem_nil, or_false] at he
      rcases he with rfl | rfl
      · rfl
      · simp [Event.isAllocationStep] at hs

theorem NotifyObjectLoop_passive_events (gns : ObserverRef → World → Int) (b : Int)
    (addr : Address) (size : Nat) (l : List ObserverRef) (next_step : Int) (w : World) :
    ∃ events,
      (NotifyObjectLoop (Callbacks.passive gns) b addr size l next_step w).val.1.trace =
        w.trace ++ events ∧
      ∀ e ∈ events, e.isAllocationStep = true →
        ∃ o ∈ l, e = Event.AllocationStep o b addr size := by
  induction l generalizing next_step w with
  | nil => exact ⟨[], by simp [NotifyObjectLoop], by simp⟩
  | cons a rest ih =>
    obtain ⟨ev1, ht1, he1⟩ := AllocationStep_passive_events gns a b addr size w
    simp only [NotifyObjectLoop]
    cases hf : (AllocationStep (Callbacks.passive gns) a b addr size w).fatal with
    | none =>
      obtain ⟨ev2, ht2, he2⟩ := ih
        (next_step_update next_step
          ((AllocationStep (Callbacks.passive gns) a b addr size w).val.observers
            a).bytes_to_next_step_)
        (AllocationStep (Callbacks.passive gns) a b addr size w).val
      refine ⟨ev1 ++ ev2, ?_, ?_⟩
      · simp only
        rw [ht2, ht1, List.append_assoc]
      · intro e he hs
        rcases List.mem_append.1 he with he | he
        · exact ⟨a, List.mem_cons_self _ _, he1 e he hs⟩
        · obtain ⟨o, ho, h⟩ := he2 e he hs
          exact ⟨o, List.mem_cons_of_mem _ ho, h⟩
    | some e =>
      refine ⟨ev1, ht1, ?_⟩
      intro e he hs
      exact ⟨a, List.mem_cons_self _ _, he1 e he hs⟩

theorem NotifyObject_passive_events (gns : ObserverRef → World → Int) (addr : Address)
    (n : Nat) (w : World) :
    ∃ events, (NotifyObject (Callbacks.passive gns) addr n w).val.trace = w.trace ++ events ∧
      ∀ e ∈ events, e.isAllocationStep = true →
        ∃ o ∈ w.counter.allocation_observers_,
          e = Event.AllocationStep o
            (static_cast_int (to_size_t (w.counter.current_counter_ - w.counter.prev_counter_)))
            addr n := by
  rcases NotifyObject_cases (Callbacks.passive gns) addr n w with hc | hc | ⟨_, _, _, _, hc⟩
  · rw [hc.1]
    exact ⟨[], by simp, by simp⟩
  · rw [hc]
    exact ⟨[], by simp, by simp⟩
  · obtain ⟨ev, ht, he⟩ := NotifyObjectLoop_passive_events gns
      (static_cast_int (to_size_t (w.counter.current_counter_ - w.counter.prev_counter_)))
      addr n w.counter.allocation_observers_ 0 (fillerWorld addr n w)
    change (fanOut (Callbacks.passive gns) addr n w).val.1.trace = _ at ht
    refine ⟨Event.CreateFillerObjectAt addr (static_cast_int n) :: ev, ?_, ?_⟩
    · rw [hc]
      unfold Outcome.andThen
      split
      · simp only
        rw [ht]
        simp [fillerWorld]
      · simp only
        rw [ht]
        simp [fillerWorld]
    · intro e hmem hs
      rcases List.mem_cons.1 hmem with rfl | hmem
      · simp [Event.isAllocationStep] at hs
      · exact he e hmem hs

/-- C9 (as amended): after every sequence of `AddAllocationObserver`,
`RemoveAllocationObserver`, `NotifyBytes` and `NotifyObject` calls that pass their assertions,
every `AllocationStep` call that `NotifyObject` makes goes to a registered observer and passes
as `bytes_allocated` the `static_cast<int>` of the number of bytes notified to the counter,
while at least one observer was registered, since the counter's last step (its last
`NotifyObject` made while at least one observer was registered, or its creation); bytes
notified while no observer is registered are not counted. The value is the same for all
registered observers, whenever they were registered. -/
theorem C9_bytes_since_last_step (gns : ObserverRef → World → Int)
    (step_size : ObserverRef → Int) (ops : List Op) (addr : Address) (n : Nat)
    (hok : (run (Callbacks.passive gns) ops (World.init step_size)).fatal = none) :
    ∃ events,
      (NotifyObject (Callbacks.passive gns) addr n
          (run (Callbacks.passive gns) ops (World.init step_size)).val).val.trace =
        (run (Callbacks.passive gns) ops (World.init step_size)).val.trace ++ events ∧
      ∀ e ∈ events, e.isAllocationStep = true →
        ∃ o ∈ (run (Callbacks.passive gns) ops
            (World.init step_size)).val.counter.allocation_observers_,
          e = Event.AllocationStep o (static_cast_int (bytesCountedSinceStep ops)) addr n := by
  have htr := run_tracks gns ops (World.init step_size) ([], 0) ⟨rfl, rfl⟩ hok
  obtain ⟨events, ht, he⟩ := NotifyObject_passive_events gns addr n
    (run (Callbacks.passive gns) ops (World.init step_size)).val
  refine ⟨events, ht, fun e hmem hs => ?_⟩
  obtain ⟨o, ho, h⟩ := he e hmem hs
  refine ⟨o, ho, ?_⟩
  rw [h, static_cast_int_to_size_t]
  rw [static_cast_int_congr _ _ htr.2]
  rfl

/-- C9 after a late registration: 16 bytes have been notified since the last step, and every
`AllocationStep` of the next `NotifyObject` carries 16, also the one of the observer registered
after those bytes. When 1000 more bytes are notified while no observer is registered, they are
not counted: the observer registered afterwards is handed 16. -/
theorem C9_bytes_since_last_step_witness :
    (run (Callbacks.passive fun _ _ => 100) lateRegistration
      (World.init fun _ => 100)).fatal = none ∧
    bytesCountedSinceStep lateRegistration = 16 ∧
    (NotifyObject (Callbacks.passive fun _ _ => 100) 64 200
        (run (Callbacks.passive fun _ _ => 100) lateRegistration
          (World.init fun _ => 100)).val).val.trace.drop
        (run (Callbacks.passive fun _ _ => 100) lateRegistration
          (World.init fun _ => 100)).val.trace.length =
      [Event.CreateFillerObjectAt 64 200, Event.AllocationStep 1 16 64 200,
        Event.AllocationStep 2 16 64 200] ∧
    (run (Callbacks.passive fun _ _ => 100) unobservedBytes
      (World.init fun _ => 100)).fatal = none ∧
    bytesCountedSinceStep unobservedBytes = 16 ∧
    (NotifyObject (Callbacks.passive fun _ _ => 100) 64 200
        (run (Callbacks.passive fun _ _ => 100) unobservedBytes
          (World.init fun _ => 100)).val).val.trace.drop
        (run (Callbacks.passive fun _ _ => 100) unobservedBytes
          (World.init fun _ => 100)).val.trace.length =
      [Event.CreateFillerObjectAt 64 200, Event.AllocationStep 2 16 64 200] ∧
    (∃ events,
      (NotifyObject (Callbacks.passive fun _ _ => 100) 64 200
          (run (Callbacks.passive fun _ _ => 100) lateRegistration
            (World.init fun _ => 100)).val).val.trace =
        (run (Callbacks.passive fun _ _ => 100) lateRegistration
          (World.init fun _ => 100)).val.trace ++ events ∧
      ∀ e ∈ events, e.isAllocationStep = true →
        ∃ o ∈ (run (Callbacks.passive fun _ _ => 100) lateRegistration
            (World.init fun _ => 100)).val.counter.allocation_observers_,
          e = Event.AllocationStep o
            (static_cast_int (bytesCountedSinceStep lateRegistration)) 64 200) ∧
    ∃ events,
      (NotifyObject (Callbacks.passive fun _ _ => 100) 64 200
          (run (Callbacks.passive fun _ _ => 100) unobservedBytes
            (World.init fun _ => 100)).val).val.trace =
        (run (Callbacks.passive fun _ _ => 100) unobservedBytes
          (World.init fun _ => 100)).val.trace ++ events ∧
      ∀ e ∈ events, e.isAllocationStep = true →
        ∃ o ∈ (run (Callbacks.passive fun _ _ => 100) unobservedBytes
            (World.init fun _ => 100)).val.counter.allocation_observers_,
          e = Event.AllocationStep o
            (static_cast_int (bytesCountedSinceStep unobservedBytes)) 64 200 :=
  ⟨by decide, by decide, by decide, by decide, by decide, by decide,
    C9_bytes_since_last_step (fun _ _ => 100) (fun _ => 100) lateRegistration 64 200
      (by decide),
    C9_bytes_since_last_step (fun _ _ => 100) (fun _ => 100) unobservedBytes 64 200
      (by decide)⟩

/-- C9 as stated fails: observer 2 is registered after 16 bytes have been notified since the
last step and no byte is notified afterwards, so no byte has been notified since its countdown
was last updated; the next `NotifyObject` hands it `bytes_allocated = 16`. -/
theorem C9_counterexample :
    (run (Callbacks.passive fun _ _ => 100) lateRegistration
      (World.init fun _ => 100)).fatal = none ∧
    bytesSinceUpdate 2 lateRegistration = 0 ∧
    (NotifyObject (Callbacks.passive fun _ _ => 100) 64 200
      (run (Callbacks.passive fun _ _ => 100) lateRegistration
        (World.init fun _ => 100)).val).fatal = none ∧
    (NotifyObject (Callbacks.passive fun _ _ => 100) 64 200
        (run (Callbacks.passive fun _ _ => 100) lateRegistration
          (World.init fun _ => 100)).val).val.trace.drop
        (run (Callbacks.passive fun _ _ => 100) lateRegistration
          (World.init fun _ => 100)).val.trace.length =
      [Event.CreateFillerObjectAt 64 200, Event.AllocationStep 1 16 64 200,
        Event.AllocationStep 2 16 64 200] ∧
    Event.AllocationStep 2 (bytesSinceUpdate 2 lateRegistration) 64 200 ∉
      (NotifyObject (Callbacks.passive fun _ _ => 100) 64 200
        (run (Callbacks.passive fun _ _ => 100) lateRegistration
          (World.init fun _ => 100)).val).val.trace := by
  decide

/-! ## C10 -/

theorem NotifyObject_flag_set (cb : Callbacks) (addr : Address) (n : Nat) (w : World)
    (hactive : IsActive w = true) (hflag : w.heap.allocation_step_in_progress_ = true) :
    NotifyObject cb addr n w = ⟨w, some (nestedFatal n w)⟩ := by
  unfold nestedFatal
  by_cases hn : n ≤ to_size_t (w.counter.next_counter_ - w.counter.current_counter_)
  · rw [NotifyObject_below cb addr n w hactive hn]
    simp [hn]
  · rw [NotifyObject_in_progress cb addr n w hactive (by omega) hflag]
    simp [hn]

theorem AllocationStep_reentrant_fire (inner : Callbacks) (addr2 : Address) (n2 : Nat)
    (gns : ObserverRef → World → Int) (self : ObserverRef) (b : Int) (addr : Address)
    (size : Nat) (w : World) (hactive : IsActive w = true)
    (hflag : w.heap.allocation_step_in_progress_ = true) (hb : 0 ≤ b)
    (hr : (w.observers self).bytes_to_next_step_ - b ≤ 0) :
    AllocationStep (Callbacks.reentrant inner addr2 n2 gns) self b addr size w =
      ⟨firedWorld self b addr size w, some (nestedFatal n2 w)⟩ := by
  have hnested := NotifyObject_flag_set inner addr2 n2 (firedWorld self b addr size w)
    hactive hflag
  have hf : nestedFatal n2 (firedWorld self b addr size w) = nestedFatal n2 w := rfl
  rw [hf] at hnested
  unfold AllocationStep
  have h1 : ¬ b < 0 := by omega
  simp only [h1, if_false, record_observers, set_bytes_self, hr, if_true, Callbacks.reentrant]
  change Outcome.andThen (Outcome.andThen
    (NotifyObject inner addr2 n2 (firedWorld self b addr size w)) _ id) _ id = _
  rw [hnested]
  rfl

theorem NotifyObjectLoop_reentrant (inner : Callbacks) (addr2 : Address) (n2 : Nat)
    (gns : ObserverRef → World → Int) (b : Int) (addr : Address) (size : Nat)
    (l : List ObserverRef) (next_step : Int) (w : World) (hactive : IsActive w = true)
    (hflag : w.heap.allocation_step_in_progress_ = true) :
    ∃ k events, k ≤ l.length ∧
      (NotifyObjectLoop (Callbacks.reentrant inner addr2 n2 gns) b addr size l next_step
        w).val.1.trace = w.trace ++ events ∧
      events.filter Event.isAllocationStep =
        (l.take k).map (fun o => Event.AllocationStep o b addr size) ∧
      events.countP Event.isStep ≤ 1 ∧
      (0 < events.countP Event.isStep →
        (NotifyObjectLoop (Callbacks.reentrant inner addr2 n2 gns) b addr size l next_step
          w).fatal = some (nestedFatal n2 w) ∧
        (NotifyObjectLoop (Callbacks.reentrant inner addr2 n2 gns) b addr size l next_step
          w).val.1.heap.allocation_step_in_progress_ = true) := by
  induction l generalizing next_step w with
  | nil => exact ⟨0, [], le_refl _, by simp [NotifyObjectLoop], rfl, by simp, by simp⟩
  | cons a rest ih =>
    simp only [NotifyObjectLoop]
    by_cases hb : b < 0
    · rw [AllocationStep_negative _ a b addr size w hb]
      exact ⟨1, [Event.AllocationStep a b addr size], by simp, by simp,
        by simp [Event.isAllocationStep], by simp [Event.isStep], by simp [Event.isStep]⟩
    · by_cases hr : 0 < (w.observers a).bytes_to_next_step_ - b
      · rw [AllocationStep_no_fire _ a b addr size w (by omega) hr]
        obtain ⟨k, events, hk, ht, hev, hcount, hfatal⟩ := ih
          (next_step_update next_step
            ((w.observers a).bytes_to_next_step_ - b))
          ((w.record (Event.AllocationStep a b addr size)).set_bytes_to_next_step a
            ((w.observers a).bytes_to_next_step_ - b)) hactive hflag
        refine ⟨k + 1, Event.AllocationStep a b addr size :: events, by simpa using hk, ?_, ?_,
          ?_, ?_⟩
        · simp only [set_bytes_self]
          rw [ht]
          simp
        · simp [List.filter_cons, Event.isAllocationStep, hev]
        · simpa [List.countP_cons, Event.isStep] using hcount
        · intro hpos
          simp only [set_bytes_self]
          exact hfatal (by simpa [List.countP_cons, Event.isStep] using hpos)
      · rw [AllocationStep_reentrant_fire inner addr2 n2 gns a b addr size w hactive hflag
          (by omega) (by omega)]
        refine ⟨1, [Event.AllocationStep a b addr size,
          Event.Step a
            (static_cast_int ((w.observers a).step_size_ -
              ((w.observers a).bytes_to_next_step_ - b))) addr size], by simp, by simp,
          by simp [List.filter_cons, Event.isAllocationStep],
          by simp [List.countP_cons, Event.isStep], ?_⟩
        intro _
        exact ⟨rfl, hflag⟩

theorem NotifyObject_reentrant (inner : Callbacks) (addr2 : Address) (n2 : Nat)
    (gns : ObserverRef → World → Int) (addr : Address) (n : Nat) (w : World)
    (hactive : IsActive w = true)
    (hsize : to_size_t (w.counter.next_counter_ - w.counter.current_counter_) < n)
    (hflag : w.heap.allocation_step_in_progress_ = false) (haddr : addr ≠ 0) :
    ∃ k events, k ≤ w.counter.allocation_observers_.length ∧
      (NotifyObject (Callbacks.reentrant inner addr2 n2 gns) addr n w).val.trace =
        w.trace ++ Event.CreateFillerObjectAt addr (static_cast_int n) :: events ∧
      events.filter Event.isAllocationStep =
        (w.counter.allocation_observers_.take k).map
          (fun o => Event.AllocationStep o
            (static_cast_int (to_size_t (w.counter.current_counter_ - w.counter.prev_counter_)))
            addr n) ∧
      events.countP Event.isStep ≤ 1 ∧
      (0 < events.countP Event.isStep →
        (NotifyObject (Callbacks.reentrant inner addr2 n2 gns) addr n w).fatal =
          some (nestedFatal n2 w) ∧
        (NotifyObject (Callbacks.reentrant inner addr2 n2 gns) addr n
          w).val.heap.allocation_step_in_progress_ = true) := by
  obtain ⟨k, events, hk, ht, hev, hcount, hfatal⟩ := NotifyObjectLoop_reentrant inner addr2 n2
    gns (static_cast_int (to_size_t (w.counter.current_counter_ - w.counter.prev_counter_)))
    addr n w.counter.allocation_observers_ 0 (fillerWorld addr n w) hactive rfl
  change (fanOut (Callbacks.reentrant inner addr2 n2 gns) addr n w).val.1.trace = _ at ht
  change _ → (fanOut (Callbacks.reentrant inner addr2 n2 gns) addr n w).fatal = _ ∧
    (fanOut (Callbacks.reentrant inner addr2 n2 gns) addr n
      w).val.1.heap.allocation_step_in_progress_ = true at hfatal
  rw [NotifyObject_fan_out _ addr n w hactive hsize hflag haddr]
  refine ⟨k, events, hk, ?_, hev, hcount, fun hpos => ?_⟩
  · unfold Outcome.andThen
    split
    · simp only
      rw [ht]
      simp [fillerWorld]
    · simp only
      rw [ht]
      simp [fillerWorld]
  · obtain ⟨h1, h2⟩ := hfatal hpos
    have hn : nestedFatal n2 (fillerWorld addr n w) = nestedFatal n2 w := rfl
    rw [hn] at h1
    simp [Outcome.andThen, h1, h2]

theorem NotifyObject_clears_flag (cb : Callbacks) (addr : Address) (n : Nat) (w : World)
    (hentry : IsActive w = true ∨ w.heap.allocation_step_in_progress_ = false)
    (hok : (NotifyObject cb addr n w).fatal = none) :
    (NotifyObject cb addr n w).val.heap.allocation_step_in_progress_ = false := by
  rcases NotifyObject_cases cb addr n w with hc | hc | ⟨_, _, _, _, hc⟩
  · rcases hentry with hactive | hflag
    · exact absurd hok (hc.2 hactive)
    · rw [hc.1]
      exact hflag
  · rw [hc] at hok
    simp at hok
  · rw [hc] at hok ⊢
    unfold Outcome.andThen at hok ⊢
    split at hok
    · rename_i hf
      simp [hf]
    · simp at hok

theorem NotifyObjectWith_plain (cb : Callbacks) (addr : Address) (n : Nat) (w : World) :
    NotifyObjectWith (fun _ _ w1 => ⟨w1, none⟩) cb addr n w = NotifyObject cb addr n w := by
  rfl

theorem NotifyObjectWith_reentrant (inner cb : Callbacks) (addr2 : Address) (n2 : Nat)
    (addr : Address) (n : Nat) (w : World) (hactive : IsActive w = true)
    (hsize : to_size_t (w.counter.next_counter_ - w.counter.current_counter_) < n)
    (hflag : w.heap.allocation_step_in_progress_ = false) (haddr : addr ≠ 0) :
    NotifyObjectWith (fun _ _ w1 => NotifyObject inner addr2 n2 w1) cb addr n w =
      ⟨fillerWorld addr n w, some (nestedFatal n2 w)⟩ := by
  have hnested := NotifyObject_flag_set inner addr2 n2 (fillerWorld addr n w) hactive rfl
  have hf : nestedFatal n2 (fillerWorld addr n w) = nestedFatal n2 w := rfl
  rw [hf] at hnested
  have : ¬ n ≤ to_size_t (w.counter.next_counter_ - w.counter.current_counter_) := by omega
  unfold NotifyObjectWith
  simp only [hactive, hflag, haddr, this, gt_iff_lt, not_lt, Bool.not_true, if_false,
    Bool.false_eq_true]
  change Outcome.andThen (NotifyObject inner addr2 n2 (fillerWorld addr n w)) _ id = _
  rw [hnested]
  rfl

theorem NotifyObjectWith_filler_congr (f1 f2 : Address → Int → World → Outcome World)
    (cb : Callbacks) (addr : Address) (n : Nat) (w : World)
    (h : ∀ a s w1, w1.heap.allocation_step_in_progress_ = true → f1 a s w1 = f2 a s w1) :
    NotifyObjectWith f1 cb addr n w = NotifyObjectWith f2 cb addr n w := by
  have hf := h addr (static_cast_int n)
    (World.record { w with heap := { w.heap with allocation_step_in_progress_ := true } }
      (Event.CreateFillerObjectAt addr (static_cast_int n))) rfl
  unfold NotifyObjectWith
  simp only [hf]

/-- C10 (as amended): (1) `NotifyObject` on an active counter fails an assertion, with the state
untouched, whenever the heap's allocation-step-in-progress flag is already set, and the
assertion is the re-entrancy one when the size crosses the threshold; (2) with observers whose
`Step` makes a nested `NotifyObject` call, a `NotifyObject` whose own preconditions hold steps
the registered observers in order, each at most once, invokes `Step` at most once, and as soon
as a `Step` is invoked the call ends with the assertion failed by the nested call, the flag
being set at that point; (3) after a `NotifyObject` that completes, on an active counter or
entered with the flag clear, the flag is false; (4) on a counter with no observer
`NotifyObject` returns the state it was called in, so a flag that was set stays set; (5) with a
filler creation that does nothing to the state, `NotifyObjectWith` is `NotifyObject`; (6) when
the filler creation makes a nested `NotifyObject` call, a `NotifyObject` whose own
preconditions hold ends with the assertion failed by the nested call, in the state in which
the flag is set and the filler creation recorded, before any observer is stepped; (7) the
filler creation only ever runs with the flag set: two filler creations that agree on the
states in which the flag is set give the same `NotifyObject`. -/
theorem C10_reentrancy_guard :
    (∀ (cb : Callbacks) (addr : Address) (n : Nat) (w : World),
      IsActive w = true → w.heap.allocation_step_in_progress_ = true →
      (NotifyObject cb addr n w).fatal = some (nestedFatal n w) ∧
      (NotifyObject cb addr n w).val = w ∧
      (to_size_t (w.counter.next_counter_ - w.counter.current_counter_) < n →
        (NotifyObject cb addr n w).fatal = some Fatal.allocation_step_in_progress)) ∧
    (∀ (inner : Callbacks) (addr2 : Address) (n2 : Nat) (gns : ObserverRef → World → Int)
      (addr : Address) (n : Nat) (w : World),
      IsActive w = true →
      to_size_t (w.counter.next_counter_ - w.counter.current_counter_) < n →
      w.heap.allocation_step_in_progress_ = false → addr ≠ 0 →
      ∃ k events, k ≤ w.counter.allocation_observers_.length ∧
        (NotifyObject (Callbacks.reentrant inner addr2 n2 gns) addr n w).val.trace =
          w.trace ++ Event.CreateFillerObjectAt addr (static_cast_int n) :: events ∧
        events.filter Event.isAllocationStep =
          (w.counter.allocation_observers_.take k).map
            (fun o => Event.AllocationStep o
              (static_cast_int
                (to_size_t (w.counter.current_counter_ - w.counter.prev_counter_)))
              addr n) ∧
        events.countP Event.isStep ≤ 1 ∧
        (0 < events.countP Event.isStep →
          (NotifyObject (Callbacks.reentrant inner addr2 n2 gns) addr n w).fatal =
            some (nestedFatal n2 w) ∧
          (NotifyObject (Callbacks.reentrant inner addr2 n2 gns) addr n
            w).val.heap.allocation_step_in_progress_ = true)) ∧
    (∀ (cb : Callbacks) (addr : Address) (n : Nat) (w : World),
      IsActive w = true ∨ w.heap.allocation_step_in_progress_ = false →
      (NotifyObject cb addr n w).fatal = none →
      (NotifyObject cb addr n w).val.heap.allocation_step_in_progress_ = false) ∧
    (∀ (cb : Callbacks) (addr : Address) (n : Nat) (w : World),
      IsActive w = false → NotifyObject cb addr n w = ⟨w, none⟩) ∧
    (∀ (cb : Callbacks) (addr : Address) (n : Nat) (w : World),
      NotifyObjectWith (fun _ _ w1 => ⟨w1, none⟩) cb addr n w = NotifyObject cb addr n w) ∧
    (∀ (inner cb : Callbacks) (addr2 : Address) (n2 : Nat) (addr : Address) (n : Nat)
      (w : World),
      IsActive w = true →
      to_size_t (w.counter.next_counter_ - w.counter.current_counter_) < n →
      w.heap.allocation_step_in_progress_ = false → addr ≠ 0 →
      (NotifyObjectWith (fun _ _ w1 => NotifyObject inner addr2 n2 w1) cb addr n w).fatal =
        some (nestedFatal n2 w) ∧
      (NotifyObjectWith (fun _ _ w1 => NotifyObject inner addr2 n2 w1) cb addr n w).val =
        fillerWorld addr n w ∧
      (fillerWorld addr n w).heap.allocation_step_in_progress_ = true ∧
      (fillerWorld addr n w).trace =
        w.trace ++ [Event.CreateFillerObjectAt addr (static_cast_int n)]) ∧
    (∀ (f1 f2 : Address → Int → World → Outcome World) (cb : Callbacks) (addr : Address)
      (n : Nat) (w : World),
      (∀ a s w1, w1.heap.allocation_step_in_progress_ = true → f1 a s w1 = f2 a s w1) →
      NotifyObjectWith f1 cb addr n w = NotifyObjectWith f2 cb addr n w) := by
  refine ⟨fun cb addr n w hactive hflag => ?_, ?_, ?_, ?_, ?_, ?_, ?_⟩
  · rw [NotifyObject_flag_set cb addr n w hactive hflag]
    refine ⟨rfl, rfl, fun hn => ?_⟩
    have : ¬ n ≤ to_size_t (w.counter.next_counter_ - w.counter.current_counter_) := by omega
    simp [nestedFatal, this]
  · intro inner addr2 n2 gns addr n w hactive hsize hflag haddr
    exact NotifyObject_reentrant inner addr2 n2 gns addr n w hactive hsize hflag haddr
  · intro cb addr n w hentry hok
    exact NotifyObject_clears_flag cb addr n w hentry hok
  · intro cb addr n w h
    exact NotifyObject_inactive cb addr n w h
  · intro cb addr n w
    exact NotifyObjectWith_plain cb addr n w
  · intro inner cb addr2 n2 addr n w hactive hsize hflag haddr
    rw [NotifyObjectWith_reentrant inner cb addr2 n2 addr n w hactive hsize hflag haddr]
    exact ⟨rfl, rfl, rfl, rfl⟩
  · intro f1 f2 cb addr n w h
    exact NotifyObjectWith_filler_congr f1 f2 cb addr n w h

/-- C10 with one observer whose period has elapsed: when its `Step` makes a nested
`NotifyObject(128, 500)`, the outer call ends with the re-entrancy assertion after one
`AllocationStep` and one `Step`; when the filler creation makes that nested call, the outer
call ends with the re-entrancy assertion before any `AllocationStep`; with a passive observer
the call completes and the flag is false afterwards. -/
theorem C10_reentrancy_guard_witness :
    IsActive observerDueWorld = true ∧
    to_size_t (observerDueWorld.counter.next_counter_ -
      observerDueWorld.counter.current_counter_) < 8 ∧
    observerDueWorld.heap.allocation_step_in_progress_ = false ∧
    (NotifyObject
      (Callbacks.reentrant (Callbacks.passive fun _ _ => 100) 128 500 fun _ _ => 100) 64 8
      observerDueWorld).fatal = some Fatal.allocation_step_in_progress ∧
    (NotifyObject
      (Callbacks.reentrant (Callbacks.passive fun _ _ => 100) 128 500 fun _ _ => 100) 64 8
      observerDueWorld).val.trace.drop observerDueWorld.trace.length =
      [Event.CreateFillerObjectAt 64 8, Event.AllocationStep 1 116 64 8,
        Event.Step 1 116 64 8] ∧
    (NotifyObjectWith (fun _ _ w1 => NotifyObject (Callbacks.passive fun _ _ => 100) 128 500 w1)
      (Callbacks.passive fun _ _ => 100) 64 8 observerDueWorld).fatal =
      some Fatal.allocation_step_in_progress ∧
    (NotifyObjectWith (fun _ _ w1 => NotifyObject (Callbacks.passive fun _ _ => 100) 128 500 w1)
      (Callbacks.passive fun _ _ => 100) 64 8 observerDueWorld).val.trace.drop
        observerDueWorld.trace.length = [Event.CreateFillerObjectAt 64 8] ∧
    (NotifyObject (Callbacks.passive fun _ _ => 100) 64 8 observerDueWorld).fatal = none ∧
    (NotifyObject (Callbacks.passive fun _ _ => 100) 64 8
      observerDueWorld).val.heap.allocation_step_in_progress_ = false ∧
    (NotifyObjectWith (fun _ _ w1 => NotifyObject (Callbacks.passive fun _ _ => 100) 128 500 w1)
      (Callbacks.passive fun _ _ => 100) 64 8 observerDueWorld).val =
      fillerWorld 64 8 observerDueWorld :=
  ⟨by decide, by decide, by decide, by decide, by decide, by decide, by decide, by decide,
    C10_reentrancy_guard.2.2.1 (Callbacks.passive fun _ _ => 100) 64 8 observerDueWorld
      (Or.inl (by decide)) (by decide),
    (C10_reentrancy_guard.2.2.2.2.2.1 (Callbacks.passive fun _ _ => 100)
      (Callbacks.passive fun _ _ => 100) 128 500 64 8 observerDueWorld
      (by decide) (by decide) (by decide) (by decide)).2.1⟩

/-- C10 as stated fails: a `Step` invoked by `NotifyObject(64, 8)` that unregisters the only
observer leaves a counter with no observer while the flag is set; a nested
`NotifyObject(128, 500)` made there returns at line 45, so it completes, and the flag is
still set after it. -/
theorem C10_counterexample :
    (RemoveAllocationObserver 1
      (firedWorld 1 116 64 8 (fillerWorld 64 8 observerDueWorld))).fatal = none ∧
    IsActive unregisteredInStepWorld = false ∧
    unregisteredInStepWorld.heap.allocation_step_in_progress_ = true ∧
    (NotifyObject (Callbacks.passive fun _ _ => 100) 128 500 unregisteredInStepWorld).fatal =
      none ∧
    (NotifyObject (Callbacks.passive fun _ _ => 100) 128 500
      unregisteredInStepWorld).val.heap.allocation_step_in_progress_ = true := by
  decide

/-! ## C11 -/

theorem NotifyBytes_inactive (n : Nat) (w : World) (h : IsActive w = false) :
    NotifyBytes n w = ⟨w, none⟩ := by
  simp [NotifyBytes, h]

/-- C11: with zero observers registered, `NotifyBytes(n)` and `NotifyObject(addr, n)` are
no-ops for every `n` and `addr`: the outcome is the state they were called in, with no
assertion failed whatever the arguments (none is evaluated), so the three counters, the heap's
step-in-progress flag and the trace (no filler object is created) are unchanged. -/
theorem C11_inactive_no_op (cb : Callbacks) (addr : Address) (n : Nat) (w : World)
    (hnone : w.counter.allocation_observers_ = []) :
    NotifyBytes n w = ⟨w, none⟩ ∧ NotifyObject cb addr n w = ⟨w, none⟩ := by
  have h : IsActive w = false := by simp [IsActive, hnone]
  exact ⟨NotifyBytes_inactive n w h, NotifyObject_inactive cb addr n w h⟩

/-- C11 on a fresh counter: `NotifyBytes(5)`, which would cross the threshold of an active
counter, and `NotifyObject(0, 0)`, with a null address and a size that crosses nothing, both
return without a failed assertion and leave the state as it was. -/
theorem C11_inactive_no_op_witness :
    (World.init fun _ => 100).counter.allocation_observers_ = [] ∧
    (NotifyBytes 5 (World.init fun _ => 100)).val.counter = ⟨[], 0, 0, 0⟩ ∧
    (NotifyBytes 5 (World.init fun _ => 100)).fatal = none ∧
    (NotifyObject (Callbacks.passive fun _ _ => 100) 0 0 (World.init fun _ => 100)).fatal =
      none ∧
    (NotifyObject (Callbacks.passive fun _ _ => 100) 0 0
      (World.init fun _ => 100)).val.trace = [] ∧
    NotifyObject (Callbacks.passive fun _ _ => 100) 0 0 (World.init fun _ => 100) =
      ⟨World.init fun _ => 100, none⟩ :=
  ⟨rfl, by decide, by decide, by decide, by decide,
    (C11_inactive_no_op (Callbacks.passive fun _ _ => 100) 0 0 (World.init fun _ => 100)
      rfl).2⟩

/-! ## C12 -/

/-- C12: `RemoveAllocationObserver(o)` fails its assertion if and only if `o` is not in the
observer collection, and then changes nothing; when `o` is registered it removes exactly the
first occurrence of `o`, keeps all other observers in their original relative order, and
leaves the three counters, every observer's fields, the heap flag and the trace unchanged. -/
theorem C12_remove_observer (o : ObserverRef) (w : World) :
    ((RemoveAllocationObserver o w).fatal = some Fatal.observer_not_registered ↔
      o ∉ w.counter.allocation_observers_) ∧
    ((RemoveAllocationObserver o w).fatal = none ↔ o ∈ w.counter.allocation_observers_) ∧
    (o ∉ w.counter.allocation_observers_ → (RemoveAllocationObserver o w).val = w) ∧
    (o ∈ w.counter.allocation_observers_ →
      (∃ before after,
        w.counter.allocation_observers_ = before ++ o :: after ∧ o ∉ before ∧
        (RemoveAllocationObserver o w).val.counter.allocation_observers_ = before ++ after) ∧
      (RemoveAllocationObserver o w).val.counter.prev_counter_ = w.counter.prev_counter_ ∧
      (RemoveAllocationObserver o w).val.counter.current_counter_ =
        w.counter.current_counter_ ∧
      (RemoveAllocationObserver o w).val.counter.next_counter_ = w.counter.next_counter_ ∧
      (RemoveAllocationObserver o w).val.observers = w.observers ∧
      (RemoveAllocationObserver o w).val.heap = w.heap ∧
      (RemoveAllocationObserver o w).val.trace = w.trace) := by
  by_cases h : o ∈ w.counter.allocation_observers_
  · refine ⟨by simp [RemoveAllocationObserver, h], by simp [RemoveAllocationObserver, h],
      fun hn => absurd h hn, fun _ => ?_⟩
    obtain ⟨before, after, hnot, hsplit, herase⟩ := List.exists_erase_eq h
    refine ⟨⟨before, after, hsplit, hnot, ?_⟩, ?_⟩
    · simp [RemoveAllocationObserver, h, herase]
    · simp [RemoveAllocationObserver, h]
  · refine ⟨by simp [RemoveAllocationObserver, h], by simp [RemoveAllocationObserver, h],
      fun _ => by simp [RemoveAllocationObserver, h], fun hm => absurd hm h⟩

/-- C12 at a reachable state with observers 1 and 2: removing 1 leaves `[2]` and the counters
21, 21, 34; removing the unregistered observer 3 fails the assertion. -/
theorem C12_remove_observer_witness :
    (1 : ObserverRef) ∈ twoObserversWorld.counter.allocation_observers_ ∧
    (RemoveAllocationObserver 1 twoObserversWorld).val.counter = ⟨[2], 21, 21, 34⟩ ∧
    (RemoveAllocationObserver 3 twoObserversWorld).fatal =
      some Fatal.observer_not_registered ∧
    (RemoveAllocationObserver 1 twoObserversWorld).val.trace = twoObserversWorld.trace :=
  ⟨by decide, by decide, by decide,
    ((C12_remove_observer 1 twoObserversWorld).2.2.2 (by decide)).2.2.2.2.2.2⟩

/-! ## C13 -/

/-- C13: for every observer state, every `bytes_allocated >= 0` and observers whose
`GetNextStepSize()` returns a positive value, `AllocationStep` passes all its assertions and
`bytes_to_next_step >= 0` holds when it returns, although in the middle of a firing call, when
`Step` is invoked, `bytes_to_next_step` is the non-positive value `r = bytes_to_next_step -
bytes_allocated`. -/
theorem C13_closing_assertion (gns : ObserverRef → World → Int) (self : ObserverRef)
    (bytes_allocated : Int) (addr : Address) (size : Nat) (w : World)
    (hb : 0 ≤ bytes_allocated) (hgns : ∀ o w, 0 < gns o w) :
    (AllocationStep (Callbacks.passive gns) self bytes_allocated addr size w).fatal = none ∧
    0 ≤ ((AllocationStep (Callbacks.passive gns) self bytes_allocated addr size
      w).val.observers self).bytes_to_next_step_ ∧
    ((w.observers self).bytes_to_next_step_ - bytes_allocated ≤ 0 →
      ((firedWorld self bytes_allocated addr size w).observers self).bytes_to_next_step_ =
        (w.observers self).bytes_to_next_step_ - bytes_allocated) := by
  obtain ⟨h1, h2, _⟩ := AllocationStep_completes gns hgns self bytes_allocated addr size w hb
  refine ⟨h1, le_of_lt h2, fun _ => ?_⟩
  simp [firedWorld]

/-- C13 with period 100 and one allocation of 250 bytes: `bytes_to_next_step` is -150 when
`Step` is invoked and 100 when `AllocationStep` returns. -/
theorem C13_closing_assertion_witness :
    (0 : Int) ≤ 250 ∧
    ((firedWorld 0 250 8 16 (World.init fun _ => 100)).observers 0).bytes_to_next_step_ =
      -150 ∧
    (AllocationStep (Callbacks.passive fun _ _ => 100) 0 250 8 16
      (World.init fun _ => 100)).fatal = none ∧
    ((AllocationStep (Callbacks.passive fun _ _ => 100) 0 250 8 16
      (World.init fun _ => 100)).val.observers 0).bytes_to_next_step_ = 100 :=
  ⟨by decide, by decide,
    (C13_closing_assertion (fun _ _ => 100) 0 250 8 16 (World.init fun _ => 100) (by decide)
      (fun _ _ => by norm_num)).1,
    by decide⟩

/-! ## C14 -/

theorem AllocationStep_firing (exact : Prop) (p : Int) (hp : 0 < p) (self : ObserverRef)
    (b : Int) (addr : Address) (size : Nat) (w : World) (k : Nat) (s t : Int) (hb : 0 ≤ b)
    (hfit : exact → p + b ≤ 2147483648) (h : FiringInv exact p self w k s t) :
    ∃ events,
      (AllocationStep (Callbacks.passive fun _ _ => p) self b addr size w).val.trace =
        w.trace ++ events ∧
      (AllocationStep (Callbacks.passive fun _ _ => p) self b addr size w).fatal = none ∧
      FiringInv exact p self
        (AllocationStep (Callbacks.passive fun _ _ => p) self b addr size w).val
        (k + events.countP Event.isStep) (s + (stepArguments events).sum) (t + b) := by
  obtain ⟨h1, h2, h3, h4, h5, h6, h7⟩ := h
  by_cases hr : 0 < (w.observers self).bytes_to_next_step_ - b
  · rw [AllocationStep_no_fire _ self b addr size w hb hr]
    refine ⟨[Event.AllocationStep self b addr size], by simp, rfl, ?_⟩
    simp only [FiringInv, set_bytes_self, record_observers, List.countP_cons, List.countP_nil,
      Event.isStep, stepArguments, List.sum_nil, Bool.false_eq_true, if_false, Nat.add_zero,
      Int.add_zero]
    refine ⟨h1, hr, by omega, by omega, fun hk => ?_, by omega, fun he => ?_⟩
    · have := h5 hk
      omega
    · have := h7 he
      omega
  · rw [AllocationStep_fire (fun _ _ => p) self b addr size w hb (by omega)]
    refine ⟨[Event.AllocationStep self b addr size,
      Event.Step self
        (static_cast_int ((w.observers self).step_size_ -
          ((w.observers self).bytes_to_next_step_ - b))) addr size], by simp, ?_, ?_⟩
    · have : ¬ p < 0 := by omega
      simp [this]
    · have hk : ((k + 1 : Nat) : Int) * p = (k : Int) * p + p := by
        push_cast
        ring
      simp only [FiringInv, set_bytes_self, set_step_self, List.countP_cons, List.countP_nil,
        Event.isStep, stepArguments, List.sum_cons, List.sum_nil, Bool.false_eq_true, if_false,
        if_true, Nat.zero_add, Int.add_zero, h1]
      refine ⟨trivial, hp, le_refl _, ?_, fun hz => absurd hz (by omega), ?_, fun he => ?_⟩
      · rw [hk]
        omega
      · unfold static_cast_int
        omega
      · have := h7 he
        have := hfit he
        rw [static_cast_int_of_fits _ (by omega) (by omega)]
        omega

theorem AllocationSteps_firing (exact : Prop) (p : Int) (hp : 0 < p) (self : ObserverRef)
    (calls : List (Int × Address × Nat)) (w : World) (k : Nat) (s t : Int)
    (hcalls : ∀ c ∈ calls, 0 ≤ c.1) (hfit : exact → ∀ c ∈ calls, p + c.1 ≤ 2147483648)
    (h : FiringInv exact p self w k s t) :
    ∃ events,
      (AllocationSteps (Callbacks.passive fun _ _ => p) self calls w).val.trace =
        w.trace ++ events ∧
      (AllocationSteps (Callbacks.passive fun _ _ => p) self calls w).fatal = none ∧
      FiringInv exact p self (AllocationSteps (Callbacks.passive fun _ _ => p) self calls w).val
        (k + events.countP Event.isStep) (s + (stepArguments events).sum)
        (t + (calls.map fun c => c.1).sum) := by
  induction calls generalizing w k s t with
  | nil => exact ⟨[], by simp [AllocationSteps], rfl, by simpa [AllocationSteps, stepArguments] using h⟩
  | cons c rest ih =>
    obtain ⟨ev1, ht1, hf1, hinv1⟩ := AllocationStep_firing exact p hp self c.1 c.2.1 c.2.2 w k
      s t (hcalls c (List.mem_cons_self _ _))
      (fun he => hfit he c (List.mem_cons_self _ _)) h
    obtain ⟨ev2, ht2, hf2, hinv2⟩ := ih
      (AllocationStep (Callbacks.passive fun _ _ => p) self c.1 c.2.1 c.2.2 w).val
      (k + ev1.countP Event.isStep) (s + (stepArguments ev1).sum) (t + c.1)
      (fun c' hc' => hcalls c' (List.mem_cons_of_mem _ hc'))
      (fun he c' hc' => hfit he c' (List.mem_cons_of_mem _ hc')) hinv1
    simp only [AllocationSteps, hf1]
    refine ⟨ev1 ++ ev2, ?_, hf2, ?_⟩
    · rw [ht2, ht1, List.append_assoc]
    · have harg : stepArguments (ev1 ++ ev2) = stepArguments ev1 ++ stepArguments ev2 := by
        clear ht1 hinv1 ht2 hinv2
        induction ev1 with
        | nil => rfl
        | cons e r ihr => cases e <;> simp [stepArguments, ihr]
      rw [List.countP_append, harg, List.sum_append, List.map_cons, List.sum_cons]
      have e1 : k + (ev1.countP Event.isStep + ev2.countP Event.isStep) =
          k + ev1.countP Event.isStep + ev2.countP Event.isStep := by omega
      have e2 : s + ((stepArguments ev1).sum + (stepArguments ev2).sum) =
          s + (stepArguments ev1).sum + (stepArguments ev2).sum := by omega
      have e3 : t + (c.1 + (rest.map fun c => c.1).sum) =
          t + c.1 + (rest.map fun c => c.1).sum := by omega
      rw [e1, e2, e3]
      exact hinv2

/-- C15 (as amended): for an observer with constant period 100 that starts a fresh period
(`bytes_to_next_step = step_size = 100`, `GetNextStepSize` always 100), every sequence of
`AllocationStep` notifications with non-negative sizes whose cumulative total is 250 bytes
passes its assertions and invokes `Step` at least once and at most twice in total (never three
times): a call fires at most once however far it overshoots. -/
theorem C15_total_250 (self : ObserverRef) (w : World) (calls : List (Int × Address × Nat))
    (hstart : (w.observers self).bytes_to_next_step_ = 100 ∧
      (w.observers self).step_size_ = 100)
    (hcalls : ∀ c ∈ calls, 0 ≤ c.1) (htotal : (calls.map fun c => c.1).sum = 250) :
    ∃ events,
      (AllocationSteps (Callbacks.passive fun _ _ => 100) self calls w).val.trace =
        w.trace ++ events ∧
      (AllocationSteps (Callbacks.passive fun _ _ => 100) self calls w).fatal = none ∧
      1 ≤ events.countP Event.isStep ∧ events.countP Event.isStep ≤ 2 := by
  obtain ⟨events, ht, hf, h1, h2, h3, h4, h5, _, _⟩ := AllocationSteps_firing False 100
    (by norm_num) self calls w 0 0 0 hcalls (fun h => absurd h not_false)
    ⟨hstart.2, by rw [hstart.1]; norm_num, by rw [hstart.1], by rw [hstart.1]; norm_num,
      fun _ => by rw [hstart.1]; norm_num, by rw [hstart.1]; norm_num,
      fun h => absurd h not_false⟩
  rw [htotal] at h4 h5
  refine ⟨events, ht, hf, ?_, ?_⟩
  · by_contra hk
    have := h5 (by omega)
    omega
  · omega

/-- C15 with the notifications 100, 100, 50: `Step` is invoked twice, with 100 each time. -/
theorem C15_total_250_witness :
    (∀ c ∈ [((100 : Int), (8 : Address), (16 : Nat)), (100, 8, 16), (50, 8, 16)], 0 ≤ c.1) ∧
    (([((100 : Int), (8 : Address), (16 : Nat)), (100, 8, 16), (50, 8, 16)].map
      fun c => c.1).sum = 250) ∧
    (AllocationSteps (Callbacks.passive fun _ _ => 100) 0
      [(100, 8, 16), (100, 8, 16), (50, 8, 16)] (World.init fun _ => 100)).val.trace.filter
        Event.isStep = [Event.Step 0 100 8 16, Event.Step 0 100 8 16] ∧
    ∃ events,
      (AllocationSteps (Callbacks.passive fun _ _ => 100) 0
        [(100, 8, 16), (100, 8, 16), (50, 8, 16)] (World.init fun _ => 100)).val.trace =
        (World.init fun _ => 100).trace ++ events ∧
      (AllocationSteps (Callbacks.passive fun _ _ => 100) 0
        [(100, 8, 16), (100, 8, 16), (50, 8, 16)] (World.init fun _ => 100)).fatal = none ∧
      1 ≤ events.countP Event.isStep ∧ events.countP Event.isStep ≤ 2 :=
  ⟨by decide, by decide, by decide,
    C15_total_250 0 (World.init fun _ => 100) [(100, 8, 16), (100, 8, 16), (50, 8, 16)]
      ⟨rfl, rfl⟩ (by decide) (by decide)⟩

/-- C15 as stated fails: the notifications 50, 200 total 250 bytes and invoke `Step` once
(with 250), and so does the single notification of 250 bytes. -/
theorem C15_counterexample :
    (([((50 : Int), (8 : Address), (16 : Nat)), (200, 8, 16)].map fun c => c.1).sum = 250) ∧
    (AllocationSteps (Callbacks.passive fun _ _ => 100) 0 [(50, 8, 16), (200, 8, 16)]
      (World.init fun _ => 100)).val.trace =
      [Event.AllocationStep 0 50 8 16, Event.AllocationStep 0 200 8 16,
        Event.Step 0 250 8 16] ∧
    (AllocationSteps (Callbacks.passive fun _ _ => 100) 0 [(50, 8, 16), (200, 8, 16)]
      (World.init fun _ => 100)).val.trace.countP Event.isStep = 1 ∧
    (AllocationSteps (Callbacks.passive fun _ _ => 100) 0 [(250, 8, 16)]
      (World.init fun _ => 100)).val.trace.countP Event.isStep = 1 := by
  decide

/-! ## C16 -/

theorem ReachableWithoutOverflow_order (gns : ObserverRef → World → Int)
    (step_size : ObserverRef → Int) (w : World)
    (h : ReachableWithoutOverflow (Callbacks.passive gns) step_size w) : CounterOrder w := by
  induction h with
  | init => exact ⟨le_refl _, le_refl _, by simp [World.init]⟩
  | step op hw hok hno ih =>
    cases op with
    | AddAllocationObserver o => exact ih
    | RemoveAllocationObserver o =>
      simp only [applyOp, RemoveAllocationObserver]
      split_ifs
      · exact ih
      · exact ih
    | NotifyBytes n => exact NotifyBytes_order n _ ih hok
    | NotifyObject addr n => exact NotifyObject_order gns addr n _ ih hok hno

theorem NotifyObject_passive_counter (gns : ObserverRef → World → Int) (addr : Address)
    (n : Nat) (w : World) (hactive : IsActive w = true)
    (hok : (NotifyObject (Callbacks.passive gns) addr n w).fatal = none) :
    to_size_t (w.counter.next_counter_ - w.counter.current_counter_) < n ∧
    (fanOut (Callbacks.passive gns) addr n w).fatal = none ∧
    0 ≤ (fanOut (Callbacks.passive gns) addr n w).val.2 ∧
    (NotifyObject (Callbacks.passive gns) addr n w).val.counter =
      { w.counter with
        prev_counter_ := w.counter.current_counter_
        next_counter_ :=
          to_size_t (w.counter.current_counter_ + n +
            (fanOut (Callbacks.passive gns) addr n w).val.2) } ∧
    (NotifyObject (Callbacks.passive gns) addr n w).val.observers =
      (fanOut (Callbacks.passive gns) addr n w).val.1.observers := by
  rcases NotifyObject_cases (Callbacks.passive gns) addr n w with hc | hc | ⟨_, hn, _, _, hc⟩
  · exact absurd hok (hc.2 hactive)
  · rw [hc] at hok
    simp at hok
  · have hcount := (NotifyObjectLoop_passive_counter gns
      (static_cast_int (to_size_t (w.counter.current_counter_ - w.counter.prev_counter_)))
      addr n w.counter.allocation_observers_ 0 (fillerWorld addr n w)).1
    change (fanOut (Callbacks.passive gns) addr n w).val.1.counter = _ at hcount
    have hcw : (fillerWorld addr n w).counter = w.counter := rfl
    rw [hcw] at hcount
    rw [hc] at hok ⊢
    unfold Outcome.andThen at hok ⊢
    split at hok
    · rename_i hf
      have hpos := NotifyObjectLoop_passive_nonneg gns _ addr n
        w.counter.allocation_observers_ 0 (fillerWorld addr n w) hf (le_refl 0)
      change 0 ≤ (fanOut (Callbacks.passive gns) addr n w).val.2 at hpos
      refine ⟨hn, hf, hpos, ?_, ?_⟩
      · simp only [hf]
        rw [hcount]
      · simp only [hf]
    · simp at hok

/-- C16: in every state reachable from a fresh counter, for every operation
(`AddAllocationObserver`, `RemoveAllocationObserver`, `NotifyBytes`, `NotifyObject`) that
passes its assertions and does not overflow, each of `prev_counter`, `current_counter` and
`next_counter` after the call is at least its value before the call; and an active
`NotifyObject` strictly increases `next_counter`. -/
theorem C16_counters_monotone (gns : ObserverRef → World → Int)
    (step_size : ObserverRef → Int) (w : World) (op : Op)
    (h : ReachableWithoutOverflow (Callbacks.passive gns) step_size w)
    (hok : (applyOp (Callbacks.passive gns) op w).fatal = none)
    (hno : NoOverflow (Callbacks.passive gns) op w) :
    w.counter.prev_counter_ ≤ (applyOp (Callbacks.passive gns) op w).val.counter.prev_counter_ ∧
    w.counter.current_counter_ ≤
      (applyOp (Callbacks.passive gns) op w).val.counter.current_counter_ ∧
    w.counter.next_counter_ ≤ (applyOp (Callbacks.passive gns) op w).val.counter.next_counter_ ∧
    (∀ addr n, op = Op.NotifyObject addr n → IsActive w = true →
      w.counter.next_counter_ <
        (applyOp (Callbacks.passive gns) op w).val.counter.next_counter_) := by
  obtain ⟨h1, h2, h3⟩ := ReachableWithoutOverflow_order gns step_size w h
  cases op with
  | AddAllocationObserver o =>
    exact ⟨le_refl _, le_refl _, le_refl _, fun _ _ hop => by cases hop⟩
  | RemoveAllocationObserver o =>
    simp only [applyOp, RemoveAllocationObserver]
    split_ifs
    · exact ⟨le_refl _, le_refl _, le_refl _, fun _ _ hop => by cases hop⟩
    · exact ⟨le_refl _, le_refl _, le_refl _, fun _ _ hop => by cases hop⟩
  | NotifyBytes n =>
    simp only [applyOp] at hok ⊢
    refine ⟨?_, ?_, ?_, fun _ _ hop => by cases hop⟩
    · simp only [NotifyBytes]
      split_ifs <;> exact le_refl _
    · by_cases ha : IsActive w = true
      · have hfat := NotifyBytes_fatal n w ha
        rw [to_size_t_sub _ _ h2 h3] at hfat
        by_cases hn : n ≤ w.counter.next_counter_ - w.counter.current_counter_
        · have hsub : to_size_t (w.counter.next_counter_ - w.counter.current_counter_) =
              w.counter.next_counter_ - w.counter.current_counter_ := to_size_t_sub _ _ h2 h3
          simp only [NotifyBytes, ha, Bool.not_true, Bool.false_eq_true, if_false, hsub, hn,
            not_true]
          rw [to_size_t_add _ _ (by omega)]
          omega
        · rw [hfat] at hok
          simp [hn] at hok
      · rw [NotifyBytes_inactive n w (by simpa using ha)]
    · simp only [NotifyBytes]
      split_ifs <;> exact le_refl _
  | NotifyObject addr n =>
    simp only [applyOp] at hok ⊢
    by_cases ha : IsActive w = true
    · obtain ⟨hn, _, hpos, hc, _⟩ := NotifyObject_passive_counter gns addr n w ha hok
      have hsum := hno ha
      rw [to_size_t_sub _ _ h2 h3] at hn
      rw [hc]
      simp only
      have hnext : w.counter.next_counter_ <
          to_size_t (w.counter.current_counter_ + n +
            (fanOut (Callbacks.passive gns) addr n w).val.2) := by
        unfold to_size_t
        omega
      exact ⟨h1, le_refl _, le_of_lt hnext, fun _ _ _ _ => hnext⟩
    · rw [NotifyObject_inactive _ addr n w (by simpa using ha)]
      exact ⟨le_refl _, le_refl _, le_refl _, fun _ _ _ hact => absurd hact ha⟩

/-- C16 at a reachable state with counters 0, 16, 116: `NotifyObject(64, 200)` moves them to
16, 16, 300. -/
theorem C16_counters_monotone_witness :
    ReachableWithoutOverflow (Callbacks.passive fun _ _ => 100) (fun _ => 100)
      steppedOnceWorld ∧
    steppedOnceWorld.counter = ⟨[1], 0, 16, 116⟩ ∧
    (applyOp (Callbacks.passive fun _ _ => 100) (Op.NotifyObject 64 200)
      steppedOnceWorld).val.counter = ⟨[1], 16, 16, 300⟩ ∧
    steppedOnceWorld.counter.next_counter_ <
      (applyOp (Callbacks.passive fun _ _ => 100) (Op.NotifyObject 64 200)
        steppedOnceWorld).val.counter.next_counter_ :=
  ⟨steppedOnceWorld_reachable, by decide, by decide,
    (C16_counters_monotone (fun _ _ => 100) (fun _ => 100) steppedOnceWorld
      (Op.NotifyObject 64 200) steppedOnceWorld_reachable (by decide)
      (by intro _; decide)).2.2.2 64 200 rfl (by decide)⟩

/-! ## C17 -/

theorem SpaceIteratorLoop_eq (member : Space → Space) (call : Nat → SpaceCall)
    (spaces : List Space) (calls : List SpaceCall) :
    SpaceIteratorLoop member call spaces calls =
      (spaces.map member, calls ++ spaces.map fun s => call s.id) := by
  induction spaces generalizing calls with
  | nil => simp [SpaceIteratorLoop]
  | cons s rest ih => simp [SpaceIteratorLoop, ih]

theorem PauseAllocationObserversScope_not_in_gc (heap : HeapSpaces)
    (h : heap.gc_state_ = HeapState.NOT_IN_GC) :
    PauseAllocationObserversScope heap =
      ⟨{ heap with
          spaces := heap.spaces.map Space.PauseAllocationObservers
          calls := heap.calls ++
            heap.spaces.map fun s => SpaceCall.PauseAllocationObservers s.id }, none⟩ := by
  simp [PauseAllocationObserversScope, h, SpaceIteratorLoop_eq]

theorem PauseAllocationObserversScope_destructor_eq (heap : HeapSpaces) :
    PauseAllocationObserversScope.destructor heap =
      ⟨{ heap with
          spaces := heap.spaces.map Space.ResumeAllocationObservers
          calls := heap.calls ++
            heap.spaces.map fun s => SpaceCall.ResumeAllocationObservers s.id }, none⟩ := by
  simp [PauseAllocationObserversScope.destructor, SpaceIteratorLoop_eq]

theorem runScopes_nested (events : List ScopeEvent) (heap : HeapSpaces) (depth : Nat)
    (hgc : heap.gc_state_ = HeapState.NOT_IN_GC)
    (hnested : properlyNested events depth = true) :
    (runScopes events heap).fatal = none ∧
    (runScopes events heap).val.gc_state_ = HeapState.NOT_IN_GC ∧
    events.count ScopeEvent.destroy = depth + events.count ScopeEvent.construct ∧
    (runScopes events heap).val.spaces =
      heap.spaces.map fun s =>
        ⟨s.id, s.pause_calls + events.count ScopeEvent.construct,
          s.resume_calls + events.count ScopeEvent.destroy⟩ := by
  induction events generalizing heap depth with
  | nil =>
    simp only [properlyNested, beq_iff_eq] at hnested
    refine ⟨rfl, hgc, by simp [hnested], ?_⟩
    simp [runScopes]
  | cons e rest ih =>
    cases e with
    | construct =>
      simp only [properlyNested] at hnested
      simp only [runScopes, PauseAllocationObserversScope_not_in_gc heap hgc]
      obtain ⟨h1, h2, h3, h4⟩ := ih
        { heap with
          spaces := heap.spaces.map Space.PauseAllocationObservers
          calls := heap.calls ++
            heap.spaces.map fun s => SpaceCall.PauseAllocationObservers s.id }
        (depth + 1) hgc hnested
      refine ⟨h1, h2, ?_, ?_⟩
      · simp only [List.count_cons, beq_self_eq_true, if_true]
        simp
        omega
      · rw [h4]
        simp only [List.map_map, List.count_cons, beq_self_eq_true, if_true]
        apply List.map_congr_left
        intro s _
        simp [Space.PauseAllocationObservers]
        omega
    | destroy =>
      simp only [properlyNested, Bool.and_eq_true, decide_eq_true_eq] at hnested
      simp only [runScopes, PauseAllocationObserversScope_destructor_eq heap]
      obtain ⟨h1, h2, h3, h4⟩ := ih
        { heap with
          spaces := heap.spaces.map Space.ResumeAllocationObservers
          calls := heap.calls ++
            heap.spaces.map fun s => SpaceCall.ResumeAllocationObservers s.id }
        (depth - 1) hgc hnested.2
      refine ⟨h1, h2, ?_, ?_⟩
      · simp only [List.count_cons, beq_self_eq_true, if_true]
        simp
        omega
      · rw [h4]
        simp only [List.map_map, List.count_cons, beq_self_eq_true, if_true]
        apply List.map_congr_left
        intro s _
        simp [Space.ResumeAllocationObservers]
        omega

/-- C17: with each space's paused state kept as counters of the calls it receives,
constructing a `PauseAllocationObserversScope` on a heap in GC fails the assertion before any
call; on a heap that is not in GC it calls `PauseAllocationObservers` exactly once on every
space of the heap, in iteration order; destroying it calls `ResumeAllocationObservers` exactly
once on every space, in the same order; so after any properly nested sequence of scope
constructions and destructions each space has received as many pause calls as resume calls
(one of each per scope), and a space whose two counts were equal has them equal again. -/
theorem C17_pause_resume_balance (heap : HeapSpaces) :
    (heap.gc_state_ ≠ HeapState.NOT_IN_GC →
      PauseAllocationObserversScope heap = ⟨heap, some Fatal.heap_in_gc⟩) ∧
    (heap.gc_state_ = HeapState.NOT_IN_GC →
      (PauseAllocationObserversScope heap).fatal = none ∧
      (PauseAllocationObserversScope heap).val.spaces =
        heap.spaces.map Space.PauseAllocationObservers ∧
      (PauseAllocationObserversScope heap).val.calls =
        heap.calls ++ heap.spaces.map fun s => SpaceCall.PauseAllocationObservers s.id) ∧
    ((PauseAllocationObserversScope.destructor heap).fatal = none ∧
      (PauseAllocationObserversScope.destructor heap).val.spaces =
        heap.spaces.map Space.ResumeAllocationObservers ∧
      (PauseAllocationObserversScope.destructor heap).val.calls =
        heap.calls ++ heap.spaces.map fun s => SpaceCall.ResumeAllocationObservers s.id) ∧
    (∀ events : List ScopeEvent, heap.gc_state_ = HeapState.NOT_IN_GC →
      properlyNested events 0 = true →
      (runScopes events heap).fatal = none ∧
      (runScopes events heap).val.spaces =
        heap.spaces.map (fun s =>
          ⟨s.id, s.pause_calls + events.count ScopeEvent.construct,
            s.resume_calls + events.count ScopeEvent.construct⟩) ∧
      ((∀ s ∈ heap.spaces, s.pause_calls = s.resume_calls) →
        ∀ s ∈ (runScopes events heap).val.spaces, s.pause_calls = s.resume_calls)) := by
  refine ⟨fun h => ?_, fun h => ?_, ?_, fun events hgc hnested => ?_⟩
  · simp [PauseAllocationObserversScope, h]
  · rw [PauseAllocationObserversScope_not_in_gc heap h]
    exact ⟨rfl, rfl, rfl⟩
  · rw [PauseAllocationObserversScope_destructor_eq heap]
    exact ⟨rfl, rfl, rfl⟩
  · obtain ⟨h1, _, h3, h4⟩ := runScopes_nested events heap 0 hgc hnested
    rw [h3, Nat.zero_add] at h4
    refine ⟨h1, h4, fun hbal s hs => ?_⟩
    rw [h4] at hs
    obtain ⟨s0, hs0, rfl⟩ := List.mem_map.1 hs
    simp only
    rw [hbal s0 hs0]

/-- C17 on a heap with three spaces: one scope pauses the spaces 0, 1, 2 and resumes them in
the same order; after three scopes, two of them nested, each space has counted three pause
calls and three resume calls. -/
theorem C17_pause_resume_balance_witness :
    threeSpaces.gc_state_ = HeapState.NOT_IN_GC ∧
    properlyNested
      [ScopeEvent.construct, ScopeEvent.construct, ScopeEvent.destroy, ScopeEvent.destroy,
        ScopeEvent.construct, ScopeEvent.destroy] 0 = true ∧
    (PauseAllocationObserversScope threeSpaces).val.calls =
      [SpaceCall.PauseAllocationObservers 0, SpaceCall.PauseAllocationObservers 1,
        SpaceCall.PauseAllocationObservers 2] ∧
    (PauseAllocationObserversScope.destructor
        (PauseAllocationObserversScope threeSpaces).val).val =
      ⟨HeapState.NOT_IN_GC, [⟨0, 1, 1⟩, ⟨1, 1, 1⟩, ⟨2, 1, 1⟩],
        [SpaceCall.PauseAllocationObservers 0, SpaceCall.PauseAllocationObservers 1,
          SpaceCall.PauseAllocationObservers 2, SpaceCall.ResumeAllocationObservers 0,
          SpaceCall.ResumeAllocationObservers 1, SpaceCall.ResumeAllocationObservers 2]⟩ ∧
    (runScopes
        [ScopeEvent.construct, ScopeEvent.construct, ScopeEvent.destroy, ScopeEvent.destroy,
          ScopeEvent.construct, ScopeEvent.destroy] threeSpaces).val.spaces =
      [⟨0, 3, 3⟩, ⟨1, 3, 3⟩, ⟨2, 3, 3⟩] ∧
    ∀ s ∈ (runScopes
        [ScopeEvent.construct, ScopeEvent.construct, ScopeEvent.destroy, ScopeEvent.destroy,
          ScopeEvent.construct, ScopeEvent.destroy] threeSpaces).val.spaces,
      s.pause_calls = s.resume_calls :=
  ⟨rfl, by decide, by decide, by decide, by decide,
    ((C17_pause_resume_balance threeSpaces).2.2.2
      [ScopeEvent.construct, ScopeEvent.construct, ScopeEvent.destroy, ScopeEvent.destroy,
        ScopeEvent.construct, ScopeEvent.destroy] rfl (by decide)).2.2 (by decide)⟩

/-! ## C18 -/

theorem halfRangeWorld_reachable :
    ReachableWithoutOverflow (Callbacks.passive fun _ _ => 2147483648)
      (fun _ => 2147483648) halfRangeWorld :=
  ReachableWithoutOverflow.step (Op.NotifyBytes 2147483648)
    (ReachableWithoutOverflow.step (Op.NotifyBytes 16)
      (ReachableWithoutOverflow.step (Op.NotifyObject 8 16)
        (ReachableWithoutOverflow.step (Op.AddAllocationObserver 1)
          ReachableWithoutOverflow.init rfl trivial)
        (by decide) (by intro _; decide))
      (by decide) trivial)
    (by decide) trivial

/-- C18 at a failing input: in a state reached by calls that pass their assertions and do
not overflow, with one observer of period `2^31`, `current_counter - prev_counter` is
`2^31 + 16`; the `NotifyObject` call whose own preconditions hold narrows it to
`-2147483632`, hands that to `AllocationStep`, and the entry assertion `bytes_allocated >= 0`
fails. -/
theorem C18_failing_input :
    ReachableWithoutOverflow (Callbacks.passive fun _ _ => 2147483648)
      (fun _ => 2147483648) halfRangeWorld ∧
    IsActive halfRangeWorld = true ∧
    to_size_t (halfRangeWorld.counter.next_counter_ -
      halfRangeWorld.counter.current_counter_) < 8 ∧
    halfRangeWorld.heap.allocation_step_in_progress_ = false ∧
    to_size_t (halfRangeWorld.counter.current_counter_ -
      halfRangeWorld.counter.prev_counter_) = 2147483664 ∧
    static_cast_int (to_size_t (halfRangeWorld.counter.current_counter_ -
      halfRangeWorld.counter.prev_counter_)) = -2147483632 ∧
    (NotifyObject (Callbacks.passive fun _ _ => 2147483648) 64 8 halfRangeWorld).fatal =
      some Fatal.bytes_allocated_negative ∧
    (NotifyObject (Callbacks.passive fun _ _ => 2147483648) 64 8
        halfRangeWorld).val.trace.drop halfRangeWorld.trace.length =
      [Event.CreateFillerObjectAt 64 8, Event.AllocationStep 1 (-2147483632) 64 8] :=
  ⟨halfRangeWorld_reachable, by decide, by decide, by decide, by decide, by decide, by decide,
    by decide⟩

/-! ## C19 -/

theorem NotifyObjectLoop_bytes_nonneg (gns : ObserverRef → World → Int) (b : Int)
    (addr : Address) (size : Nat) (l : List ObserverRef) (next_step : Int) (w : World)
    (hl : l ≠ [])
    (hok : (NotifyObjectLoop (Callbacks.passive gns) b addr size l next_step w).fatal = none) :
    0 ≤ b := by
  cases l with
  | nil => exact absurd rfl hl
  | cons a rest =>
    simp only [NotifyObjectLoop] at hok
    cases hf : (AllocationStep (Callbacks.passive gns) a b addr size w).fatal with
    | none => exact (AllocationStep_passive_self gns a b addr size w hf).1
    | some e => simp [hf] at hok

/-- C19 (as amended): `NotifyObject` does not advance `current_counter`; after a
`NotifyObject(addr, s)` that completes on an active counter with distinct observers of positive
period, and whose sum `current_counter + s + next_step` fits a `size_t`, the follow-up
`NotifyBytes(s)` passes its assertion, and after it the remaining distance `next_counter -
current_counter` equals the value `GetNextInlineAllocationStepSize()` returns, its assertion
passing. -/
theorem C19_room_for_object (gns : ObserverRef → World → Int) (addr : Address)
    (s : Nat) (w : World) (hgns : ∀ o w, 0 < gns o w) (hactive : IsActive w = true)
    (hnodup : w.counter.allocation_observers_.Nodup)
    (hok : (NotifyObject (Callbacks.passive gns) addr s w).fatal = none)
    (hno : NoOverflow (Callbacks.passive gns) (Op.NotifyObject addr s) w) :
    (NotifyObject (Callbacks.passive gns) addr s w).val.counter.current_counter_ =
      w.counter.current_counter_ ∧
    (NotifyBytes s (NotifyObject (Callbacks.passive gns) addr s w).val).fatal = none ∧
    (GetNextInlineAllocationStepSize
      (NotifyBytes s (NotifyObject (Callbacks.passive gns) addr s w).val).val).fatal = none ∧
    ((NotifyBytes s (NotifyObject (Callbacks.passive gns) addr s w).val).val.counter.next_counter_
        : Int) -
      (NotifyBytes s
        (NotifyObject (Callbacks.passive gns) addr s w).val).val.counter.current_counter_ =
      (GetNextInlineAllocationStepSize
        (NotifyBytes s (NotifyObject (Callbacks.passive gns) addr s w).val).val).val := by
  obtain ⟨_, hf, hpos, hc, hobs⟩ := NotifyObject_passive_counter gns addr s w hactive hok
  have hne : w.counter.allocation_observers_ ≠ [] := by
    intro h
    simp [IsActive, h] at hactive
  have hb := NotifyObjectLoop_bytes_nonneg gns _ addr s w.counter.allocation_observers_ 0
    (fillerWorld addr s w) hne hf
  obtain ⟨_, hbtns, _⟩ := NotifyObjectLoop_completes gns hgns _ hb addr s
    w.counter.allocation_observers_ 0 (fillerWorld addr s w)
  have hns := NotifyObjectLoop_next_step gns _ addr s w.counter.allocation_observers_ hnodup 0
    (fillerWorld addr s w) hf
  change ∀ o ∈ _, 0 < ((fanOut (Callbacks.passive gns) addr s w).val.1.observers
    o).bytes_to_next_step_ at hbtns
  change (fanOut (Callbacks.passive gns) addr s w).val.2 = List.foldl
    (fun ns o => next_step_update ns
      ((fanOut (Callbacks.passive gns) addr s w).val.1.observers o).bytes_to_next_step_) 0 _
    at hns
  have hsum := hno hactive
  generalize (NotifyObject (Callbacks.passive gns) addr s w).val = w1 at hc hobs ⊢
  generalize (fanOut (Callbacks.passive gns) addr s w).val = p at hpos hc hobs hbtns hns hsum
  have hact1 : IsActive w1 = true := by
    simp only [IsActive, hc]
    exact hactive
  have hroom : to_size_t ((w1.counter.next_counter_ : Int) - w1.counter.current_counter_) =
      s + p.2.toNat := by
    rw [hc]
    simp only
    unfold to_size_t
    omega
  have hbytes : NotifyBytes s w1 =
      ⟨{ w1 with counter :=
          { w1.counter with
            current_counter_ := to_size_t (w1.counter.current_counter_ + s) } }, none⟩ := by
    have hle : s ≤ s + p.2.toNat := by omega
    simp [NotifyBytes, hact1, hroom, hle]
  rw [hbytes]
  have hlist : w1.counter.allocation_observers_ = w.counter.allocation_observers_ := by
    rw [hc]
  have hval : (GetNextInlineAllocationStepSize
      { w1 with counter :=
        { w1.counter with
          current_counter_ := to_size_t (w1.counter.current_counter_ + s) } }).val = p.2 := by
    rw [GetNextInlineAllocationStepSize_val, hns]
    simp only
    rw [hlist, hobs]
  have hposall := GetNextInlineAllocationStepSize_positive
    { w1 with counter :=
      { w1.counter with current_counter_ := to_size_t (w1.counter.current_counter_ + s) } }
    (by simp only; rw [hlist]; exact hne)
    (fun o ho => by
      simp only at ho ⊢
      rw [hobs]
      exact hbtns o (hlist ▸ ho))
  refine ⟨by rw [hc], rfl, hposall.2.2, ?_⟩
  rw [hval]
  simp only
  rw [hc]
  simp only
  unfold to_size_t
  omega

/-- C19 with two observers of periods 5 and 7 and counters 21, 21, 21: after
`NotifyObject(64, 8)` and `NotifyBytes(8)` the counters are 21, 29, 34 and the next step size
is 5. -/
theorem C19_room_for_object_witness :
    IsActive twoObserversDueWorld = true ∧
    twoObserversDueWorld.counter.allocation_observers_.Nodup ∧
    (NotifyObject (Callbacks.passive fun o _ => twoPeriods o) 64 8
      twoObserversDueWorld).fatal = none ∧
    (NotifyBytes 8 (NotifyObject (Callbacks.passive fun o _ => twoPeriods o) 64 8
      twoObserversDueWorld).val).val.counter = ⟨[1, 2], 21, 29, 34⟩ ∧
    (GetNextInlineAllocationStepSize
      (NotifyBytes 8 (NotifyObject (Callbacks.passive fun o _ => twoPeriods o) 64 8
        twoObserversDueWorld).val).val).val = 5 ∧
    (NotifyBytes 8 (NotifyObject (Callbacks.passive fun o _ => twoPeriods o) 64 8
      twoObserversDueWorld).val).fatal = none :=
  ⟨by decide, by decide, by decide, by decide, by decide,
    (C19_room_for_object (fun o _ => twoPeriods o) 64 8 twoObserversDueWorld
      (fun o _ => twoPeriods_pos o) (by decide) (by decide) (by decide)
      (by intro _; decide)).2.1⟩

/-- C19 as stated fails: on a fresh counter with one observer of period 100,
`NotifyObject(8, 2^64 - 1)` completes and installs the threshold `(2^64 - 1 + 100) mod 2^64 =
99`; the follow-up `NotifyBytes(2^64 - 1)` fails its assertion. -/
theorem C19_counterexample :
    IsActive oneObserverWorld = true ∧
    (NotifyObject (Callbacks.passive fun _ _ => 100) 8 18446744073709551615
      oneObserverWorld).fatal = none ∧
    (NotifyObject (Callbacks.passive fun _ _ => 100) 8 18446744073709551615
      oneObserverWorld).val.counter = ⟨[1], 0, 0, 99⟩ ∧
    (NotifyBytes 18446744073709551615
      (NotifyObject (Callbacks.passive fun _ _ => 100) 8 18446744073709551615
        oneObserverWorld).val).fatal = some Fatal.bytes_cross_threshold := by
  decide

/-! ## C20 -/

/-- C20 (as amended): for an observer with constant period `p > 0` that starts with
`bytes_to_next_step = step_size = p`, and for every sequence of `AllocationStep` calls with
non-negative sizes summing to `T`, the calls pass their assertions, the number `k` of `Step`
invocations satisfies `k * p <= T`, and the sum of the `bytes_allocated` arguments passed to
`Step` plus the final `step_size - bytes_to_next_step` equals `T` modulo `2^32`, and equals `T`
whenever `p + size <= 2^31` for every call (so that every amount handed to `Step` fits an
`int`). -/
theorem C20_firing_rate (p : Int) (self : ObserverRef) (w : World)
    (calls : List (Int × Address × Nat)) (hp : 0 < p)
    (hstart : (w.observers self).bytes_to_next_step_ = p ∧ (w.observers self).step_size_ = p)
    (hcalls : ∀ c ∈ calls, 0 ≤ c.1) :
    ∃ events,
      (AllocationSteps (Callbacks.passive fun _ _ => p) self calls w).val.trace =
        w.trace ++ events ∧
      (AllocationSteps (Callbacks.passive fun _ _ => p) self calls w).fatal = none ∧
      (events.countP Event.isStep : Int) * p ≤ (calls.map fun c => c.1).sum ∧
      ((stepArguments events).sum +
          (((AllocationSteps (Callbacks.passive fun _ _ => p) self calls w).val.observers
              self).step_size_ -
            ((AllocationSteps (Callbacks.passive fun _ _ => p) self calls w).val.observers
              self).bytes_to_next_step_) -
          (calls.map fun c => c.1).sum) % 4294967296 = 0 ∧
      ((∀ c ∈ calls, p + c.1 ≤ 2147483648) →
        (stepArguments events).sum +
            (((AllocationSteps (Callbacks.passive fun _ _ => p) self calls w).val.observers
                self).step_size_ -
              ((AllocationSteps (Callbacks.passive fun _ _ => p) self calls w).val.observers
                self).bytes_to_next_step_) =
          (calls.map fun c => c.1).sum) := by
  obtain ⟨events, ht, hf, h1, h2, h3, h4, h5, h6, h7⟩ := AllocationSteps_firing
    (∀ c ∈ calls, p + c.1 ≤ 2147483648) p hp self calls w 0 0 0 hcalls (fun h => h)
    ⟨hstart.2, by rw [hstart.1]; exact hp, by rw [hstart.1], by rw [hstart.1]; simp,
      fun _ => by rw [hstart.1]; simp, by rw [hstart.1]; simp,
      fun _ => by rw [hstart.1]; simp⟩
  simp only [Nat.zero_add, Int.zero_add] at h4 h6 h7
  refine ⟨events, ht, hf, ?_, ?_, fun hfit => ?_⟩
  · omega
  · rw [h1]
    exact h6
  · rw [h1]
    exact h7 hfit

/-- C20 with period 100 and the notifications 60, 60, 60: one firing, with 120, and 40 bytes
left in the period, so that 60 bytes are accumulated: 120 + 60 = 180. -/
theorem C20_firing_rate_witness :
    (0 : Int) < 100 ∧
    (∀ c ∈ [((60 : Int), (8 : Address), (16 : Nat)), (60, 8, 16), (60, 8, 16)], 0 ≤ c.1) ∧
    stepArguments (AllocationSteps (Callbacks.passive fun _ _ => 100) 0
      [(60, 8, 16), (60, 8, 16), (60, 8, 16)] (World.init fun _ => 100)).val.trace = [120] ∧
    ((AllocationSteps (Callbacks.passive fun _ _ => 100) 0
      [(60, 8, 16), (60, 8, 16), (60, 8, 16)] (World.init fun _ => 100)).val.observers
        0).bytes_to_next_step_ = 40 ∧
    ∃ events,
      (AllocationSteps (Callbacks.passive fun _ _ => 100) 0
        [(60, 8, 16), (60, 8, 16), (60, 8, 16)] (World.init fun _ => 100)).val.trace =
        (World.init fun _ => 100).trace ++ events ∧
      (events.countP Event.isStep : Int) * 100 ≤
        ([((60 : Int), (8 : Address), (16 : Nat)), (60, 8, 16), (60, 8, 16)].map
          fun c => c.1).sum := by
  obtain ⟨events, ht, _, hk, _, _⟩ := C20_firing_rate 100 0 (World.init fun _ => 100)
    [(60, 8, 16), (60, 8, 16), (60, 8, 16)] (by decide) ⟨rfl, rfl⟩ (by decide)
  exact ⟨by decide, by decide, by decide, by decide, events, ht, hk⟩

/-- C20 as stated fails: with period `2^31 - 1` and the notifications `2^31 - 2` and
`2^31 - 1`, which total `2^32 - 3` bytes, `Step` is invoked once with -3 and nothing is left
accumulated, so the sum is -3. -/
theorem C20_counterexample :
    (([((2147483646 : Int), (8 : Address), (16 : Nat)), (2147483647, 8, 16)].map
      fun c => c.1).sum = 4294967293) ∧
    stepArguments (AllocationSteps (Callbacks.passive fun _ _ => 2147483647) 0
      [(2147483646, 8, 16), (2147483647, 8, 16)]
      (World.init fun _ => 2147483647)).val.trace = [-3] ∧
    ((AllocationSteps (Callbacks.passive fun _ _ => 2147483647) 0
      [(2147483646, 8, 16), (2147483647, 8, 16)]
      (World.init fun _ => 2147483647)).val.observers 0).step_size_ -
      ((AllocationSteps (Callbacks.passive fun _ _ => 2147483647) 0
        [(2147483646, 8, 16), (2147483647, 8, 16)]
        (World.init fun _ => 2147483647)).val.observers 0).bytes_to_next_step_ = 0 ∧
    (stepArguments (AllocationSteps (Callbacks.passive fun _ _ => 2147483647) 0
      [(2147483646, 8, 16), (2147483647, 8, 16)]
      (World.init fun _ => 2147483647)).val.trace).sum + 0 ≠ 4294967293 := by
  decide

end v8.internal
